import Mathlib

/-! # Google Find My Device card: a verification development

A shallow embedding of the logic of `googlefindmy-card.js` (the settings store, the device
resolver, the configuration setter, the history fetch and its normalisation loop, the `hass`
setter, the redraw of the Leaflet map, the lifecycle callbacks, `render` and `_formatTime`)
together with theorems about it.

Leaflet is an abstract map: a handle with an identity, a centre, a zoom, layers and an open
popup, on which the card makes calls that do not throw.  A run of the card is a sequence of
steps on a `World`; deferred callbacks are steps of their own and may fire at any time.

JavaScript values are embedded as the tree type `JSVal`.  Numbers are rationals: every number
that JSON can carry is one, and `NaN` and the infinities cannot be written in JSON.  An object
is an association list that is only ever read through `JSVal.lookup` (first match wins), so
`{...a, ...b}` is `b ++ a` and an assignment `o.k = v` is `(k, v) :: o`.
-/

set_option autoImplicit false

namespace GoogleFindMy

/-! ## JavaScript values -/

/-- A JavaScript value as it can arrive from JSON, plus `undefined`. -/
inductive JSVal where
  | undefined
  | null
  | bool (b : Bool)
  | num (q : ℚ)
  | str (s : String)
  | arr (xs : List JSVal)
  | obj (fields : List (String × JSVal))

/-- The fields of a JavaScript object; read through `JSVal.lookup`. -/
abbrev JSObject := List (String × JSVal)

/-- What a JavaScript operation throws. -/
inductive JSErr where
  | typeError
  | syntaxError
  | storageError
  | error (msg : String)
  deriving DecidableEq

namespace JSVal

/-- ToBoolean: `undefined`, `null`, `false`, `0` and `""` are falsy, everything else truthy. -/
def truthy : JSVal → Bool
  | undefined => false
  | null => false
  | bool b => b
  | num q => decide (q ≠ 0)
  | str s => decide (s ≠ "")
  | arr _ => true
  | obj _ => true

/-- The test `v === undefined`. -/
def isUndefined : JSVal → Bool
  | undefined => true
  | _ => false

/-- The test `v == null`, true of `undefined` and `null` only. -/
def isNullish : JSVal → Bool
  | undefined => true
  | null => true
  | _ => false

/-- The test `Array.isArray(v)`. -/
def isArray : JSVal → Bool
  | arr _ => true
  | _ => false

/-- The test `typeof v === 'string'`. -/
def isString : JSVal → Bool
  | str _ => true
  | _ => false

/-- Whether the value is a plain object (not an array, not a primitive). -/
def isObject : JSVal → Bool
  | obj _ => true
  | _ => false

/-- Strict equality `a === b` between two values that sit in different places of a JSON
tree: primitives are compared by value, while two arrays or two objects are distinct
references and never equal. -/
def strictEq : JSVal → JSVal → Bool
  | undefined, undefined => true
  | null, null => true
  | bool a, bool b => decide (a = b)
  | num a, num b => decide (a = b)
  | str a, str b => decide (a = b)
  | _, _ => false

/-- The value of the own property `k` of an object, `undefined` when there is none. -/
def lookup (k : String) : JSObject → JSVal
  | [] => undefined
  | (k', v) :: rest => if k' = k then v else lookup k rest

/-- Whether the object has an own property `k`. -/
def hasKey (k : String) : JSObject → Bool
  | [] => false
  | (k', _) :: rest => if k' = k then true else hasKey k rest

/-- Member access `v.k` for a property name that is neither an array index, `length`, nor a
member of a built-in prototype (every name the card reads is of that kind): it throws a
TypeError on `undefined` and `null`, reads the own property of an object, and is `undefined`
on arrays and primitives. -/
def getProp (v : JSVal) (k : String) : Except JSErr JSVal :=
  match v with
  | undefined => .error .typeError
  | null => .error .typeError
  | obj fs => .ok (lookup k fs)
  | _ => .ok undefined

/-- Optional chaining `v?.k`: `undefined` when `v` is `undefined` or `null`. -/
def optProp (v : JSVal) (k : String) : JSVal :=
  match v with
  | obj fs => lookup k fs
  | _ => undefined

/-- The operator `a || b` on two already evaluated operands. -/
def or (a b : JSVal) : JSVal :=
  if a.truthy then a else b

end JSVal

open JSVal

/-! ## Settings store -/

/-- The platform's `JSON.stringify` and `JSON.parse`. -/
structure JsonCodec where
  stringify : JSVal → String
  parse : String → Except JSErr JSVal

/-- The browser's `localStorage`: its items, and whether access is denied (reads and writes
throw) or the quota is exhausted (writes throw). -/
structure LocalStorage where
  items : List (String × String)
  denied : Bool
  full : Bool

/-- The call `localStorage.getItem(key)`. -/
def LocalStorage.getItem (st : LocalStorage) (key : String) : Except JSErr (Option String) :=
  if st.denied then .error .storageError else .ok (st.items.lookup key)

/-- The call `localStorage.setItem(key, value)`; yields the storage afterwards. -/
def LocalStorage.setItem (st : LocalStorage) (key value : String) :
    Except JSErr LocalStorage :=
  if st.denied || st.full then .error .storageError
  else .ok { st with items := (key, value) :: st.items }

/-- The three display settings as the card holds them in memory
(`_historyDays`, `_accuracyFilter`, `_markerOpacity`) and as `_loadFilterSettings` returns them. -/
structure FilterSettings where
  historyDays : JSVal
  accuracyFilter : JSVal
  markerOpacity : JSVal

/-- The key of the settings blob. -/
def settingsKey : String := "googlefindmy-filter-settings"

/-- The defaults returned at the end of `_loadFilterSettings`. -/
def defaultSettings : FilterSettings :=
  { historyDays := num 3, accuracyFilter := num 0, markerOpacity := num 100 }

/-- The `try` block of `_loadFilterSettings`: `some` is the early `return`, `none` falls
through to the defaults. -/
def loadFilterSettingsTry (c : JsonCodec) (st : LocalStorage) :
    Except JSErr (Option FilterSettings) := do
  let saved ← st.getItem settingsKey
  match saved with
  | none => pure none
  | some s =>
    if s ≠ "" then
      let settings ← c.parse s
      let h ← settings.getProp "historyDays"
      let a ← settings.getProp "accuracyFilter"
      let m ← settings.getProp "markerOpacity"
      pure (some
        { historyDays := JSVal.or h (num 3),
          accuracyFilter := JSVal.or a (num 0),
          markerOpacity := JSVal.or m (num 100) })
    else pure none

/-- The method `_loadFilterSettings`: the `try` block, with the `catch` (which only logs)
and the fall-through both ending in the defaults. -/
def _loadFilterSettings (c : JsonCodec) (st : LocalStorage) : Except JSErr FilterSettings :=
  match loadFilterSettingsTry c st with
  | .ok (some r) => .ok r
  | .ok none => .ok defaultSettings
  | .error _ => .ok defaultSettings

/-- The object literal built by `_saveFilterSettings`. -/
def settingsObject (s : FilterSettings) : JSVal :=
  obj [("historyDays", s.historyDays), ("accuracyFilter", s.accuracyFilter),
    ("markerOpacity", s.markerOpacity)]

/-- The method `_saveFilterSettings`: the storage afterwards; a write that throws is logged
and leaves the storage as it was. -/
def _saveFilterSettings (c : JsonCodec) (s : FilterSettings) (st : LocalStorage) :
    LocalStorage :=
  match st.setItem settingsKey (c.stringify (settingsObject s)) with
  | .ok st' => st'
  | .error _ => st

/-! ## A compact JSON codec

An instance of `JsonCodec` for documents without white space whose values are literals,
natural numbers, strings without escapes, and objects of such values. -/

/-- The text of a value that is not a container. -/
def renderAtom : JSVal → List Char
  | .null => "null".toList
  | .bool true => "true".toList
  | .bool false => "false".toList
  | .num q => if q.den = 1 ∧ 0 ≤ q.num then (Nat.repr q.num.toNat).toList else "null".toList
  | .str s => [Char.ofNat 34] ++ s.toList ++ [Char.ofNat 34]
  | _ => "null".toList

/-- The text of the members of an object, comma separated. -/
def renderMembers : JSObject → List Char
  | [] => []
  | [(k, v)] => [Char.ofNat 34] ++ k.toList ++ [Char.ofNat 34, Char.ofNat 58] ++ renderAtom v
  | (k, v) :: rest =>
    [Char.ofNat 34] ++ k.toList ++ [Char.ofNat 34, Char.ofNat 58] ++ renderAtom v
      ++ [Char.ofNat 44] ++ renderMembers rest

/-- The text of a value; an object is written with its members in order. -/
def renderJson : JSVal → String
  | .obj fs => String.mk ([Char.ofNat 123] ++ renderMembers fs ++ [Char.ofNat 125])
  | v => String.mk (renderAtom v)

/-- The number written by a run of decimal digits. -/
def readDigits (cs : List Char) : ℕ :=
  cs.foldl (fun n c => 10 * n + (c.toNat - 48)) 0

/-- Reads one literal, number or string from the front of the text. -/
def readAtom (cs : List Char) : Option (JSVal × List Char) :=
  match cs with
  | 'n' :: 'u' :: 'l' :: 'l' :: rest => some (.null, rest)
  | 't' :: 'r' :: 'u' :: 'e' :: rest => some (.bool true, rest)
  | 'f' :: 'a' :: 'l' :: 's' :: 'e' :: rest => some (.bool false, rest)
  | c :: rest =>
    if c = Char.ofNat 34 then
      match rest.span (fun d => d ≠ Char.ofNat 34) with
      | (s, _ :: rest') => some (.str (String.mk s), rest')
      | (_, []) => none
    else if c.isDigit then
      match cs.span Char.isDigit with
      | (ds, rest') =>
        if ds.length = 1 ∨ c ≠ '0' then some (.num (readDigits ds), rest') else none
    else none
  | [] => none

/-- Reads the members of an object up to and including the closing brace. -/
def readMembers : ℕ → List Char → Option (JSObject × List Char)
  | 0, _ => none
  | fuel + 1, cs =>
    match cs with
    | c :: rest =>
      if c = Char.ofNat 34 then
        match rest.span (fun d => d ≠ Char.ofNat 34) with
        | (k, _ :: colon :: rest') =>
          if colon = Char.ofNat 58 then
            match readAtom rest' with
            | some (v, sep :: rest'') =>
              if sep = Char.ofNat 125 then some ([(String.mk k, v)], rest'')
              else if sep = Char.ofNat 44 then
                match readMembers fuel rest'' with
                | some (fs, out) => some ((String.mk k, v) :: fs, out)
                | none => none
              else none
            | _ => none
          else none
        | _ => none
      else none
    | [] => none

/-- Parses a whole document, throwing a SyntaxError on anything else. -/
def parseJson (s : String) : Except JSErr JSVal :=
  match s.toList with
  | [] => .error .syntaxError
  | c :: rest =>
    if c = Char.ofNat 123 then
      if rest = [Char.ofNat 125] then .ok (.obj [])
      else
        match readMembers rest.length rest with
        | some (fs, []) => .ok (.obj fs)
        | _ => .error .syntaxError
    else
      match readAtom (c :: rest) with
      | some (v, []) => .ok v
      | _ => .error .syntaxError

/-- The compact codec. -/
def compactJson : JsonCodec :=
  { stringify := renderJson, parse := parseJson }


/-! ## Configuration and device resolver -/

/-- The defaults that `setConfig` spreads the caller's configuration over. -/
def defaultConfig : JSObject :=
  [("title", str "Find My Devices"), ("show_last_seen", bool true),
    ("show_location_name", bool true), ("show_coordinates", bool false),
    ("enable_actions", bool true), ("compact_mode", bool false),
    ("keep_device_list_pinned", bool false)]

/-- The body of `setConfig` on the caller's configuration object: the object assigned to
`this.config`, or the error thrown before the assignment. -/
def setConfigBody (config : JSObject) : Except JSErr JSObject :=
  let config := if !(lookup "entities" config).truthy then ("entities", arr []) :: config
    else config
  if !(lookup "entities" config).isArray then
    .error (.error "Entities must be an array")
  else
    .ok (config ++ defaultConfig)

/-- The method `setConfig` as a step on the stored configuration (`this.config`, `undefined`
before the first call): the configuration afterwards and the error thrown, if any. -/
def setConfig (stored : JSVal) (config : JSObject) : JSVal × Option JSErr :=
  match setConfigBody config with
  | .ok c => (obj c, none)
  | .error e => (stored, some e)

/-- The callback of the `map` in `_getDevices`. -/
def normaliseEntity (entity : JSVal) : JSVal :=
  if entity.isString then obj [("entity_id", entity)] else entity

/-- The method `_getDevices` on the stored configuration. -/
def _getDevices (config : JSVal) : Except JSErr (List JSVal) := do
  let entities ← config.getProp "entities"
  if !entities.truthy then pure []
  else
    match entities with
    | arr xs => pure (xs.map normaliseEntity)
    | _ => throw .typeError

/-- The value of `this._selectedDevice` as a JavaScript value: `null` or a string. -/
def selectedValue : Option String → JSVal
  | none => null
  | some s => str s

/-- The call `devices.find(d => d.entity_id === selected)`. -/
def findDevice (selected : Option String) : List JSVal → Except JSErr JSVal
  | [] => .ok undefined
  | d :: rest => do
    let id ← d.getProp "entity_id"
    if strictEq id (selectedValue selected) then pure d else findDevice selected rest

/-- The element `devices[0]`. -/
def firstDevice : List JSVal → JSVal
  | [] => undefined
  | d :: _ => d

/-- The device resolved in `_renderMap`, `_fetchLocationHistory` and `_updateMap`:
`this._selectedDevice ? devices.find(...) : devices[0]`. -/
def selectedDevice (selected : Option String) (devices : List JSVal) : Except JSErr JSVal :=
  if (selectedValue selected).truthy then findDevice selected devices
  else pure (firstDevice devices)

/-- The device resolved in the `hass` setter: `devices.find(...) || devices[0]`. -/
def hassSelectedDevice (selected : Option String) (devices : List JSVal) :
    Except JSErr JSVal := do
  let found ← findDevice selected devices
  pure (JSVal.or found (firstDevice devices))

/-! ## History fetcher -/

/-- One element of `_locationHistory`. -/
structure LocationSample where
  lat : JSVal
  lon : JSVal
  accuracy : JSVal
  timestamp : JSVal
  lastSeen : JSVal
  isOwnReport : JSVal
  semanticLocation : JSVal
  state : JSVal

/-- The expression `state.a || state.attributes` on a record. -/
def recordAttrs (state : JSObject) : JSVal :=
  JSVal.or (lookup "a" state) (lookup "attributes" state)

/-- The object pushed onto `locations` for a record. -/
def sampleOf (state : JSObject) : LocationSample :=
  let attrs := recordAttrs state
  { lat := attrs.optProp "latitude",
    lon := attrs.optProp "longitude",
    accuracy := JSVal.or (attrs.optProp "gps_accuracy") (num 0),
    timestamp := JSVal.or (lookup "last_changed" state) (lookup "lu" state),
    lastSeen := attrs.optProp "last_seen",
    isOwnReport := attrs.optProp "is_own_report",
    semanticLocation := attrs.optProp "semantic_location",
    state := JSVal.or (lookup "s" state) (lookup "state" state) }

/-- The `for` loop of `_fetchLocationHistory` over the remaining records, with the current
values of `lastSeen` and `locations`. -/
def historyLoop : List JSObject → JSVal → List LocationSample → List LocationSample
  | [], _, locations => locations
  | state :: rest, lastSeen, locations =>
    let attrs := recordAttrs state
    let lat := attrs.optProp "latitude"
    let lon := attrs.optProp "longitude"
    let currentLastSeen := attrs.optProp "last_seen"
    if !lat.isUndefined && !lon.isUndefined then
      if currentLastSeen.truthy && strictEq currentLastSeen lastSeen then
        historyLoop rest lastSeen locations
      else
        historyLoop rest currentLastSeen (locations ++ [sampleOf state])
    else
      historyLoop rest lastSeen locations

/-- The reply of the host's history query: `null`, or an object mapping entity ids to
arrays of state records, each record a JSON object. -/
abbrev HistoryReply := Option (List (String × List JSObject))

/-- The expression `history && history[entityId] ? history[entityId] : null`. -/
def stateArrayOf (history : HistoryReply) (entityId : String) : Option (List JSObject) :=
  match history with
  | none => none
  | some entries => entries.lookup entityId

/-- The processing of a reply inside the `try` block: the value of `locations`. -/
def processHistory (history : HistoryReply) (entityId : String) : List LocationSample :=
  match stateArrayOf history entityId with
  | some stateArray =>
    if stateArray.length > 0 then historyLoop stateArray null [] else []
  | none => []

/-- The value of `_locationHistory` once the `try`/`catch` of `_fetchLocationHistory` is
over: the processed reply, or the empty list when `callWS` rejected. -/
def fetchedHistory (reply : Except JSErr HistoryReply) (entityId : String) :
    List LocationSample :=
  match reply with
  | .ok history => processHistory history entityId
  | .error _ => []

/-! ## Notions used to state the properties -/

/-- Whether a record bears coordinates: the test `lat !== undefined && lon !== undefined`. -/
def hasCoords (state : JSObject) : Bool :=
  !((recordAttrs state).optProp "latitude").isUndefined
    && !((recordAttrs state).optProp "longitude").isUndefined

/-- The `last_seen` attribute of a record. -/
def lastSeenOf (state : JSObject) : JSVal :=
  (recordAttrs state).optProp "last_seen"

/-- Attributes carrying a latitude, a longitude and a `last_seen` value. -/
def fixAttrs (lat lon : ℚ) (seen : JSVal) : JSVal :=
  obj [("latitude", num lat), ("longitude", num lon), ("last_seen", seen)]

/-- A record in the compact encoding. -/
def compactRecord (attrs t st : JSVal) : JSObject :=
  [("a", attrs), ("lu", t), ("s", st)]

/-- A record in the full encoding. -/
def fullRecord (attrs t st : JSVal) : JSObject :=
  [("attributes", attrs), ("last_changed", t), ("state", st)]

/-! ## Platform coercions

The conversions of JavaScript that depend on text (ToNumber of a string, an array or an
object, ToPropertyKey of a value that is not a string, the parsing and the printing of
dates) are parameters of the model: every theorem holds whatever they do. -/

/-- A JavaScript number: a rational, NaN, or an infinity. -/
inductive JSNumber where
  | nan
  | negInf
  | fin (q : ℚ)
  | posInf

/-- The comparison `a <= t` of a number with a finite number. -/
def JSNumber.le (a : JSNumber) (t : ℚ) : Bool :=
  match a with
  | .nan => false
  | .negInf => true
  | .fin q => decide (q ≤ t)
  | .posInf => false

/-- The comparison `a > t` of a number with a finite number. -/
def JSNumber.gt (a : JSNumber) (t : ℚ) : Bool :=
  match a with
  | .nan => false
  | .negInf => false
  | .fin q => decide (t < q)
  | .posInf => true

/-- The text-dependent conversions of the platform. -/
structure Platform where
  textToNumber : JSVal → JSNumber
  toKey : JSVal → String
  parseDate : String → Option ℤ
  localeDate : ℤ → String

/-- ToNumber: exact on `undefined`, `null`, booleans and numbers, through the platform on
strings, arrays and objects. -/
def toNumber (P : Platform) : JSVal → JSNumber
  | .undefined => .nan
  | .null => .fin 0
  | .bool true => .fin 1
  | .bool false => .fin 0
  | .num q => .fin q
  | v => P.textToNumber v

/-- ToPropertyKey: a string is its own key. -/
def keyOf (P : Platform) : JSVal → String
  | .str s => s
  | .undefined => "undefined"
  | .null => "null"
  | .bool true => "true"
  | .bool false => "false"
  | v => P.toKey v

/-- The indexing `o[key]`. -/
def index (P : Platform) (o key : JSVal) : Except JSErr JSVal :=
  o.getProp (keyOf P key)

/-- The call `v.toFixed(n)`: only a number has the method; the result stands for the text
of the number. -/
def toFixed (v : JSVal) : Except JSErr ℚ :=
  match v with
  | num q => .ok q
  | _ => .error .typeError

/-! ## The Leaflet map

The part of Leaflet that the card relies on, as an abstract map: a view, a list of layers
and an open popup. Its calls do not throw. -/

/-- The two marker icons the card builds. -/
inductive Icon where
  | smallBlue
  | red
  deriving DecidableEq

/-- What a popup displays. -/
inductive Popup where
  | history (index : ℕ) (lat lon accuracy : ℚ) (timestamp : JSVal) (source : String)
      (semanticLocation state : JSVal)
  | current (lat lon accuracy : ℚ) (lastSeen state : JSVal)

/-- A layer on the map, with the options the card passes. -/
inductive Layer where
  | tile (url : String) (maxZoom : ℕ)
  | polyline (coords : List (JSVal × JSVal)) (color : String) (weight : ℕ) (opacity : ℚ)
  | marker (lat lon : JSVal) (icon : Icon) (opacity : Option ℚ) (zIndexOffset : ℤ)
  | circle (lat lon radius : JSVal) (color : String) (fillOpacity opacity : ℚ)

/-- The test `layer instanceof L.Marker`. -/
def Layer.isMarker : Layer → Bool
  | .marker _ _ _ _ _ => true
  | _ => false

/-- The test `layer instanceof L.Circle`. -/
def Layer.isCircle : Layer → Bool
  | .circle _ _ _ _ _ _ => true
  | _ => false

/-- The test `layer instanceof L.Polyline`. -/
def Layer.isPolyline : Layer → Bool
  | .polyline _ _ _ _ => true
  | _ => false

/-- The test `layer instanceof L.TileLayer`. -/
def Layer.isTile : Layer → Bool
  | .tile _ _ => true
  | _ => false

/-- The condition of the clearing loop of `_updateMap`. -/
def Layer.isData (l : Layer) : Bool :=
  l.isMarker || l.isCircle || l.isPolyline

/-- The opacity a marker is drawn with: the option, or Leaflet's default 1. -/
def Layer.markerOpacity : Layer → Option ℚ
  | .marker _ _ _ opacity _ => some (opacity.getD 1)
  | _ => none

/-- A call made on the map. -/
inductive MapCall where
  | setView (lat lon : JSVal) (zoom : ℕ)
  | addLayer (l : Layer)
  | removeDataLayers
  | bindPopup (p : Popup)
  | openPopup (p : Popup)
  | whenReady
  | invalidateSize
  | remove

/-- A map object: its identity and its state. -/
structure LeafletMap where
  id : ℕ
  center : JSVal × JSVal
  zoom : ℕ
  layers : List Layer
  popup : Option Popup

/-- The effect of one call on the state of the map. Removing a marker closes its popup. -/
def LeafletMap.apply (m : LeafletMap) : MapCall → LeafletMap
  | .setView lat lon zoom => { m with center := (lat, lon), zoom := zoom }
  | .addLayer l => { m with layers := m.layers ++ [l] }
  | .removeDataLayers =>
    { m with layers := m.layers.filter (fun l => !l.isData), popup := none }
  | .bindPopup _ => m
  | .openPopup p => { m with popup := some p }
  | .whenReady => m
  | .invalidateSize => m
  | .remove => { m with layers := [], popup := none }

/-- The effect of a sequence of calls. -/
def LeafletMap.applyAll (m : LeafletMap) (calls : List MapCall) : LeafletMap :=
  calls.foldl LeafletMap.apply m

/-- The base layer added when the map is created. -/
def baseTileLayer : Layer :=
  .tile "https://\x7bs\x7d.tile.openstreetmap.org/\x7bz\x7d/\x7bx\x7d/\x7by\x7d.png" 19

/-- The object returned by `L.map(mapContainer, ...)`, with the identity `id`. -/
def newMap (id : ℕ) : LeafletMap :=
  { id := id, center := (undefined, undefined), zoom := 0, layers := [], popup := none }

/-! ## The card -/

/-- The fields of the card that the modelled methods read and write. The three display
settings are numbers, as the filter panel and `_saveFilterSettings` leave them. -/
structure Card where
  config : JSVal
  _selectedDevice : Option String
  _leafletLoaded : Bool
  _locationHistory : List LocationSample
  _historyDays : ℚ
  _accuracyFilter : ℚ
  _markerOpacity : ℚ
  _hass : JSVal
  _mapInstance : Option LeafletMap

/-- The state of the card after its constructor, for the loaded settings `h`, `a`, `m`. -/
def newCard (h a m : ℚ) : Card :=
  { config := undefined, _selectedDevice := none, _leafletLoaded := false,
    _locationHistory := [], _historyDays := h, _accuracyFilter := a, _markerOpacity := m,
    _hass := null, _mapInstance := none }

/-- A timer registered with `setTimeout`. -/
inductive Timer where
  | redraw
  | retryUpdateMap
  | readyInvalidate
  | resizeInvalidate
  deriving DecidableEq

/-- The method `_updateMap`, up to the timer it registers: the body runs 100 ms later. -/
def _updateMap (windowL : Bool) (card : Card) : List Timer :=
  if !card._leafletLoaded || !windowL then [] else [.redraw]

/-! ## The redraw: the body of the timer of `_updateMap` -/

/-- The filter of `_updateMap`:
`loc => this._accuracyFilter === 0 || loc.accuracy <= this._accuracyFilter`. -/
def filteredHistory (P : Platform) (accuracyFilter : ℚ) (history : List LocationSample) :
    List LocationSample :=
  history.filter (fun loc =>
    decide (accuracyFilter = 0) || (toNumber P loc.accuracy).le accuracyFilter)

/-- What the redraw finds in the page: the element `#leaflet-map` with the width and the
height of its bounding rectangle, if it is there, and the identity of the object that
`L.map` returns if it is called. -/
structure RedrawEnv where
  container : Option (ℚ × ℚ)
  mapId : ℕ

/-- The values bound by the redraw once its guards have passed. -/
structure Fix where
  selectedDevice : JSVal
  entity : JSVal
  lat : JSVal
  lon : JSVal
  accuracy : JSVal

/-- How the guards of the redraw end. -/
inductive Guard where
  | noContainer
  | zeroSize
  | noDevice
  | noFix
  | fix (f : Fix)

/-- The redraw from `querySelector` to the binding of `lat`, `lon` and `accuracy`. -/
def redrawGuards (P : Platform) (env : RedrawEnv) (card : Card) : Except JSErr Guard :=
  match env.container with
  | none => pure .noContainer
  | some (width, height) =>
    if width = 0 ∨ height = 0 then pure .zeroSize
    else do
      let devices ← _getDevices card.config
      let selectedDevice ← selectedDevice card._selectedDevice devices
      if !selectedDevice.truthy then pure .noDevice
      else do
        let states ← card._hass.getProp "states"
        let id ← selectedDevice.getProp "entity_id"
        let entity ← index P states id
        if !entity.truthy then pure .noFix
        else do
          let attributes ← entity.getProp "attributes"
          let lat ← attributes.getProp "latitude"
          if !lat.truthy then pure .noFix
          else do
            let lon ← attributes.getProp "longitude"
            let accuracy ← attributes.getProp "gps_accuracy"
            pure (.fix
              { selectedDevice := selectedDevice, entity := entity, lat := lat, lon := lon,
                accuracy := JSVal.or accuracy (num 0) })

/-- The label of the report source of a sample, without its pictogram. -/
def reportSource (isOwnReport : JSVal) : String :=
  if strictEq isOwnReport (bool true) then "Own Device"
  else if strictEq isOwnReport (bool false) then "Network/Crowd-sourced"
  else "Unknown"

/-- The popup text of a history sample; `toFixed` throws on a value that is not a number. -/
def historyPopup (index : ℕ) (loc : LocationSample) : Except JSErr Popup := do
  let lat ← toFixed loc.lat
  let lon ← toFixed loc.lon
  let accuracy ← toFixed loc.accuracy
  pure (.history (index + 1) lat lon accuracy loc.timestamp (reportSource loc.isOwnReport)
    loc.semanticLocation (JSVal.or loc.state (str "Unknown")))

/-- The marker of a history sample, with the opacity `this._markerOpacity / 100`. -/
def historyMarker (markerOpacity : ℚ) (loc : LocationSample) : Layer :=
  .marker loc.lat loc.lon .smallBlue (some (markerOpacity / 100)) (-1000)

/-- The accuracy circle of a history sample. -/
def historyCircle (markerOpacity : ℚ) (loc : LocationSample) : Layer :=
  .circle loc.lat loc.lon loc.accuracy "#1a73e8" (1 / 10 * (markerOpacity / 100))
    (1 / 2 * (markerOpacity / 100))

/-- One turn of the `forEach` over the filtered history: the calls made, and the error if
the turn throws. -/
def drawSample (P : Platform) (markerOpacity : ℚ) (index : ℕ) (loc : LocationSample) :
    List MapCall × Option JSErr :=
  let added : List MapCall :=
    .addLayer (historyMarker markerOpacity loc) ::
      (if (toNumber P loc.accuracy).gt 0 then
        [MapCall.addLayer (historyCircle markerOpacity loc)] else [])
  match historyPopup index loc with
  | .ok popup => (added ++ [.bindPopup popup], none)
  | .error e => (added, some e)

/-- The `forEach` over the filtered history from position `index` on. -/
def drawHistory (P : Platform) (markerOpacity : ℚ) :
    ℕ → List LocationSample → List MapCall × Option JSErr
  | _, [] => ([], none)
  | index, loc :: rest =>
    match drawSample P markerOpacity index loc with
    | (calls, some e) => (calls, some e)
    | (calls, none) =>
      match drawHistory P markerOpacity (index + 1) rest with
      | (more, err) => (calls ++ more, err)

/-- The popup text of the current location. -/
def currentPopup (f : Fix) : Except JSErr Popup := do
  let lat ← toFixed f.lat
  let lon ← toFixed f.lon
  let accuracy ← toFixed f.accuracy
  pure (.current lat lon accuracy
    (JSVal.or ((f.entity.optProp "attributes").optProp "last_seen") (str "Unknown"))
    (JSVal.or (f.entity.optProp "state") (str "Unknown")))

/-- The red accuracy circle of the current location, added when `accuracy > 0`. -/
def currentCircle (P : Platform) (f : Fix) : List MapCall :=
  if (toNumber P f.accuracy).gt 0 then
    [.addLayer (.circle f.lat f.lon f.accuracy "#dc3545" (1 / 10) (4 / 5))]
  else []

/-- The current-location marker drawn after the history markers. -/
def drawCurrentWithHistory (P : Platform) (f : Fix) : List MapCall × Option JSErr :=
  match currentPopup f with
  | .ok popup =>
    ([.addLayer (.marker f.lat f.lon .red (some 1) 1000), .bindPopup popup]
      ++ currentCircle P f, none)
  | .error e => ([.addLayer (.marker f.lat f.lon .red (some 1) 1000)], some e)

/-- The current-location marker drawn when no history sample is left. -/
def drawCurrentAlone (P : Platform) (f : Fix) : List MapCall × Option JSErr :=
  match currentPopup f with
  | .ok popup =>
    ([.addLayer (.marker f.lat f.lon .red none 1000), .bindPopup popup, .openPopup popup]
      ++ currentCircle P f, none)
  | .error e => ([.addLayer (.marker f.lat f.lon .red none 1000)], some e)

/-- The path line, drawn unless `this.config.show_path_lines` is `false`. -/
def pathLine (config : JSVal) (filtered : List LocationSample) : List MapCall :=
  if !strictEq (config.optProp "show_path_lines") (bool false) then
    [.addLayer (.polyline (filtered.map (fun loc => (loc.lat, loc.lon))) "#1a73e8" 2 (3 / 5))]
  else []

/-- The drawing part of the redraw, from the filter to the last accuracy circle. -/
def drawLayers (P : Platform) (card : Card) (f : Fix) : List MapCall × Option JSErr :=
  let filtered := filteredHistory P card._accuracyFilter card._locationHistory
  if filtered.length > 0 then
    match drawHistory P card._markerOpacity 0 filtered with
    | (calls, some e) => (pathLine card.config filtered ++ calls, some e)
    | (calls, none) =>
      match drawCurrentWithHistory P f with
      | (current, err) => (pathLine card.config filtered ++ calls ++ current, err)
  else drawCurrentAlone P f

/-- How a redraw ends. -/
inductive Outcome where
  | returned
  | threw (e : JSErr)
  | completed

/-- What a redraw does: the card afterwards, the calls made on the map in order, whether
`L.map` was called, whether `_fetchLocationHistory()` was called, the timers registered,
and how it ended. -/
structure RedrawResult where
  card : Card
  calls : List MapCall
  created : Bool
  fetchCalled : Bool
  timers : List Timer
  outcome : Outcome

/-- A redraw that leaves before touching the map. -/
def RedrawResult.idle (card : Card) (timers : List Timer) (outcome : Outcome) :
    RedrawResult :=
  { card := card, calls := [], created := false, fetchCalled := false, timers := timers,
    outcome := outcome }

/-- The calls of a redraw whose guards have passed with the fix `f`. -/
def redrawCalls (P : Platform) (card : Card) (f : Fix) : List MapCall :=
  (match card._mapInstance with
    | none => [.setView f.lat f.lon 13, .addLayer baseTileLayer, .whenReady]
    | some _ => [MapCall.setView f.lat f.lon 15])
  ++ [.removeDataLayers] ++ (drawLayers P card f).1
  ++ (match (drawLayers P card f).2 with
    | none => [MapCall.setView f.lat f.lon 15]
    | some _ => [])

/-- The redraw. -/
def redraw (P : Platform) (env : RedrawEnv) (card : Card) : RedrawResult :=
  match redrawGuards P env card with
  | .error e => .idle card [] (.threw e)
  | .ok .noContainer => .idle card [] .returned
  | .ok .zeroSize => .idle card [.retryUpdateMap] .returned
  | .ok .noDevice => .idle card [] .returned
  | .ok .noFix => .idle card [] .returned
  | .ok (.fix f) =>
    let map := ((card._mapInstance).getD (newMap env.mapId)).applyAll (redrawCalls P card f)
    { card := { card with _mapInstance := some map },
      calls := redrawCalls P card f,
      created := (card._mapInstance).isNone,
      fetchCalled := (card._mapInstance).isNone,
      timers := if (card._mapInstance).isNone then [.readyInvalidate] else [],
      outcome := match (drawLayers P card f).2 with
        | none => .completed
        | some e => .threw e }

/-! ## The history fetch of the card -/

/-- The time value of `new Date(v)`: `v` truncated to whole milliseconds, or an invalid date
when `v` is out of the range of dates. -/
def timeClip (v : ℚ) : Option ℤ :=
  if -8640000000000000 ≤ v ∧ v ≤ 8640000000000000 then
    some (if 0 ≤ v then ⌊v⌋ else ⌈v⌉)
  else none

/-- The message passed to `hass.callWS`, with the two dates as time values. -/
structure HistoryQuery where
  type : String
  start_time : ℤ
  end_time : ℤ
  entity_ids : List JSVal
  minimal_response : Bool
  significant_changes_only : Bool

/-- How `_fetchLocationHistory` proceeds up to its `await`: it throws before the `try` (the
promise rejects), returns early, throws inside the `try` before the query is sent (which
the `catch` turns into an empty history), or sends a query for `entityId`. -/
inductive FetchStart where
  | rejected (e : JSErr)
  | returned
  | caught (e : JSErr)
  | query (q : HistoryQuery) (entityId : JSVal)

/-- The part of `_fetchLocationHistory` before the `try`: the value of `entity.entity_id`,
or `none` at an early return. -/
def fetchEntityId (P : Platform) (card : Card) : Except JSErr (Option JSVal) := do
  let devices ← _getDevices card.config
  let selectedDevice ← selectedDevice card._selectedDevice devices
  if !selectedDevice.truthy then pure none
  else do
    let states ← card._hass.getProp "states"
    let id ← selectedDevice.getProp "entity_id"
    let entity ← index P states id
    if !entity.truthy then pure none
    else do
      let entityId ← entity.getProp "entity_id"
      pure (some entityId)

/-- The method `_fetchLocationHistory` at the time `now`, up to its `await`. -/
def fetchStart (P : Platform) (now : ℤ) (card : Card) : Card × FetchStart :=
  match fetchEntityId P card with
  | .error e => (card, .rejected e)
  | .ok none => (card, .returned)
  | .ok (some entityId) =>
    match timeClip (now - card._historyDays * 24 * 60 * 60 * 1000) with
    | none => ({ card with _locationHistory := [] }, .caught (.error "Invalid time value"))
    | some startTime =>
      (card, .query
        { type := "history/history_during_period", start_time := startTime, end_time := now,
          entity_ids := [entityId], minimal_response := false,
          significant_changes_only := false } entityId)

/-- The `try` block of `_fetchLocationHistory` after the `await`: the value of `locations`. -/
def fetchSettleTry (P : Platform) (entityId : JSVal) (reply : Except JSErr HistoryReply) :
    Except JSErr (List LocationSample) := do
  let history ← reply
  pure (processHistory history (keyOf P entityId))

/-- The method `_fetchLocationHistory` after its `await`, on the card as it is then: the card
afterwards and the timers registered by the call of `_updateMap`, which only the `try`
block makes. -/
def fetchSettle (P : Platform) (windowL : Bool) (entityId : JSVal)
    (reply : Except JSErr HistoryReply) (card : Card) : Except JSErr (Card × List Timer) :=
  match fetchSettleTry P entityId reply with
  | .ok locations =>
    .ok ({ card with _locationHistory := locations },
      _updateMap windowL { card with _locationHistory := locations })
  | .error _ => .ok ({ card with _locationHistory := [] }, [])

/-! ## The setter of `hass` -/

/-- The condition under which the setter calls `_updateMap`, evaluated inside its outer
`if`: the device is resolved, both states have its entity, and the latitude or the
longitude differs. -/
def hassCoordsChanged (P : Platform) (card : Card) (oldHass value : JSVal) :
    Except JSErr Bool := do
  let devices ← _getDevices card.config
  let selectedDevice ← hassSelectedDevice card._selectedDevice devices
  if !selectedDevice.truthy then pure false
  else do
    let oldStates ← oldHass.getProp "states"
    let id ← selectedDevice.getProp "entity_id"
    let oldEntity ← index P oldStates id
    let newStates ← value.getProp "states"
    let newEntity ← index P newStates id
    if !oldEntity.truthy then pure false
    else if !newEntity.truthy then pure false
    else do
      let oldAttributes ← oldEntity.getProp "attributes"
      let oldLat ← oldAttributes.getProp "latitude"
      let newAttributes ← newEntity.getProp "attributes"
      let newLat ← newAttributes.getProp "latitude"
      if !strictEq oldLat newLat then pure true
      else do
        let oldLon ← oldAttributes.getProp "longitude"
        let newLon ← newAttributes.getProp "longitude"
        pure (!strictEq oldLon newLon)

/-- The setter `set hass(value)`: the card afterwards, the timers registered, and the error
thrown, if any. -/
def setHass (P : Platform) (windowL : Bool) (value : JSVal) (card : Card) :
    Card × List Timer × Option JSErr :=
  let oldHass := card._hass
  let card := { card with _hass := value }
  if oldHass.truthy && card._leafletLoaded && (selectedValue card._selectedDevice).truthy then
    match hassCoordsChanged P card oldHass value with
    | .ok true => (card, _updateMap windowL card, none)
    | .ok false => (card, [], none)
    | .error e => (card, [], some e)
  else (card, [], none)

/-! ## Lifecycle and resize -/

/-- The method `disconnectedCallback` on the card: the card afterwards and the calls made
on the map. -/
def disconnectMap (card : Card) : Card × List MapCall :=
  match card._mapInstance with
  | some _ => ({ card with _mapInstance := none }, [.remove])
  | none => (card, [])

/-- The method `_handleResize`: the timer it registers. -/
def _handleResize (card : Card) : List Timer :=
  if (card._mapInstance).isSome then [.resizeInvalidate] else []

/-- The body of a deferred size recalculation (the timer of `_handleResize` and the timer
of the `whenReady` callback): the calls made on the map. -/
def deferredInvalidate (card : Card) : List MapCall :=
  if (card._mapInstance).isSome then [.invalidateSize] else []

/-! ## The view -/

/-- What `_renderMap` returns. -/
inductive MapView where
  | empty
  | unavailable
  | leaflet
  | iframe

/-- The part of the view below the map. -/
inductive Body where
  | sidebar (devices : List JSVal)
  | noDevices

/-- What `render` returns: nothing, or the card with its title, its map and its body. The
device cards of the sidebar are not modelled. -/
inductive View where
  | blank
  | card (title : JSVal) (map : MapView) (body : Body)

/-- The method `_renderMap`. -/
def _renderMap (P : Platform) (card : Card) (devices : List JSVal) : Except JSErr MapView :=
  if devices.length = 0 then pure .empty
  else do
    let selectedDevice ← selectedDevice card._selectedDevice devices
    if !selectedDevice.truthy then pure .empty
    else do
      let states ← card._hass.getProp "states"
      let id ← selectedDevice.getProp "entity_id"
      let entity ← index P states id
      if !entity.truthy then pure .unavailable
      else do
        let attributes ← entity.getProp "attributes"
        let lat ← attributes.getProp "latitude"
        if !lat.truthy then pure .unavailable
        else if card._leafletLoaded
            && !strictEq (card.config.optProp "use_leaflet_map") (bool false) then
          pure .leaflet
        else pure .iframe

/-- The method `render`. -/
def render (P : Platform) (card : Card) : Except JSErr View :=
  if !card._hass.truthy || !card.config.truthy then pure .blank
  else do
    let devices ← _getDevices card.config
    let map ← _renderMap P card devices
    pure (.card (JSVal.or (card.config.optProp "title") (str "Find My Devices")) map
      (if devices.length > 0 then .sidebar devices else .noDevices))

/-! ## Relative time -/

/-- The label of an age in milliseconds, for a valid date with the time value `t`. -/
def ageLabel (P : Platform) (now t : ℤ) : String :=
  if now - t < 60000 then "Just now"
  else if now - t < 3600000 then toString ((now - t) / 60000) ++ "m ago"
  else if now - t < 86400000 then toString ((now - t) / 3600000) ++ "h ago"
  else P.localeDate t

/-- The method `_formatTime` at the time `now`. -/
def _formatTime (P : Platform) (now : ℤ) (timestamp : JSVal) : String :=
  if !timestamp.truthy then "Unknown"
  else
    match timestamp with
    | str s =>
      match P.parseDate s with
      | some t => ageLabel P now t
      | none => "Unknown"
    | num q =>
      match timeClip (if q < 1000000000000 then q * 1000 else q) with
      | some t => ageLabel P now t
      | none => "Unknown"
    | _ => "Unknown"

/-! ## The card in its page: steps -/

/-- What stays fixed during a run: the platform, the JSON codec, and whether `window.L` is
there. -/
structure Env where
  P : Platform
  codec : JsonCodec
  windowL : Bool

/-- The card together with what surrounds it: the storage, whether the resize listener is
registered, the number of maps created so far (the next map gets it as its identity), the
identities of the maps disposed of, and the entity ids of the history queries in flight. -/
structure World where
  card : Card
  storage : LocalStorage
  resizeListener : Bool
  mapsCreated : ℕ
  disposed : List ℕ
  pending : List JSVal

/-- A world around a new card. -/
def newWorld (storage : LocalStorage) (h a m : ℚ) : World :=
  { card := newCard h a m, storage := storage, resizeListener := false, mapsCreated := 0,
    disposed := [], pending := [] }

/-- The call `this._saveFilterSettings()` on the card. -/
def saveSettings (E : Env) (w : World) : World :=
  let settings : FilterSettings :=
    { historyDays := num w.card._historyDays, accuracyFilter := num w.card._accuracyFilter,
      markerOpacity := num w.card._markerOpacity }
  { w with storage := _saveFilterSettings E.codec settings w.storage }

/-- The call `this._fetchLocationHistory()` at the time `now`: a query sent joins the
queries in flight. -/
def startFetch (E : Env) (now : ℤ) (w : World) : World :=
  match fetchStart E.P now w.card with
  | (card, .query _ entityId) => { w with card := card, pending := w.pending ++ [entityId] }
  | (card, _) => { w with card := card }

/-- The method `_setHistoryDays(days)`. -/
def _setHistoryDays (E : Env) (now : ℤ) (days : ℚ) (w : World) : World :=
  startFetch E now (saveSettings E { w with card := { w.card with _historyDays := days } })

/-- The method `_setAccuracyFilter(value)`, for the number `parseInt(value)`. -/
def _setAccuracyFilter (E : Env) (value : ℚ) (w : World) : World × List Timer :=
  (saveSettings E { w with card := { w.card with _accuracyFilter := value } },
    _updateMap E.windowL w.card)

/-- The method `_setMarkerOpacity(value)`, for the number `parseInt(value)`. -/
def _setMarkerOpacity (E : Env) (value : ℚ) (w : World) : World × List Timer :=
  (saveSettings E { w with card := { w.card with _markerOpacity := value } },
    _updateMap E.windowL w.card)

/-- The method `_selectDevice(entityId)` followed by the `updated` callback it causes: when
the selection changed and Leaflet is loaded, `updated` fetches the history of a truthy
selection and calls `_updateMap`. -/
def _selectDevice (E : Env) (now : ℤ) (entityId : String) (w : World) : World × List Timer :=
  let selected : World := { w with card := { w.card with _selectedDevice := some entityId } }
  if decide (w.card._selectedDevice ≠ some entityId) && w.card._leafletLoaded then
    (if (selectedValue (some entityId)).truthy then startFetch E now selected else selected,
      _updateMap E.windowL selected.card)
  else (selected, [])

/-- The method `disconnectedCallback`: the world afterwards and the calls made, each with
the identity of the map it is made on. -/
def disconnectedCallback (w : World) : World × List (ℕ × MapCall) :=
  match w.card._mapInstance with
  | some m =>
    let after : World :=
      { w with
        card := (disconnectMap w.card).1, resizeListener := false,
        disposed := m.id :: w.disposed }
    (after, (disconnectMap w.card).2.map (fun c => (m.id, c)))
  | none => ({ w with resizeListener := false }, [])

/-- The method `connectedCallback`. -/
def connectedCallback (w : World) : World :=
  { w with resizeListener := true }

/-- The calls `calls` made on the map the card holds, each with the identity of that map. -/
def onMap (card : Card) (calls : List MapCall) : List (ℕ × MapCall) :=
  match card._mapInstance with
  | some m => calls.map (fun c => (m.id, c))
  | none => []

/-- What can happen to the card. A deferred callback may fire at any time; `redraw` is the
body of the timer of `_updateMap`, run at the time `now` with the map container measured as
given. -/
inductive Step where
  | connect
  | disconnect
  | config (config : JSObject)
  | leafletLoaded
  | hass (value : JSVal)
  | select (entityId : String) (now : ℤ)
  | historyDays (days : ℚ) (now : ℤ)
  | accuracyFilter (value : ℚ)
  | markerOpacity (value : ℚ)
  | fetch (now : ℤ)
  | resolve (k : ℕ) (reply : Except JSErr HistoryReply)
  | redraw (container : Option (ℚ × ℚ)) (now : ℤ)
  | resize
  | resizeTimer
  | readyTimer

/-- One step: the world afterwards and the calls made on maps. -/
def step (E : Env) (w : World) : Step → World × List (ℕ × MapCall)
  | .connect => (connectedCallback w, [])
  | .disconnect => disconnectedCallback w
  | .config config =>
    ({ w with card := { w.card with config := (setConfig w.card.config config).1 } }, [])
  | .leafletLoaded => ({ w with card := { w.card with _leafletLoaded := true } }, [])
  | .hass value => ({ w with card := (setHass E.P E.windowL value w.card).1 }, [])
  | .select entityId now => ((_selectDevice E now entityId w).1, [])
  | .historyDays days now => (_setHistoryDays E now days w, [])
  | .accuracyFilter value => ((_setAccuracyFilter E value w).1, [])
  | .markerOpacity value => ((_setMarkerOpacity E value w).1, [])
  | .fetch now => (startFetch E now w, [])
  | .resolve k reply =>
    match w.pending.get? k with
    | some entityId =>
      match fetchSettle E.P E.windowL entityId reply w.card with
      | .ok (card, _) => ({ w with card := card, pending := w.pending.eraseIdx k }, [])
      | .error _ => ({ w with pending := w.pending.eraseIdx k }, [])
    | none => (w, [])
  | .redraw container now =>
    let r := redraw E.P { container := container, mapId := w.mapsCreated } w.card
    let after : World :=
      { w with
        card := r.card,
        mapsCreated := if r.created then w.mapsCreated + 1 else w.mapsCreated }
    (if r.fetchCalled then startFetch E now after else after, onMap r.card r.calls)
  | .resize => (w, [])
  | .resizeTimer => (w, onMap w.card (deferredInvalidate w.card))
  | .readyTimer => (w, onMap w.card (deferredInvalidate w.card))

/-- A run of steps: the world afterwards and all the calls made, in order. -/
def run (E : Env) : World → List Step → World × List (ℕ × MapCall)
  | w, [] => (w, [])
  | w, s :: rest =>
    ((run E (step E w s).1 rest).1, (step E w s).2 ++ (run E (step E w s).1 rest).2)

/-! ## Notions used to state the properties of the card -/

/-- A platform whose text conversions know nothing: text is not a number, has the empty
key, is not a date; a date is printed as its time value. -/
def plainPlatform : Platform :=
  { textToNumber := fun _ => .nan, toKey := fun _ => "", parseDate := fun _ => none,
    localeDate := fun t => toString t }

/-- The accuracy of a sample whose accuracy is a number. -/
def accuracyOf (s : LocationSample) : ℚ :=
  match s.accuracy with
  | num a => a
  | _ => 0

/-- The accuracy filter in the words of the specification: with the threshold 0 everything
is kept, otherwise the samples with `accuracy == 0 OR accuracy <= threshold`. -/
def accuracyFilterSpec (threshold : ℚ) (history : List LocationSample) :
    List LocationSample :=
  if threshold = 0 then history
  else history.filter (fun s =>
    decide (accuracyOf s = 0) || decide (accuracyOf s ≤ threshold))

/-- The layers added by a sequence of calls, in order. -/
def layersAdded : List MapCall → List Layer
  | [] => []
  | .addLayer l :: rest => l :: layersAdded rest
  | _ :: rest => layersAdded rest

/-- The popups opened by a sequence of calls, in order. -/
def popupsOpened : List MapCall → List Popup
  | [] => []
  | .openPopup p :: rest => p :: popupsOpened rest
  | _ :: rest => popupsOpened rest

/-- The view commands of a sequence of calls, in order. -/
def viewCommands : List MapCall → List (JSVal × JSVal × ℕ)
  | [] => []
  | .setView lat lon zoom :: rest => (lat, lon, zoom) :: viewCommands rest
  | _ :: rest => viewCommands rest

/-- A host state with one entity `id` at the given coordinates and accuracy. -/
def hassWith (id : String) (lat lon accuracy : JSVal) : JSVal :=
  obj [("states", obj [(id, obj [("entity_id", str id), ("state", str "not_home"),
    ("attributes", obj [("latitude", lat), ("longitude", lon),
      ("gps_accuracy", accuracy)])])])]

/-- A sample at the given numeric position and accuracy. -/
def sampleAt (lat lon accuracy : ℚ) (seen : String) : LocationSample :=
  { lat := num lat, lon := num lon, accuracy := num accuracy, timestamp := str seen,
    lastSeen := str seen, isOwnReport := undefined, semanticLocation := undefined,
    state := str "not_home" }

/-- A card configured with the entities `ids`, with Leaflet loaded and the usual settings. -/
def cardWith (ids : List String) (selected : Option String) (hass : JSVal)
    (history : List LocationSample) (map : Option LeafletMap) : Card :=
  { config := obj (("entities", arr (ids.map str)) :: defaultConfig),
    _selectedDevice := selected, _leafletLoaded := true, _locationHistory := history,
    _historyDays := 3, _accuracyFilter := 0, _markerOpacity := 100, _hass := hass,
    _mapInstance := map }

/-- What C28 says of one field of the loaded settings: the result is the stored value when
that is truthy, in particular when it is a number other than 0, and the default when the
stored value is missing, `null` or 0. -/
def FieldDecided (stored result default : JSVal) : Prop :=
  (stored.truthy = true → result = stored) ∧
  (∀ q : ℚ, q ≠ 0 → stored = num q → result = num q) ∧
  (stored = undefined ∨ stored = null ∨ stored = num 0 → result = default)

/-- A map centred on (52, 13) at zoom 15 with the given layers. -/
def mapShowing (layers : List Layer) : LeafletMap :=
  { id := 0, center := (num 52, num 13), zoom := 15, layers := layers, popup := none }

/-- The query that `_fetchLocationHistory` sends for the window from `start` to `now`. -/
def queryFor (start now : ℤ) (entityId : JSVal) : HistoryQuery :=
  { type := "history/history_during_period", start_time := start, end_time := now,
    entity_ids := [entityId], minimal_response := false, significant_changes_only := false }

/-- Whether a layer is a marker with the small blue icon of a history sample. -/
def Layer.isHistoryMarker : Layer → Bool
  | .marker _ _ .smallBlue _ _ => true
  | _ => false

/-- Whether a layer is a marker with the red icon of the current location. -/
def Layer.isCurrentMarker : Layer → Bool
  | .marker _ _ .red _ _ => true
  | _ => false

/-- Whether a layer is a circle in the blue of the history samples. -/
def Layer.isHistoryCircle : Layer → Bool
  | .circle _ _ _ color _ _ => decide (color = "#1a73e8")
  | _ => false

/-- Whether a layer is a circle in the red of the current location. -/
def Layer.isCurrentCircle : Layer → Bool
  | .circle _ _ _ color _ _ => decide (color = "#dc3545")
  | _ => false

/-- The stacking offset of a marker. -/
def Layer.zIndexOffset : Layer → Option ℤ
  | .marker _ _ _ _ z => some z
  | _ => none

/-- The layers of the history samples `filtered`, in drawing order: for each sample its
marker, followed by its accuracy circle when its accuracy is above 0. -/
def historyLayers (P : Platform) (markerOpacity : ℚ) : List LocationSample → List Layer
  | [] => []
  | loc :: rest =>
    historyMarker markerOpacity loc ::
      ((if (toNumber P loc.accuracy).gt 0 then [historyCircle markerOpacity loc] else [])
        ++ historyLayers P markerOpacity rest)

/-- The samples whose accuracy is above 0. -/
def withCircle (P : Platform) (samples : List LocationSample) : List LocationSample :=
  samples.filter (fun loc => (toNumber P loc.accuracy).gt 0)

/-- The data layers that a completed redraw with the fix `f` adds, in drawing order. -/
def drawnLayers (P : Platform) (card : Card) (f : Fix) : List Layer :=
  if (filteredHistory P card._accuracyFilter card._locationHistory).length > 0 then
    layersAdded (pathLine card.config
        (filteredHistory P card._accuracyFilter card._locationHistory))
      ++ historyLayers P card._markerOpacity
        (filteredHistory P card._accuracyFilter card._locationHistory)
      ++ [.marker f.lat f.lon .red (some 1) 1000] ++ layersAdded (currentCircle P f)
  else [.marker f.lat f.lon .red none 1000] ++ layersAdded (currentCircle P f)

/-- Whether a call removes layers from the map. -/
def MapCall.clears : MapCall → Bool
  | .removeDataLayers => true
  | .remove => true
  | _ => false

/-- The device that the card resolves and its live state: `device` is the truthy result of
the resolution, `entity` is the truthy state that the host files under the `entity_id` of
the device, and `attributes` is its `attributes` value. -/
def Resolves (P : Platform) (card : Card) (device entity attributes : JSVal) : Prop :=
  ∃ devices states id, _getDevices card.config = .ok devices ∧
    selectedDevice card._selectedDevice devices = .ok device ∧ device.truthy = true ∧
    card._hass.getProp "states" = .ok states ∧ device.getProp "entity_id" = .ok id ∧
    index P states id = .ok entity ∧ entity.truthy = true ∧
    entity.getProp "attributes" = .ok attributes

/-- A sequence of redraws on the map `map`: before each redraw the other fields of the card
are those of the given card. The results, in order. -/
def redrawSeq (P : Platform) : Option LeafletMap → List (RedrawEnv × Card) → List RedrawResult
  | _, [] => []
  | map, (env, c) :: rest =>
    redraw P env { c with _mapInstance := map } ::
      redrawSeq P (redraw P env { c with _mapInstance := map }).card._mapInstance rest

/-- The card with the map handle replaced. -/
def Card.withMap (card : Card) (map : Option LeafletMap) : Card :=
  { card with _mapInstance := map }

/-- The state that `hassWith` files under `id`. -/
def entityWith (id : String) (lat lon accuracy : JSVal) : JSVal :=
  obj [("entity_id", str id), ("state", str "not_home"),
    ("attributes", obj [("latitude", lat), ("longitude", lon), ("gps_accuracy", accuracy)])]

/-- The values that a redraw binds for the device `id` in the host state `hassWith`. -/
def fixOf (id : String) (lat lon accuracy : JSVal) : Fix :=
  { selectedDevice := obj [("entity_id", str id)], entity := entityWith id lat lon accuracy,
    lat := lat, lon := lon, accuracy := JSVal.or accuracy (num 0) }

/-- A page in which the map container measures 400 by 300. -/
def pageWithContainer (mapId : ℕ) : RedrawEnv :=
  { container := some (400, 300), mapId := mapId }

/-- Tile layers of a map, or the base tile layer for the map that the next redraw creates. -/
def tileLayersOf : Option LeafletMap → List Layer
  | some m => m.layers.filter Layer.isTile
  | none => [baseTileLayer]

/-- The card of the examples: one configured entity, `device_tracker.phone`, whose live
state is at (52, 13) with the accuracy 10, the given history and the given map. -/
def phoneCard (history : List LocationSample) (map : Option LeafletMap) : Card :=
  cardWith ["device_tracker.phone"] none
    (hassWith "device_tracker.phone" (num 52) (num 13) (num 10)) history map

/-- The values that a redraw of `phoneCard` binds. -/
def phoneFix : Fix :=
  fixOf "device_tracker.phone" (num 52) (num 13) (num 10)

/-- Whether a step is the teardown of the card. -/
def Step.isDisconnect : Step → Bool
  | .disconnect => true
  | _ => false

/-- The identities in a world are consistent: the map that the card holds has been created
and not disposed of, and every map disposed of has been created. -/
def World.Consistent (w : World) : Prop :=
  (∀ m, w.card._mapInstance = some m → m.id < w.mapsCreated ∧ m.id ∉ w.disposed) ∧
  ∀ d ∈ w.disposed, d < w.mapsCreated

/-- No call is made on a map after the call `remove` on it. -/
def NoCallAfterRemove (calls : List (ℕ × MapCall)) : Prop :=
  ∀ (before after : List (ℕ × MapCall)) (id : ℕ),
    calls = before ++ (id, MapCall.remove) :: after → ∀ c ∈ after, c.1 ≠ id

/-- A world around the card `card`, connected, in which no map has been created yet. -/
def worldAround (card : Card) : World :=
  { card := card, storage := { items := [], denied := false, full := false },
    resizeListener := true, mapsCreated := 0, disposed := [], pending := [] }

/-- The environment of the examples: the plain platform, the compact codec, Leaflet there. -/
def plainEnv : Env :=
  { P := plainPlatform, codec := compactJson, windowL := true }

/-- A host state with the two entities `device_tracker.a`, at (10, 10), and
`device_tracker.b`, at (20, 20). -/
def twoTrackers : JSVal :=
  obj [("states", obj
    [("device_tracker.a", entityWith "device_tracker.a" (num 10) (num 10) (num 5)),
     ("device_tracker.b", entityWith "device_tracker.b" (num 20) (num 20) (num 5))])]

/-- The reply to a history query for the entity `id`: one record, at (lat, lon). -/
def replyFor (id : String) (lat lon : ℚ) : HistoryReply :=
  some [(id, [fullRecord (fixAttrs lat lon (str "10:00")) (str "10:00") (str "not_home")])]

/-- A connected card configured with the two entities of `twoTrackers`, nothing selected, no
map yet. -/
def twoTrackerWorld : World :=
  worldAround (cardWith ["device_tracker.a", "device_tracker.b"] none twoTrackers [] none)

/-- A run in which the reply for the first device arrives after the reply for the second:
the first redraw creates the map and asks for the history of `device_tracker.a`, the user
selects `device_tracker.b`, whose history is asked for; the second query is answered first,
the first query last. -/
def lateReplySteps : List Step :=
  [.redraw (some (400, 300)) 0, .select "device_tracker.b" 1000,
   .resolve 1 (.ok (replyFor "device_tracker.b" 21 21)),
   .resolve 0 (.ok (replyFor "device_tracker.a" 11 11))]

/-- The state of the run `lateReplySteps` after the first redraw: the map is there and the
query for `device_tracker.a` is in flight. -/
def afterFirstRedraw : World :=
  { twoTrackerWorld with
    card := (redraw plainPlatform (pageWithContainer 0) twoTrackerWorld.card).card,
    mapsCreated := 1, pending := [str "device_tracker.a"] }

/-- The state of the run after the selection: both queries are in flight. -/
def afterSelection : World :=
  { afterFirstRedraw with
    card := { afterFirstRedraw.card with _selectedDevice := some "device_tracker.b" },
    pending := [str "device_tracker.a", str "device_tracker.b"] }

/-- The state of the run after the reply to the second query. -/
def afterSecondReply : World :=
  { afterSelection with
    card := { afterSelection.card with
              _locationHistory :=
                processHistory (replyFor "device_tracker.b" 21 21) "device_tracker.b" },
    pending := [str "device_tracker.a"] }

/-- The state of the run after the late reply to the first query. -/
def afterLateReply : World :=
  { afterSecondReply with
    card := { afterSecondReply.card with
              _locationHistory :=
                processHistory (replyFor "device_tracker.a" 11 11) "device_tracker.a" },
    pending := [] }

/-! # Theorems -/

/-! ## Auxiliary lemmas -/

theorem lookup_append (k : String) (a b : JSObject) :
    lookup k (a ++ b) = if hasKey k a then lookup k a else lookup k b := by
  induction a with
  | nil => simp [lookup, hasKey]
  | cons p rest ih =>
    obtain ⟨k', v⟩ := p
    by_cases h : k' = k <;> simp [lookup, hasKey, h, ih]

theorem isArray_eq_true_iff (v : JSVal) : v.isArray = true ↔ ∃ xs, v = arr xs := by
  cases v <;> simp [isArray]

theorem truthy_of_isArray (v : JSVal) (h : v.isArray = true) : v.truthy = true := by
  cases v <;> simp_all [isArray, truthy]

/-! ## Settings store -/

theorem load_after_save_of_truthy (c : JsonCodec) (st : LocalStorage) (s : FilterSettings)
    (hd : st.denied = false) (hf : st.full = false)
    (hne : c.stringify (settingsObject s) ≠ "")
    (hrt : c.parse (c.stringify (settingsObject s)) = .ok (settingsObject s))
    (hh : s.historyDays.truthy = true)
    (ha : s.accuracyFilter.truthy = true ∨ s.accuracyFilter = num 0)
    (hm : s.markerOpacity.truthy = true) :
    _loadFilterSettings c (_saveFilterSettings c s st) = .ok s := by
  have hacc : JSVal.or s.accuracyFilter (num 0) = s.accuracyFilter := by
    rcases ha with ha | ha
    · simp [JSVal.or, ha]
    · rw [ha]
      rfl
  simp [_loadFilterSettings, _saveFilterSettings, loadFilterSettingsTry, LocalStorage.setItem,
    LocalStorage.getItem, hd, hf, List.lookup, hne, hrt, bind, Except.bind, pure, Except.pure]
  simp [settingsObject, getProp, lookup, hacc]
  simp [JSVal.or, hh, hm]

/-- C1, at the failing input: with a storage that accepts the write and a codec that reads
back the settings object it wrote, saving historyDays 7, accuracyFilter 20 and
markerOpacity 0 and then loading returns markerOpacity 100, not the saved 0. -/
theorem load_after_save_zero_opacity (c : JsonCodec) (st : LocalStorage)
    (hd : st.denied = false) (hf : st.full = false)
    (hne : c.stringify (settingsObject ⟨num 7, num 20, num 0⟩) ≠ "")
    (hrt : c.parse (c.stringify (settingsObject ⟨num 7, num 20, num 0⟩))
      = .ok (settingsObject ⟨num 7, num 20, num 0⟩)) :
    _loadFilterSettings c (_saveFilterSettings c ⟨num 7, num 20, num 0⟩ st)
      = .ok ⟨num 7, num 20, num 100⟩ := by
  simp [_loadFilterSettings, _saveFilterSettings, loadFilterSettingsTry, LocalStorage.setItem,
    LocalStorage.getItem, hd, hf, List.lookup, hne, hrt, bind, Except.bind, pure, Except.pure]
  simp [settingsObject, getProp, lookup, JSVal.or, truthy]

/-- The failing input of C1 with the compact codec and an empty storage. -/
theorem load_after_save_zero_opacity_witness :
    _loadFilterSettings compactJson
        (_saveFilterSettings compactJson ⟨num 7, num 20, num 0⟩ ⟨[], false, false⟩)
      = .ok ⟨num 7, num 20, num 100⟩ :=
  load_after_save_zero_opacity compactJson ⟨[], false, false⟩ rfl rfl (by decide) rfl

/-- C2: `_loadFilterSettings` returns normally for every codec and every storage, and it
returns the defaults (3, 0, 100) when access to the storage throws, when the key is missing,
when the stored text is empty, when the text does not parse, and when it parses to a value
that is not an object. -/
theorem loadFilterSettings_never_fails (c : JsonCodec) (st : LocalStorage) :
    (∃ r, _loadFilterSettings c st = .ok r) ∧
    ((st.denied = true ∨ st.items.lookup settingsKey = none
        ∨ st.items.lookup settingsKey = some ""
        ∨ ∃ s, st.items.lookup settingsKey = some s ∧
            ((∃ e, c.parse s = .error e) ∨ ∃ v, c.parse s = .ok v ∧ v.isObject = false)) →
      _loadFilterSettings c st = .ok defaultSettings) := by
  constructor
  · unfold _loadFilterSettings
    cases loadFilterSettingsTry c st with
    | error e => exact ⟨_, rfl⟩
    | ok o => cases o <;> exact ⟨_, rfl⟩
  · intro h
    rcases h with h | h | h | ⟨s, hs, h⟩
    · simp [_loadFilterSettings, loadFilterSettingsTry, LocalStorage.getItem, h, bind,
        Except.bind]
    · cases hd : st.denied <;>
        simp [_loadFilterSettings, loadFilterSettingsTry, LocalStorage.getItem, h, hd, bind,
          Except.bind, pure, Except.pure]
    · cases hd : st.denied <;>
        simp [_loadFilterSettings, loadFilterSettingsTry, LocalStorage.getItem, h, hd, bind,
          Except.bind, pure, Except.pure]
    · cases hd : st.denied
      · by_cases hemp : s = ""
        · simp [_loadFilterSettings, loadFilterSettingsTry, LocalStorage.getItem, hs, hd,
            hemp, bind, Except.bind, pure, Except.pure]
        · rcases h with ⟨e, he⟩ | ⟨v, hv, hobj⟩
          · simp [_loadFilterSettings, loadFilterSettingsTry, LocalStorage.getItem, hs, hd,
              hemp, he, bind, Except.bind]
          · cases v <;>
              simp_all [_loadFilterSettings, loadFilterSettingsTry, LocalStorage.getItem,
                bind, Except.bind, pure, Except.pure, getProp, isObject, JSVal.or, truthy,
                defaultSettings]
      · simp [_loadFilterSettings, loadFilterSettingsTry, LocalStorage.getItem, hd, bind,
          Except.bind]

/-- A stored blob holding the JSON text of `null`: the load returns the defaults. -/
theorem loadFilterSettings_never_fails_witness :
    parseJson "null" = .ok null ∧
    _loadFilterSettings compactJson ⟨[(settingsKey, "null")], false, false⟩
      = .ok defaultSettings :=
  ⟨rfl, (loadFilterSettings_never_fails compactJson
      ⟨[(settingsKey, "null")], false, false⟩).2
    (Or.inr (Or.inr (Or.inr ⟨"null", rfl, Or.inr ⟨null, rfl, rfl⟩⟩)))⟩

/-! ## Device resolver -/

/-- C3, at the failing input: with the single configured device `device_tracker.phone` and
the selected id `device_tracker.gone`, which is not configured, the resolution shared by
`_renderMap`, `_fetchLocationHistory` and `_updateMap` yields `undefined` instead of the
first configured device, while the resolution of the `hass` setter yields that device. -/
theorem stale_selection_resolves_to_undefined :
    (_getDevices (obj [("entities", arr [str "device_tracker.phone"])]) >>=
        selectedDevice (some "device_tracker.gone")) = .ok undefined ∧
    (_getDevices (obj [("entities", arr [str "device_tracker.phone"])]) >>=
        hassSelectedDevice (some "device_tracker.gone"))
      = .ok (obj [("entity_id", str "device_tracker.phone")]) := by
  constructor <;> rfl

/-- C4: for a configuration whose `entities` is the list `xs`, `_getDevices` returns a list
of the same length whose i-th element is `{entity_id: s}` when the i-th entry is the string
`s` and the i-th entry itself when it is not a string; for a configuration without
`entities` it returns the empty list. -/
theorem getDevices_normalises (config : JSObject) :
    (∀ xs, lookup "entities" config = arr xs →
      ∃ ds, _getDevices (obj config) = .ok ds ∧ ds.length = xs.length ∧
        ∀ (i : ℕ) (e : JSVal), xs[i]? = some e →
          (∀ s, e = str s → ds[i]? = some (obj [("entity_id", str s)])) ∧
          (e.isString = false → ds[i]? = some e)) ∧
    (hasKey "entities" config = false → _getDevices (obj config) = .ok []) := by
  constructor
  · intro xs hxs
    refine ⟨xs.map normaliseEntity, ?_, by simp, ?_⟩
    · simp [_getDevices, getProp, hxs, truthy, bind, Except.bind, pure, Except.pure]
    · intro i e hie
      constructor
      · intro s hs
        simp [List.getElem?_map, hie, hs, normaliseEntity, isString]
      · intro hns
        simp [List.getElem?_map, hie, normaliseEntity, hns]
  · intro hk
    have hl : lookup "entities" config = undefined := by
      induction config with
      | nil => rfl
      | cons p rest ih =>
        obtain ⟨k, v⟩ := p
        by_cases h : k = "entities" <;> simp_all [lookup, hasKey]
    simp [_getDevices, getProp, hl, truthy, bind, Except.bind, pure, Except.pure]

/-- A configuration mixing a bare id and a reference object, and one without entities. -/
theorem getDevices_normalises_witness :
    _getDevices (obj [("entities", arr [str "device_tracker.phone",
        obj [("entity_id", str "device_tracker.keys"), ("name", str "Keys")]])])
      = .ok [obj [("entity_id", str "device_tracker.phone")],
          obj [("entity_id", str "device_tracker.keys"), ("name", str "Keys")]] ∧
    _getDevices (obj [("title", str "Trackers")]) = .ok [] := by
  constructor
  · obtain ⟨ds, hds, hlen, hget⟩ :=
      (getDevices_normalises [("entities", arr [str "device_tracker.phone",
        obj [("entity_id", str "device_tracker.keys"), ("name", str "Keys")]])]).1 _ rfl
    have h0 := (hget 0 _ rfl).1 _ rfl
    have h1 := (hget 1 _ rfl).2 rfl
    rw [hds]
    match ds, hlen, h0, h1 with
    | [a, b], _, h0, h1 =>
      simp at h0 h1
      rw [h0, h1]
  · exact (getDevices_normalises [("title", str "Trackers")]).2 rfl

/-! ## Configuration -/

/-- C5, counterexample: a configuration whose `entities` is the number 0 has an entities
value that is present and not a list, yet `setConfig` does not throw and stores the empty
list. -/
theorem setConfig_accepts_falsy_entities :
    hasKey "entities" [("entities", num 0)] = true ∧
    (lookup "entities" [("entities", num 0)]).isArray = false ∧
    setConfig undefined [("entities", num 0)]
      = (obj (("entities", arr []) :: ("entities", num 0) :: defaultConfig), none) := by
  refine ⟨rfl, rfl, rfl⟩

/-- C5, amended: `setConfig` throws the error "Entities must be an array" exactly when the
entities value is truthy and not an array, and throws nothing else; when entities is absent
or falsy it succeeds and stores the empty list; when entities is a list it succeeds and
stores that list; when it throws the stored configuration is unchanged. -/
theorem setConfig_throws_iff (stored : JSVal) (config : JSObject) :
    ((setConfig stored config).2 = some (.error "Entities must be an array") ↔
      (lookup "entities" config).truthy = true ∧ (lookup "entities" config).isArray = false) ∧
    (∀ e, (setConfig stored config).2 = some e → e = .error "Entities must be an array") ∧
    ((lookup "entities" config).truthy = false →
      ∃ c, setConfig stored config = (obj c, none) ∧ lookup "entities" c = arr []) ∧
    (∀ xs, lookup "entities" config = arr xs →
      ∃ c, setConfig stored config = (obj c, none) ∧ lookup "entities" c = arr xs) ∧
    ((setConfig stored config).2 ≠ none → (setConfig stored config).1 = stored) := by
  cases ht : (lookup "entities" config).truthy
  · simp [setConfig, setConfigBody, ht, lookup, isArray, lookup_append, hasKey]
    intro xs hxs
    simp [hxs, truthy] at ht
  · cases ha : (lookup "entities" config).isArray
    · simp [setConfig, setConfigBody, ht, ha]
      intro xs hxs
      simp [hxs, isArray] at ha
    · simp [setConfig, setConfigBody, ht, ha]
      intro xs hxs
      have hk : hasKey "entities" config = true := by
        clear ht ha
        induction config with
        | nil => simp [lookup] at hxs
        | cons p rest ih =>
          obtain ⟨k, v⟩ := p
          by_cases h : k = "entities" <;> simp_all [lookup, hasKey]
      simp [lookup_append, hk, hxs]

/-- A configuration with a string for entities is refused and leaves the stored
configuration alone; one with a list is not refused. -/
theorem setConfig_throws_iff_witness :
    setConfig (obj [("entities", arr [])]) [("entities", str "device_tracker.phone")]
      = (obj [("entities", arr [])], some (.error "Entities must be an array")) ∧
    (setConfig undefined [("entities", arr [str "device_tracker.phone"])]).2
      ≠ some (.error "Entities must be an array") := by
  have h := setConfig_throws_iff (obj [("entities", arr [])])
    [("entities", str "device_tracker.phone")]
  have h2 := setConfig_throws_iff undefined [("entities", arr [str "device_tracker.phone"])]
  have he := h.1.2 ⟨by decide, rfl⟩
  have hs := h.2.2.2.2 (by rw [he]; simp)
  refine ⟨Prod.ext hs he, fun hthrow => ?_⟩
  have hna := (h2.1.1 hthrow).2
  simp [lookup, isArray] at hna

/-- C6, counterexample: the caller supplies `entities: false` and a title; the
configuration is accepted and the stored `entities` is the empty list, not the value the
caller supplied. -/
theorem setConfig_replaces_falsy_entities :
    setConfig undefined [("entities", bool false), ("title", str "Trackers")]
      = (obj (("entities", arr []) ::
          ([("entities", bool false), ("title", str "Trackers")] ++ defaultConfig)), none) ∧
    lookup "entities" [("entities", bool false), ("title", str "Trackers")] = bool false ∧
    lookup "entities" (("entities", arr []) ::
      ([("entities", bool false), ("title", str "Trackers")] ++ defaultConfig)) = arr [] :=
  ⟨rfl, rfl, rfl⟩

/-- C6, amended: in the configuration stored by an accepted `setConfig`, every field other
than `entities` holds the caller's value when the caller supplies it and the default of
`defaultConfig` when the caller omits it, and `entities` holds the caller's value when that
is truthy and the empty list otherwise. -/
theorem setConfig_defaults (stored : JSVal) (config c : JSObject)
    (h : setConfig stored config = (obj c, none)) :
    (∀ k, k ≠ "entities" →
      lookup k c = if hasKey k config then lookup k config else lookup k defaultConfig) ∧
    lookup "entities" c
      = if (lookup "entities" config).truthy then lookup "entities" config else arr [] := by
  cases ht : (lookup "entities" config).truthy
  · simp [setConfig, setConfigBody, ht, lookup, isArray] at h
    subst h
    constructor
    · intro k hk
      have hk' : ¬ "entities" = k := fun e => hk e.symm
      simp [lookup, hk', lookup_append]
    · simp [lookup]
  · cases ha : (lookup "entities" config).isArray
    · simp [setConfig, setConfigBody, ht, ha] at h
    · simp [setConfig, setConfigBody, ht, ha] at h
      subst h
      constructor
      · intro k _
        simp [lookup_append]
      · obtain ⟨xs, hxs⟩ := (isArray_eq_true_iff _).1 ha
        have hk : hasKey "entities" config = true := by
          clear ht ha
          induction config with
          | nil => simp [lookup] at hxs
          | cons p rest ih =>
            obtain ⟨k, v⟩ := p
            by_cases h : k = "entities" <;> simp_all [lookup, hasKey]
        simp [lookup_append, hk]

/-- A configuration that overrides the title and omits the other fields. -/
theorem setConfig_defaults_witness :
    setConfig undefined [("entities", arr []), ("title", str "Trackers")]
      = (obj ([("entities", arr []), ("title", str "Trackers")] ++ defaultConfig), none) ∧
    lookup "title" ([("entities", arr []), ("title", str "Trackers")] ++ defaultConfig)
      = str "Trackers" ∧
    lookup "show_coordinates"
      ([("entities", arr []), ("title", str "Trackers")] ++ defaultConfig) = bool false :=
  ⟨rfl,
    ((setConfig_defaults undefined [("entities", arr []), ("title", str "Trackers")] _
      rfl).1 "title" (by decide)).trans rfl,
    ((setConfig_defaults undefined [("entities", arr []), ("title", str "Trackers")] _
      rfl).1 "show_coordinates" (by decide)).trans rfl⟩

/-! ## History fetcher: lemmas on the loop -/

theorem strictEq_eq {a b : JSVal} (h : strictEq a b = true) : a = b := by
  cases a <;> cases b <;> simp_all [strictEq]

theorem historyLoop_cons (r : JSObject) (rest : List JSObject) (ls : JSVal)
    (acc : List LocationSample) :
    historyLoop (r :: rest) ls acc =
      if hasCoords r then
        if (lastSeenOf r).truthy && strictEq (lastSeenOf r) ls then historyLoop rest ls acc
        else historyLoop rest (lastSeenOf r) (acc ++ [sampleOf r])
      else historyLoop rest ls acc := rfl

theorem historyLoop_acc (xs : List JSObject) (ls : JSVal) (acc : List LocationSample) :
    historyLoop xs ls acc = acc ++ historyLoop xs ls [] := by
  induction xs generalizing ls acc with
  | nil => simp [historyLoop]
  | cons r rest ih =>
    rw [historyLoop_cons, historyLoop_cons]
    split
    · split
      · exact ih _ _
      · rw [ih _ (acc ++ [sampleOf r]), ih _ ([] ++ [sampleOf r])]
        simp
    · exact ih _ _

theorem historyLoop_push_acc (r : JSObject) (rest : List JSObject) (ls : JSVal)
    (acc : List LocationSample) (hc : hasCoords r = true)
    (hn : ((lastSeenOf r).truthy && strictEq (lastSeenOf r) ls) = false) :
    historyLoop (r :: rest) ls acc
      = historyLoop rest (lastSeenOf r) (acc ++ [sampleOf r]) := by
  rw [historyLoop_cons, hc, hn]
  simp

theorem historyLoop_push (r : JSObject) (rest : List JSObject) (ls : JSVal)
    (hc : hasCoords r = true)
    (hn : ((lastSeenOf r).truthy && strictEq (lastSeenOf r) ls) = false) :
    historyLoop (r :: rest) ls [] = sampleOf r :: historyLoop rest (lastSeenOf r) [] := by
  rw [historyLoop_push_acc _ _ _ _ hc hn, historyLoop_acc]
  rfl

theorem historyLoop_drop (r : JSObject) (rest : List JSObject) (ls : JSVal)
    (acc : List LocationSample) (hc : hasCoords r = true)
    (hd : ((lastSeenOf r).truthy && strictEq (lastSeenOf r) ls) = true) :
    historyLoop (r :: rest) ls acc = historyLoop rest ls acc := by
  rw [historyLoop_cons, hc, hd]
  simp

theorem historyLoop_skip (r : JSObject) (rest : List JSObject) (ls : JSVal)
    (acc : List LocationSample) (hc : hasCoords r = false) :
    historyLoop (r :: rest) ls acc = historyLoop rest ls acc := by
  rw [historyLoop_cons, hc]
  simp

theorem historyLoop_filter (xs : List JSObject) (ls : JSVal) (acc : List LocationSample) :
    historyLoop xs ls acc = historyLoop (xs.filter hasCoords) ls acc := by
  induction xs generalizing ls acc with
  | nil => rfl
  | cons r rest ih =>
    cases hc : hasCoords r
    · rw [historyLoop_skip _ _ _ _ hc, List.filter_cons_of_neg (by simp [hc])]
      exact ih _ _
    · rw [List.filter_cons_of_pos hc, historyLoop_cons, historyLoop_cons, hc]
      simp only [if_true]
      split
      · exact ih _ _
      · exact ih _ _

theorem processHistory_eq (history : HistoryReply) (entityId : String) :
    processHistory history entityId
      = historyLoop ((stateArrayOf history entityId).getD []) null [] := by
  unfold processHistory
  cases stateArrayOf history entityId with
  | none => rfl
  | some xs =>
    cases xs with
    | nil => rfl
    | cons r rest => simp

theorem stateArrayOf_single (entityId : String) (records : List JSObject) :
    stateArrayOf (some [(entityId, records)]) entityId = some records := by
  simp [stateArrayOf, List.lookup]

theorem fetchedHistory_single (entityId : String) (records : List JSObject) :
    fetchedHistory (.ok (some [(entityId, records)])) entityId
      = historyLoop records null [] := by
  simp [fetchedHistory, processHistory_eq, stateArrayOf_single]

theorem historyLoop_chain (xs : List JSObject) (ls : JSVal) :
    List.Chain' (fun a b : LocationSample =>
        b.lastSeen.truthy = true → strictEq b.lastSeen a.lastSeen = false)
      (historyLoop xs ls []) ∧
    ∀ s, (historyLoop xs ls []).head? = some s →
      s.lastSeen.truthy = true → strictEq s.lastSeen ls = false := by
  induction xs generalizing ls with
  | nil => simp [historyLoop]
  | cons r rest ih =>
    cases hc : hasCoords r
    · rw [historyLoop_skip _ _ _ _ hc]
      exact ih ls
    · cases hd : ((lastSeenOf r).truthy && strictEq (lastSeenOf r) ls)
      · rw [historyLoop_push _ _ _ hc hd]
        refine ⟨?_, ?_⟩
        · rw [List.chain'_cons']
          refine ⟨?_, (ih _).1⟩
          intro b hb
          exact (ih (lastSeenOf r)).2 b (by simpa using hb)
        · intro s hs ht
          simp at hs
          subst hs
          have hls : (sampleOf r).lastSeen = lastSeenOf r := rfl
          rw [hls] at ht ⊢
          simpa [ht] using hd
      · rw [historyLoop_drop _ _ _ _ hc hd]
        exact ih ls

theorem historyLoop_second_dropped (pre : List JSObject) (r1 r2 : JSObject)
    (post : List JSObject) (ls : JSVal) (acc : List LocationSample)
    (h1 : hasCoords r1 = true) (h2 : hasCoords r2 = true)
    (ht : (lastSeenOf r2).truthy = true)
    (he : strictEq (lastSeenOf r2) (lastSeenOf r1) = true) :
    historyLoop (pre ++ r1 :: r2 :: post) ls acc = historyLoop (pre ++ r1 :: post) ls acc := by
  induction pre generalizing ls acc with
  | nil =>
    have h21 : lastSeenOf r2 = lastSeenOf r1 := strictEq_eq he
    simp only [List.nil_append]
    cases hd : ((lastSeenOf r1).truthy && strictEq (lastSeenOf r1) ls)
    · rw [historyLoop_push_acc _ _ _ _ h1 hd, historyLoop_push_acc _ _ _ _ h1 hd,
        historyLoop_drop _ _ _ _ h2 (by simp [ht, he])]
    · rw [historyLoop_drop _ _ _ _ h1 hd, historyLoop_drop _ _ _ _ h1 hd]
      have hls : lastSeenOf r1 = ls := by
        simp at hd
        exact strictEq_eq hd.2
      rw [historyLoop_drop _ _ _ _ h2 (by rw [← hls]; simp [ht, he])]
  | cons p pre ih =>
    simp only [List.cons_append]
    rw [historyLoop_cons, historyLoop_cons p]
    split
    · split
      · exact ih _ _
      · exact ih _ _
    · exact ih _ _

theorem historyLoop_sublist (xs : List JSObject) (ls : JSVal) :
    ∃ kept : List JSObject,
      kept.Sublist (xs.filter hasCoords) ∧ historyLoop xs ls [] = kept.map sampleOf := by
  induction xs generalizing ls with
  | nil => exact ⟨[], List.Sublist.refl _, rfl⟩
  | cons r rest ih =>
    cases hc : hasCoords r
    · rw [historyLoop_skip _ _ _ _ hc, List.filter_cons_of_neg (by simp [hc])]
      exact ih ls
    · rw [List.filter_cons_of_pos hc]
      cases hd : ((lastSeenOf r).truthy && strictEq (lastSeenOf r) ls)
      · rw [historyLoop_push _ _ _ hc hd]
        obtain ⟨kept, hk, hm⟩ := ih (lastSeenOf r)
        exact ⟨r :: kept, hk.cons₂ r, by simp [hm]⟩
      · rw [historyLoop_drop _ _ _ _ hc hd]
        obtain ⟨kept, hk, hm⟩ := ih ls
        exact ⟨kept, hk.cons r, hm⟩

theorem historyLoop_mem (xs : List JSObject) (ls : JSVal) (s : LocationSample)
    (hs : s ∈ historyLoop xs ls []) : ∃ r ∈ xs, hasCoords r = true ∧ s = sampleOf r := by
  obtain ⟨kept, hk, hm⟩ := historyLoop_sublist xs ls
  rw [hm] at hs
  obtain ⟨r, hr, rfl⟩ := List.mem_map.1 hs
  have hmem := hk.subset hr
  rw [List.mem_filter] at hmem
  exact ⟨r, hmem.1, hmem.2, rfl⟩

theorem strictEq_null_of_truthy {a : JSVal} (h : a.truthy = true) : strictEq a null = false := by
  cases a <;> simp_all [strictEq, truthy]

theorem historyLoop_run_dropped (run post : List JSObject) (v : JSVal)
    (acc : List LocationSample) (hv : v.truthy = true)
    (hrun : ∀ x ∈ run, hasCoords x = true ∧ strictEq (lastSeenOf x) v = true) :
    historyLoop (run ++ post) v acc = historyLoop post v acc := by
  induction run with
  | nil => rfl
  | cons x run ih =>
    have hx := hrun x (List.mem_cons_self _ _)
    have hxv : lastSeenOf x = v := strictEq_eq hx.2
    simp only [List.cons_append]
    rw [historyLoop_drop _ _ _ _ hx.1 (by rw [hxv] at hx ⊢; simp [hv, hx.2])]
    exact ih (fun y hy => hrun y (List.mem_cons_of_mem _ hy))

theorem historyLoop_restart (post : List JSObject) (v : JSVal) (acc : List LocationSample)
    (hpost : ∀ x ∈ post, hasCoords x = true)
    (hhead : ∀ q, post.head? = some q → strictEq (lastSeenOf q) v = false) :
    historyLoop post v acc = historyLoop post null acc := by
  cases post with
  | nil => rfl
  | cons q rest =>
    have hq := hpost q (List.mem_cons_self _ _)
    have hqv := hhead q rfl
    have hnull : ((lastSeenOf q).truthy && strictEq (lastSeenOf q) null) = false := by
      cases ht : (lastSeenOf q).truthy
      · simp
      · simp [strictEq_null_of_truthy ht]
    rw [historyLoop_push_acc _ _ _ _ hq (by simp [hqv]), historyLoop_push_acc _ _ _ _ hq hnull]

theorem getLast?_map_getD_cons (f : JSObject → JSVal) (p : JSObject) (pre : List JSObject)
    (ls : JSVal) :
    (((p :: pre).getLast?).map f).getD ls = ((pre.getLast?).map f).getD (f p) := by
  cases pre with
  | nil => rfl
  | cons q pre =>
    rw [List.getLast?_cons_cons]
    cases h : (q :: pre).getLast? with
    | none => simp at h
    | some z => rfl

theorem historyLoop_run (pre : List JSObject) (r : JSObject) (run post : List JSObject)
    (ls : JSVal) (hpre : ∀ x ∈ pre, hasCoords x = true) (hr : hasCoords r = true)
    (hrun : ∀ x ∈ run, hasCoords x = true ∧ strictEq (lastSeenOf x) (lastSeenOf r) = true)
    (hpost : ∀ x ∈ post, hasCoords x = true) (ht : (lastSeenOf r).truthy = true)
    (hbefore : strictEq (lastSeenOf r) (((pre.getLast?).map lastSeenOf).getD ls) = false)
    (hafter : ∀ q, post.head? = some q → strictEq (lastSeenOf q) (lastSeenOf r) = false) :
    historyLoop (pre ++ r :: (run ++ post)) ls []
      = historyLoop pre ls [] ++ sampleOf r :: historyLoop post null [] := by
  induction pre generalizing ls with
  | nil =>
    simp only [List.nil_append, List.getLast?_nil, Option.map_none', Option.getD_none]
      at hbefore ⊢
    rw [historyLoop_push _ _ _ hr (by simp [hbefore]),
      historyLoop_run_dropped run post _ _ ht hrun, historyLoop_restart post _ _ hpost hafter]
    rfl
  | cons p pre ih =>
    have hp := hpre p (List.mem_cons_self _ _)
    have hpre' : ∀ x ∈ pre, hasCoords x = true := fun x hx => hpre x (List.mem_cons_of_mem _ hx)
    rw [getLast?_map_getD_cons] at hbefore
    simp only [List.cons_append]
    cases hd : ((lastSeenOf p).truthy && strictEq (lastSeenOf p) ls)
    · rw [historyLoop_push _ _ _ hp hd, historyLoop_push _ _ _ hp hd, ih _ hpre' hbefore]
      rfl
    · rw [historyLoop_drop _ _ _ _ hp hd, historyLoop_drop _ _ _ _ hp hd]
      have hls : lastSeenOf p = ls := by
        simp at hd
        exact strictEq_eq hd.2
      rw [hls] at hbefore
      exact ih _ hpre' hbefore

theorem historyLoop_congr {α : Type} (f g : α → JSObject) (l : List α)
    (h : ∀ x ∈ l, sampleOf (f x) = sampleOf (g x)) (ls : JSVal) (acc : List LocationSample) :
    historyLoop (l.map f) ls acc = historyLoop (l.map g) ls acc := by
  induction l generalizing ls acc with
  | nil => rfl
  | cons x l ih =>
    have hx := h x (List.mem_cons_self _ _)
    have hl : ∀ y ∈ l, sampleOf (f y) = sampleOf (g y) :=
      fun y hy => h y (List.mem_cons_of_mem _ hy)
    have hc : hasCoords (f x) = hasCoords (g x) := by
      have h1 : hasCoords (f x)
          = (!(sampleOf (f x)).lat.isUndefined && !(sampleOf (f x)).lon.isUndefined) := rfl
      rw [h1, hx]
      rfl
    have hl' : lastSeenOf (f x) = lastSeenOf (g x) := by
      have h1 : lastSeenOf (f x) = (sampleOf (f x)).lastSeen := rfl
      rw [h1, hx]
      rfl
    simp only [List.map_cons]
    rw [historyLoop_cons, historyLoop_cons (g x), hc, hl', hx]
    split
    · split
      · exact ih hl _ _
      · exact ih hl _ _
    · exact ih hl _ _

theorem optProp_or_undefined (a : JSVal) (k : String) :
    (JSVal.or a undefined).optProp k = a.optProp k := by
  unfold JSVal.or
  split
  · rfl
  · cases a <;> simp_all [truthy, optProp]

theorem or_undefined_left (a : JSVal) : JSVal.or undefined a = a := by
  simp [JSVal.or, truthy]

theorem or_undefined_right (a : JSVal) (h : a.truthy = true ∨ a = undefined) :
    JSVal.or a undefined = a := by
  rcases h with h | h
  · simp [JSVal.or, h]
  · subst h
    rfl

theorem sampleOf_compact_eq_full (attrs t st : JSVal)
    (ht : t.truthy = true ∨ t = undefined) (hst : st.truthy = true ∨ st = undefined) :
    sampleOf (compactRecord attrs t st) = sampleOf (fullRecord attrs t st) := by
  have ha : recordAttrs (compactRecord attrs t st) = JSVal.or attrs undefined := rfl
  have hf : recordAttrs (fullRecord attrs t st) = attrs := or_undefined_left attrs
  have h1 : JSVal.or (lookup "last_changed" (compactRecord attrs t st))
      (lookup "lu" (compactRecord attrs t st)) = t := or_undefined_left t
  have h2 : JSVal.or (lookup "last_changed" (fullRecord attrs t st))
      (lookup "lu" (fullRecord attrs t st)) = t := or_undefined_right t ht
  have h3 : JSVal.or (lookup "s" (compactRecord attrs t st))
      (lookup "state" (compactRecord attrs t st)) = st := or_undefined_right st hst
  have h4 : JSVal.or (lookup "s" (fullRecord attrs t st))
      (lookup "state" (fullRecord attrs t st)) = st := or_undefined_left st
  simp only [sampleOf, ha, hf, h1, h2, h3, h4, optProp_or_undefined]

/-! ## History fetcher: the properties -/

/-- C7, counterexample: two consecutive records with coordinates whose `last_seen` is
`null` are both kept, so the sequence has two adjacent samples with the identical lastSeen
value `null`. -/
theorem null_lastSeen_kept_twice :
    (fetchedHistory (.ok (some [("device_tracker.phone",
        [fullRecord (fixAttrs 52 13 null) (str "2024-05-01T10:00:00+00:00") (str "home"),
          fullRecord (fixAttrs 52 13 null) (str "2024-05-01T10:05:00+00:00") (str "home")])]))
      "device_tracker.phone").map (fun s => s.lastSeen) = [null, null] := by
  rfl

/-- C7, amended: the sequence produced by `_fetchLocationHistory` has no two adjacent
samples of which the second has a truthy lastSeen strictly equal to the lastSeen of the
first, in particular no two adjacent samples with the same non-empty string; the second of
two consecutive records with coordinates that share a truthy `last_seen` contributes no
sample, and a reply made of two such records yields exactly one sample, built from the
first. -/
theorem history_no_adjacent_duplicates (reply : Except JSErr HistoryReply)
    (entityId : String) :
    List.Chain' (fun a b : LocationSample =>
        b.lastSeen.truthy = true → strictEq b.lastSeen a.lastSeen = false)
      (fetchedHistory reply entityId) ∧
    List.Chain' (fun a b : LocationSample =>
        ∀ t : String, t ≠ "" → ¬ (a.lastSeen = str t ∧ b.lastSeen = str t))
      (fetchedHistory reply entityId) ∧
    (∀ r1 r2 : JSObject, hasCoords r1 = true → hasCoords r2 = true →
      (lastSeenOf r2).truthy = true → strictEq (lastSeenOf r2) (lastSeenOf r1) = true →
      fetchedHistory (.ok (some [(entityId, [r1, r2])])) entityId = [sampleOf r1]) ∧
    (∀ (pre : List JSObject) (r1 r2 : JSObject) (post : List JSObject),
      hasCoords r1 = true → hasCoords r2 = true →
      (lastSeenOf r2).truthy = true → strictEq (lastSeenOf r2) (lastSeenOf r1) = true →
      fetchedHistory (.ok (some [(entityId, pre ++ r1 :: r2 :: post)])) entityId
        = fetchedHistory (.ok (some [(entityId, pre ++ r1 :: post)])) entityId) := by
  have hchain : List.Chain' (fun a b : LocationSample =>
      b.lastSeen.truthy = true → strictEq b.lastSeen a.lastSeen = false)
      (fetchedHistory reply entityId) := by
    cases reply with
    | error e => simp [fetchedHistory]
    | ok history =>
      simp only [fetchedHistory, processHistory_eq]
      exact (historyLoop_chain _ _).1
  refine ⟨hchain, ?_, ?_, ?_⟩
  · refine hchain.imp ?_
    intro a b hab t ht hboth
    have hb := hab (by rw [hboth.2]; simp [truthy, ht])
    rw [hboth.1, hboth.2] at hb
    simp [strictEq] at hb
  · intro r1 r2 h1 h2 ht he
    have h := historyLoop_second_dropped [] r1 r2 [] null [] h1 h2 ht he
    simp only [List.nil_append] at h
    rw [fetchedHistory_single, h]
    have hn : ((lastSeenOf r1).truthy && strictEq (lastSeenOf r1) null) = false := by
      cases ht1 : (lastSeenOf r1).truthy
      · simp
      · simp [strictEq_null_of_truthy ht1]
    rw [historyLoop_push _ _ _ h1 hn]
    rfl
  · intro pre r1 r2 post h1 h2 ht he
    rw [fetchedHistory_single, fetchedHistory_single]
    exact historyLoop_second_dropped pre r1 r2 post null [] h1 h2 ht he

/-- Two consecutive records with the same non-empty `last_seen` yield one sample. -/
theorem history_no_adjacent_duplicates_witness :
    fetchedHistory (.ok (some [("device_tracker.phone",
        [fullRecord (fixAttrs 52 13 (str "2024-05-01T10:00:00+00:00"))
            (str "2024-05-01T10:00:00+00:00") (str "home"),
          fullRecord (fixAttrs 52 13 (str "2024-05-01T10:00:00+00:00"))
            (str "2024-05-01T10:05:00+00:00") (str "home")])])) "device_tracker.phone"
      = [sampleOf (fullRecord (fixAttrs 52 13 (str "2024-05-01T10:00:00+00:00"))
            (str "2024-05-01T10:00:00+00:00") (str "home"))] :=
  (history_no_adjacent_duplicates (.ok none) "device_tracker.phone").2.2.1 _ _ rfl rfl
    (by decide) (by decide)

/-- C8: the sequence produced by `_fetchLocationHistory` is the image under `sampleOf` of a
sublist of the records with coordinates, in their order, so that its latitudes, longitudes,
timestamps and states are, in order, those of the records kept (the latitude and longitude
of the attributes `a || attributes`, `last_changed || lu`, `s || state`); and for every
maximal run, in the sequence of records with coordinates, of records sharing a truthy
`last_seen` (`r` followed by `run`, the record before and the record after having another
`last_seen`), the sequence is what the records before the run yield, then one sample `s`,
then what the records after the run yield, where `s` is built from the first record `r` of
the run: it has the latitude, the longitude, the timestamp, the state and the `last_seen`
of `r`. -/
theorem history_keeps_first_of_run (history : HistoryReply) (entityId : String) :
    (∃ kept : List JSObject,
      kept.Sublist (((stateArrayOf history entityId).getD []).filter hasCoords) ∧
      fetchedHistory (.ok history) entityId = kept.map sampleOf ∧
      (fetchedHistory (.ok history) entityId).map
          (fun s => (s.lat, s.lon, s.timestamp, s.state))
        = kept.map (fun r =>
            ((JSVal.or (lookup "a" r) (lookup "attributes" r)).optProp "latitude",
              (JSVal.or (lookup "a" r) (lookup "attributes" r)).optProp "longitude",
              JSVal.or (lookup "last_changed" r) (lookup "lu" r),
              JSVal.or (lookup "s" r) (lookup "state" r)))) ∧
    ∀ (pre : List JSObject) (r : JSObject) (run post : List JSObject),
      ((stateArrayOf history entityId).getD []).filter hasCoords
        = pre ++ r :: (run ++ post) →
      (lastSeenOf r).truthy = true →
      (∀ x ∈ run, strictEq (lastSeenOf x) (lastSeenOf r) = true) →
      (∀ p, pre.getLast? = some p → strictEq (lastSeenOf r) (lastSeenOf p) = false) →
      (∀ q, post.head? = some q → strictEq (lastSeenOf q) (lastSeenOf r) = false) →
      fetchedHistory (.ok history) entityId
        = fetchedHistory (.ok (some [(entityId, pre)])) entityId
          ++ sampleOf r :: fetchedHistory (.ok (some [(entityId, post)])) entityId ∧
      ∃ s : LocationSample,
        fetchedHistory (.ok history) entityId
          = fetchedHistory (.ok (some [(entityId, pre)])) entityId
            ++ s :: fetchedHistory (.ok (some [(entityId, post)])) entityId ∧
        s.lat = (JSVal.or (lookup "a" r) (lookup "attributes" r)).optProp "latitude" ∧
        s.lon = (JSVal.or (lookup "a" r) (lookup "attributes" r)).optProp "longitude" ∧
        s.timestamp = JSVal.or (lookup "last_changed" r) (lookup "lu" r) ∧
        s.state = JSVal.or (lookup "s" r) (lookup "state" r) ∧
        s.lastSeen
          = (JSVal.or (lookup "a" r) (lookup "attributes" r)).optProp "last_seen" := by
  refine ⟨?_, ?_⟩
  · simp only [fetchedHistory, processHistory_eq]
    obtain ⟨kept, hsub, hkept⟩ := historyLoop_sublist
      (((stateArrayOf history entityId).getD [])) null
    refine ⟨kept, hsub, hkept, ?_⟩
    rw [hkept, List.map_map]
    rfl
  · intro pre r run post hsplit ht hrun hbefore hafter
    suffices hmain : fetchedHistory (.ok history) entityId
        = fetchedHistory (.ok (some [(entityId, pre)])) entityId
          ++ sampleOf r :: fetchedHistory (.ok (some [(entityId, post)])) entityId from
      ⟨hmain, sampleOf r, hmain, rfl, rfl, rfl, rfl, rfl⟩
    have hall : ∀ x ∈ pre ++ r :: (run ++ post), hasCoords x = true := by
      intro x hx
      rw [← hsplit, List.mem_filter] at hx
      exact hx.2
    have hpre : ∀ x ∈ pre, hasCoords x = true := fun x hx => hall x (by simp [hx])
    have hr : hasCoords r = true := hall r (by simp)
    have hrun' : ∀ x ∈ run,
        hasCoords x = true ∧ strictEq (lastSeenOf x) (lastSeenOf r) = true :=
      fun x hx => ⟨hall x (by simp [hx]), hrun x hx⟩
    have hpost : ∀ x ∈ post, hasCoords x = true := fun x hx => hall x (by simp [hx])
    have hb : strictEq (lastSeenOf r) (((pre.getLast?).map lastSeenOf).getD null) = false := by
      cases hl : pre.getLast? with
      | none => simpa using strictEq_null_of_truthy ht
      | some p => simpa using hbefore p hl
    rw [fetchedHistory_single, fetchedHistory_single]
    simp only [fetchedHistory, processHistory_eq]
    rw [historyLoop_filter, hsplit]
    exact historyLoop_run pre r run post null hpre hr hrun' hpost ht hb hafter

/-- A reply with a record seen at 10:00, a record without coordinates, a second record seen
at 10:00 and a record seen at 11:00: the two records seen at 10:00 form one run, and the
samples are those of the first and of the last record. -/
theorem history_keeps_first_of_run_witness :
    (fetchedHistory (.ok (some [("device_tracker.phone",
        [compactRecord (fixAttrs 52 13 (str "10:00")) (num 1714557600) (str "home"),
          compactRecord (obj [("last_seen", str "10:02")]) (num 1714557720) (str "unknown"),
          compactRecord (fixAttrs 52 13 (str "10:00")) (num 1714557900) (str "home"),
          compactRecord (fixAttrs 48 11 (str "11:00")) (num 1714561200) (str "not_home")])]))
      "device_tracker.phone").map (fun s => (s.lat, s.lon, s.timestamp, s.state))
      = [(num 52, num 13, num 1714557600, str "home"),
          (num 48, num 11, num 1714561200, str "not_home")] :=
  (congrArg (List.map (fun s : LocationSample => (s.lat, s.lon, s.timestamp, s.state)))
    ((history_keeps_first_of_run (some [("device_tracker.phone",
        [compactRecord (fixAttrs 52 13 (str "10:00")) (num 1714557600) (str "home"),
          compactRecord (obj [("last_seen", str "10:02")]) (num 1714557720) (str "unknown"),
          compactRecord (fixAttrs 52 13 (str "10:00")) (num 1714557900) (str "home"),
          compactRecord (fixAttrs 48 11 (str "11:00")) (num 1714561200) (str "not_home")])])
      "device_tracker.phone").2 []
    (compactRecord (fixAttrs 52 13 (str "10:00")) (num 1714557600) (str "home"))
    [compactRecord (fixAttrs 52 13 (str "10:00")) (num 1714557900) (str "home")]
    [compactRecord (fixAttrs 48 11 (str "11:00")) (num 1714561200) (str "not_home")]
    rfl (by decide) (by simp; decide) (by simp) (by simp; decide)).1).trans rfl

/-- What the presence test of the history loop guarantees: every sample produced by
`_fetchLocationHistory` has a `lat` and a `lon` that are not `undefined`; every sample is built from a record of the entity's entry whose attributes
carry both a latitude and a longitude; and a record that lacks one of them (in particular
one that lacks both) contributes nothing: the reply yields the same sequence without it. -/
theorem history_drops_records_without_coords (reply : Except JSErr HistoryReply)
    (entityId : String) :
    (∀ s ∈ fetchedHistory reply entityId,
      s.lat.isUndefined = false ∧ s.lon.isUndefined = false) ∧
    (∀ history, reply = .ok history → ∀ s ∈ fetchedHistory reply entityId,
      ∃ r ∈ (stateArrayOf history entityId).getD [], hasCoords r = true ∧ s = sampleOf r) ∧
    (∀ (pre : List JSObject) (r : JSObject) (post : List JSObject), hasCoords r = false →
      fetchedHistory (.ok (some [(entityId, pre ++ r :: post)])) entityId
        = fetchedHistory (.ok (some [(entityId, pre ++ post)])) entityId) := by
  have key : ∀ history, ∀ s ∈ fetchedHistory (.ok history) entityId,
      ∃ r ∈ (stateArrayOf history entityId).getD [], hasCoords r = true ∧ s = sampleOf r := by
    intro history s hs
    simp only [fetchedHistory, processHistory_eq] at hs
    exact historyLoop_mem _ _ s hs
  refine ⟨?_, ?_, ?_⟩
  · intro s hs
    cases reply with
    | error e => simp [fetchedHistory] at hs
    | ok history =>
      obtain ⟨r, _, hc, rfl⟩ := key history s hs
      simpa [hasCoords, sampleOf] using hc
  · intro history hreply s hs
    subst hreply
    exact key history s hs
  · intro pre r post hc
    rw [fetchedHistory_single, fetchedHistory_single, historyLoop_filter,
      historyLoop_filter (pre ++ post)]
    simp [List.filter_append, List.filter_cons, hc]

/-- A record with neither latitude nor longitude between two records with coordinates. -/
theorem history_drops_records_without_coords_witness :
    hasCoords (fullRecord (obj [("last_seen", str "10:30")]) (str "10:30") (str "unknown"))
      = false ∧
    fetchedHistory (.ok (some [("device_tracker.phone",
        [fullRecord (fixAttrs 52 13 (str "10:00")) (str "10:00") (str "home")] ++
          fullRecord (obj [("last_seen", str "10:30")]) (str "10:30") (str "unknown") ::
          [fullRecord (fixAttrs 48 11 (str "11:00")) (str "11:00") (str "not_home")])]))
      "device_tracker.phone"
      = fetchedHistory (.ok (some [("device_tracker.phone",
        [fullRecord (fixAttrs 52 13 (str "10:00")) (str "10:00") (str "home")] ++
          [fullRecord (fixAttrs 48 11 (str "11:00")) (str "11:00") (str "not_home")])]))
      "device_tracker.phone" :=
  ⟨rfl, (history_drops_records_without_coords (.ok none) "device_tracker.phone").2.2
    _ _ _ rfl⟩

/-- C9, at the failing input: the reply holds one record whose attributes carry
`latitude: null` and `longitude: null`, as a host reports a tracker without a position. The
record carries no coordinates, yet `lat !== undefined && lon !== undefined` keeps it: the
sample sequence has one sample, whose `lat` and `lon` are `null`, where a record with the
two attributes missing yields none. The next redraw of the card, whose live state is at
(52, 13), throws a TypeError at `loc.lat.toFixed(6)`: it ends after the history marker,
without the marker of the current location and without the final `setView`. -/
theorem null_coordinates_kept :
    (fetchedHistory (.ok (some [("device_tracker.phone",
        [fullRecord (obj [("latitude", null), ("longitude", null)]) (str "10:00")
          (str "unknown")])]))
      "device_tracker.phone").map (fun s => (s.lat, s.lon)) = [(null, null)] ∧
    (fetchedHistory (.ok (some [("device_tracker.phone",
        [fullRecord (obj []) (str "10:00") (str "unknown")])]))
      "device_tracker.phone").length = 0 ∧
    (redraw plainPlatform (pageWithContainer 0)
      (phoneCard
        (fetchedHistory (.ok (some [("device_tracker.phone",
          [fullRecord (obj [("latitude", null), ("longitude", null)]) (str "10:00")
            (str "unknown")])]))
          "device_tracker.phone")
        (some (mapShowing [baseTileLayer])))).outcome = .threw .typeError ∧
    (layersAdded (redraw plainPlatform (pageWithContainer 0)
      (phoneCard
        (fetchedHistory (.ok (some [("device_tracker.phone",
          [fullRecord (obj [("latitude", null), ("longitude", null)]) (str "10:00")
            (str "unknown")])]))
          "device_tracker.phone")
        (some (mapShowing [baseTileLayer])))).calls).filter Layer.isMarker
      = [Layer.marker null null .smallBlue (some (100 / 100)) (-1000)] ∧
    viewCommands (redraw plainPlatform (pageWithContainer 0)
      (phoneCard
        (fetchedHistory (.ok (some [("device_tracker.phone",
          [fullRecord (obj [("latitude", null), ("longitude", null)]) (str "10:00")
            (str "unknown")])]))
          "device_tracker.phone")
        (some (mapShowing [baseTileLayer])))).calls
      = [(num 52, num 13, 15)] := by
  refine ⟨?_, ?_, ?_, ?_, ?_⟩ <;> rfl

/-- C10, counterexample: with an empty state string the compact record normalises to a
sample whose state is `undefined` and the full record to a sample whose state is the empty
string, so the two encodings of the same values give different samples. -/
theorem compact_and_full_differ_on_empty_state :
    (sampleOf (compactRecord (fixAttrs 52 13 (str "10:00")) (str "10:00") (str ""))).state
      = undefined ∧
    (sampleOf (fullRecord (fixAttrs 52 13 (str "10:00")) (str "10:00") (str ""))).state
      = str "" ∧
    sampleOf (compactRecord (fixAttrs 52 13 (str "10:00")) (str "10:00") (str ""))
      ≠ sampleOf (fullRecord (fixAttrs 52 13 (str "10:00")) (str "10:00") (str "")) := by
  refine ⟨rfl, rfl, ?_⟩
  intro h
  have hs := congrArg LocationSample.state h
  have h1 : (sampleOf (compactRecord (fixAttrs 52 13 (str "10:00")) (str "10:00")
      (str ""))).state = undefined := rfl
  have h2 : (sampleOf (fullRecord (fixAttrs 52 13 (str "10:00")) (str "10:00")
      (str ""))).state = str "" := rfl
  rw [h1, h2] at hs
  cases hs

/-- C10, amended: for attributes of any shape and for a timestamp and a state that are each
truthy or `undefined`, the compact record and the full record normalise to the same sample;
and a reply whose records are written some in one encoding and some in the other yields the
same sequence as the reply written entirely in the compact encoding and as the reply written
entirely in the full encoding. -/
theorem normalisation_encoding_independent :
    (∀ attrs t st : JSVal, (t.truthy = true ∨ t = undefined) →
      (st.truthy = true ∨ st = undefined) →
      sampleOf (compactRecord attrs t st) = sampleOf (fullRecord attrs t st)) ∧
    (∀ (entityId : String) (rs : List (Bool × JSVal × JSVal × JSVal)),
      (∀ x ∈ rs, (x.2.2.1.truthy = true ∨ x.2.2.1 = undefined) ∧
        (x.2.2.2.truthy = true ∨ x.2.2.2 = undefined)) →
      fetchedHistory (.ok (some [(entityId, rs.map (fun x =>
          if x.1 then compactRecord x.2.1 x.2.2.1 x.2.2.2
          else fullRecord x.2.1 x.2.2.1 x.2.2.2))])) entityId
        = fetchedHistory (.ok (some [(entityId, rs.map (fun x =>
          compactRecord x.2.1 x.2.2.1 x.2.2.2))])) entityId ∧
      fetchedHistory (.ok (some [(entityId, rs.map (fun x =>
          if x.1 then compactRecord x.2.1 x.2.2.1 x.2.2.2
          else fullRecord x.2.1 x.2.2.1 x.2.2.2))])) entityId
        = fetchedHistory (.ok (some [(entityId, rs.map (fun x =>
          fullRecord x.2.1 x.2.2.1 x.2.2.2))])) entityId) := by
  refine ⟨sampleOf_compact_eq_full, ?_⟩
  intro entityId rs hrs
  constructor
  · rw [fetchedHistory_single, fetchedHistory_single]
    apply historyLoop_congr
    intro x hx
    cases hb : x.1
    · simp only [Bool.false_eq_true, if_false]
      exact (sampleOf_compact_eq_full _ _ _ (hrs x hx).1 (hrs x hx).2).symm
    · simp
  · rw [fetchedHistory_single, fetchedHistory_single]
    apply historyLoop_congr
    intro x hx
    cases hb : x.1
    · simp
    · simp only [if_true]
      exact sampleOf_compact_eq_full _ _ _ (hrs x hx).1 (hrs x hx).2

/-- A record with a timestamp and the state `home` in both encodings. -/
theorem normalisation_encoding_independent_witness :
    ((str "2024-05-01T10:00:00+00:00").truthy = true ∧ (str "home").truthy = true) ∧
    sampleOf (compactRecord (fixAttrs 52 13 (str "10:00")) (str "2024-05-01T10:00:00+00:00")
        (str "home"))
      = sampleOf (fullRecord (fixAttrs 52 13 (str "10:00")) (str "2024-05-01T10:00:00+00:00")
        (str "home")) :=
  ⟨⟨by decide, by decide⟩,
    normalisation_encoding_independent.1 _ _ _ (Or.inl (by decide)) (Or.inl (by decide))⟩

/-! ## Accuracy filter -/

theorem JSNumber.le_mono (a : JSNumber) {t1 t2 : ℚ} (h : t1 ≤ t2) (h1 : a.le t1 = true) :
    a.le t2 = true := by
  cases a <;> simp_all [JSNumber.le]
  exact le_trans h1 h

theorem filteredHistory_zero (P : Platform) (history : List LocationSample) :
    filteredHistory P 0 history = history := by
  simp [filteredHistory]

theorem filteredHistory_sublist (P : Platform) (t : ℚ) (history : List LocationSample) :
    (filteredHistory P t history).Sublist history := by
  unfold filteredHistory
  exact List.filter_sublist _

/-- C12: for samples whose accuracies are numbers that are not negative, the samples used
for drawing are all the samples when the threshold is 0 and, when the threshold is positive,
the samples with accuracy 0 or accuracy at most the threshold, in their order; with the
threshold 50 and the accuracies 10, 60, 0 and 45 they are the first, third and fourth
sample. -/
theorem accuracy_filter_matches_spec (P : Platform) (t : ℚ) (history : List LocationSample)
    (hacc : ∀ s ∈ history, ∃ a : ℚ, 0 ≤ a ∧ s.accuracy = num a) :
    (t = 0 → filteredHistory P t history = history) ∧
    (0 < t → filteredHistory P t history
      = history.filter (fun s => decide (accuracyOf s = 0) || decide (accuracyOf s ≤ t))) ∧
    (0 ≤ t → filteredHistory P t history = accuracyFilterSpec t history) ∧
    (∀ s1 s2 s3 s4 : LocationSample, s1.accuracy = num 10 → s2.accuracy = num 60 →
      s3.accuracy = num 0 → s4.accuracy = num 45 →
      filteredHistory P 50 [s1, s2, s3, s4] = [s1, s3, s4]) := by
  have hpos : 0 < t → filteredHistory P t history
      = history.filter (fun s => decide (accuracyOf s = 0) || decide (accuracyOf s ≤ t)) := by
    intro ht
    unfold filteredHistory
    apply List.filter_congr
    intro s hs
    obtain ⟨a, ha, hsa⟩ := hacc s hs
    have hne : t ≠ 0 := ne_of_gt ht
    by_cases hat : a ≤ t
    · simp [hsa, toNumber, JSNumber.le, accuracyOf, hne, hat]
    · have ha0 : a ≠ 0 := by
        intro h0
        exact hat (by rw [h0]; exact le_of_lt ht)
      simp [hsa, toNumber, JSNumber.le, accuracyOf, hne, hat, ha0]
  refine ⟨?_, hpos, ?_, ?_⟩
  · intro h0
    rw [h0]
    exact filteredHistory_zero P history
  · intro ht
    rcases eq_or_lt_of_le ht with h0 | hlt
    · rw [← h0]
      simp [filteredHistory_zero, accuracyFilterSpec]
    · rw [hpos hlt]
      simp [accuracyFilterSpec, ne_of_gt hlt]
  · intro s1 s2 s3 s4 h1 h2 h3 h4
    have e1 : (toNumber P s1.accuracy).le 50 = true := by
      rw [h1]
      simp [toNumber, JSNumber.le]
      norm_num
    have e2 : (toNumber P s2.accuracy).le 50 = false := by
      rw [h2]
      simp [toNumber, JSNumber.le]
      norm_num
    have e3 : (toNumber P s3.accuracy).le 50 = true := by
      rw [h3]
      simp [toNumber, JSNumber.le]
    have e4 : (toNumber P s4.accuracy).le 50 = true := by
      rw [h4]
      simp [toNumber, JSNumber.le]
      norm_num
    simp [filteredHistory, List.filter_cons, e1, e2, e3, e4]

/-- The four accuracies of the specification, at the threshold 50. -/
theorem accuracy_filter_matches_spec_witness :
    filteredHistory plainPlatform 50
        [sampleAt 52 13 10 "10:00", sampleAt 52 13 60 "10:05", sampleAt 52 13 0 "10:10",
          sampleAt 52 13 45 "10:15"]
      = [sampleAt 52 13 10 "10:00", sampleAt 52 13 0 "10:10", sampleAt 52 13 45 "10:15"] :=
  (accuracy_filter_matches_spec plainPlatform 50
    [sampleAt 52 13 10 "10:00", sampleAt 52 13 60 "10:05", sampleAt 52 13 0 "10:10",
      sampleAt 52 13 45 "10:15"]
    (by
      intro s hs
      simp only [List.mem_cons, List.mem_singleton, List.not_mem_nil, or_false] at hs
      rcases hs with h | h | h | h <;> subst h
      · exact ⟨10, by norm_num, rfl⟩
      · exact ⟨60, by norm_num, rfl⟩
      · exact ⟨0, le_refl _, rfl⟩
      · exact ⟨45, by norm_num, rfl⟩)).2.2.2 _ _ _ _ rfl rfl rfl rfl

/-- C30: for thresholds `0 < t1 ≤ t2` the samples drawn at `t1` are a sublist of those drawn
at `t2`, which are a sublist of those drawn at the threshold 0, which are the whole
sequence; and filtering a filtered sequence again with the same threshold changes
nothing. -/
theorem accuracy_filter_monotone_idempotent (P : Platform) (history : List LocationSample)
    (t1 t2 : ℚ) (h1 : 0 < t1) (h12 : t1 ≤ t2) :
    (filteredHistory P t1 history).Sublist (filteredHistory P t2 history) ∧
    (filteredHistory P t2 history).Sublist (filteredHistory P 0 history) ∧
    filteredHistory P 0 history = history ∧
    ∀ t : ℚ, filteredHistory P t (filteredHistory P t history) = filteredHistory P t history := by
  refine ⟨?_, ?_, filteredHistory_zero P history, ?_⟩
  · have h : filteredHistory P t1 history
        = filteredHistory P t1 (filteredHistory P t2 history) := by
      unfold filteredHistory
      rw [List.filter_filter]
      apply List.filter_congr
      intro s _
      have hne1 : t1 ≠ 0 := ne_of_gt h1
      have hne2 : t2 ≠ 0 := ne_of_gt (lt_of_lt_of_le h1 h12)
      cases hle : (toNumber P s.accuracy).le t1
      · simp [hne1, hle]
      · simp [hne1, hne2, hle, JSNumber.le_mono _ h12 hle]
    rw [h]
    exact filteredHistory_sublist P t1 _
  · rw [filteredHistory_zero]
    exact filteredHistory_sublist P t2 history
  · intro t
    unfold filteredHistory
    rw [List.filter_filter]
    apply List.filter_congr
    intro s _
    simp

/-- The thresholds 20 and 50 on three samples. -/
theorem accuracy_filter_monotone_idempotent_witness :
    (filteredHistory plainPlatform 20
        [sampleAt 52 13 10 "10:00", sampleAt 52 13 60 "10:05", sampleAt 52 13 45 "10:15"]).Sublist
      (filteredHistory plainPlatform 50
        [sampleAt 52 13 10 "10:00", sampleAt 52 13 60 "10:05", sampleAt 52 13 45 "10:15"]) :=
  (accuracy_filter_monotone_idempotent plainPlatform
    [sampleAt 52 13 10 "10:00", sampleAt 52 13 60 "10:05", sampleAt 52 13 45 "10:15"]
    20 50 (by norm_num) (by norm_num)).1

/-! ## History fetch of the card -/

/-- C11: after the `await`, `_fetchLocationHistory` ends normally whatever the host
answers; when the query fails the sample sequence becomes empty; when the answer has no
entry or an empty entry for the entity id the sample sequence becomes empty too. -/
theorem fetch_failure_empties_history (P : Platform) (windowL : Bool) (entityId : JSVal)
    (card : Card) :
    (∀ reply, ∃ r, fetchSettle P windowL entityId reply card = .ok r) ∧
    (∀ e, ∃ r, fetchSettle P windowL entityId (.error e) card = .ok r ∧
      r.1._locationHistory = []) ∧
    (∀ history : HistoryReply,
      (stateArrayOf history (keyOf P entityId) = none
        ∨ stateArrayOf history (keyOf P entityId) = some []) →
      ∃ r, fetchSettle P windowL entityId (.ok history) card = .ok r ∧
        r.1._locationHistory = []) := by
  refine ⟨?_, ?_, ?_⟩
  · intro reply
    unfold fetchSettle
    cases fetchSettleTry P entityId reply <;> exact ⟨_, rfl⟩
  · intro e
    exact ⟨_, rfl, rfl⟩
  · intro history h
    refine ⟨_, rfl, ?_⟩
    rcases h with h | h <;> simp [processHistory, h]

/-- An answer without an entry for the entity. -/
theorem fetch_failure_empties_history_witness :
    ∃ r, fetchSettle plainPlatform true (str "device_tracker.phone")
        (.ok (some [("device_tracker.keys", [])]))
        (cardWith ["device_tracker.phone"] none null [sampleAt 52 13 10 "10:00"] none) = .ok r
      ∧ r.1._locationHistory = [] :=
  (fetch_failure_empties_history plainPlatform true (str "device_tracker.phone")
    (cardWith ["device_tracker.phone"] none null [sampleAt 52 13 10 "10:00"] none)).2.2
    (some [("device_tracker.keys", [])]) (Or.inl rfl)

/-! ## Settings store, field by field -/

theorem or_fieldDecided (stored default : JSVal) :
    FieldDecided stored (JSVal.or stored default) default := by
  refine ⟨?_, ?_, ?_⟩
  · intro h
    simp [JSVal.or, h]
  · intro q hq hs
    subst hs
    simp [JSVal.or, truthy, hq]
  · intro h
    rcases h with h | h | h <;> subst h <;> simp [JSVal.or, truthy]

/-- C28: when the stored text parses to an object, each of the three fields of the result
is decided from the stored value of that field alone: the stored value when it is truthy
(a number other than 0), the default 3, 0 or 100 when it is missing, `null` or 0; and for
settings that are numbers, loading after saving gives the saved settings back exactly when
historyDays and markerOpacity are not 0. -/
theorem loadFilterSettings_fieldwise (c : JsonCodec) :
    (∀ (st : LocalStorage) (s : String) (fields : JSObject), st.denied = false →
      st.items.lookup settingsKey = some s → s ≠ "" → c.parse s = .ok (obj fields) →
      ∃ r, _loadFilterSettings c st = .ok r ∧
        FieldDecided (lookup "historyDays" fields) r.historyDays (num 3) ∧
        FieldDecided (lookup "accuracyFilter" fields) r.accuracyFilter (num 0) ∧
        FieldDecided (lookup "markerOpacity" fields) r.markerOpacity (num 100)) ∧
    (∀ (st : LocalStorage) (h a m : ℚ), st.denied = false → st.full = false →
      c.stringify (settingsObject ⟨num h, num a, num m⟩) ≠ "" →
      c.parse (c.stringify (settingsObject ⟨num h, num a, num m⟩))
        = .ok (settingsObject ⟨num h, num a, num m⟩) →
      (_loadFilterSettings c (_saveFilterSettings c ⟨num h, num a, num m⟩ st)
          = .ok ⟨num h, num a, num m⟩ ↔ h ≠ 0 ∧ m ≠ 0)) := by
  constructor
  · intro st s fields hd hs hne hp
    refine ⟨⟨JSVal.or (lookup "historyDays" fields) (num 3),
      JSVal.or (lookup "accuracyFilter" fields) (num 0),
      JSVal.or (lookup "markerOpacity" fields) (num 100)⟩, ?_, or_fieldDecided _ _,
      or_fieldDecided _ _, or_fieldDecided _ _⟩
    simp [_loadFilterSettings, loadFilterSettingsTry, LocalStorage.getItem, hd, hs, hne, hp,
      bind, Except.bind, pure, Except.pure, getProp]
  · intro st h a m hd hf hne hrt
    have hload : _loadFilterSettings c (_saveFilterSettings c ⟨num h, num a, num m⟩ st)
        = .ok ⟨JSVal.or (num h) (num 3), JSVal.or (num a) (num 0),
            JSVal.or (num m) (num 100)⟩ := by
      simp [_loadFilterSettings, _saveFilterSettings, loadFilterSettingsTry,
        LocalStorage.setItem, LocalStorage.getItem, hd, hf, List.lookup, hne, hrt, bind,
        Except.bind, pure, Except.pure]
      simp [settingsObject, getProp, lookup]
    rw [hload]
    constructor
    · intro heq
      have hh := congrArg FilterSettings.historyDays (Except.ok.inj heq)
      have hm := congrArg FilterSettings.markerOpacity (Except.ok.inj heq)
      simp only at hh hm
      constructor
      · intro h0
        subst h0
        simp [JSVal.or, truthy] at hh
      · intro m0
        subst m0
        simp [JSVal.or, truthy] at hm
    · intro ⟨hh, hm⟩
      by_cases ha : a = 0
      · subst ha
        simp [JSVal.or, truthy, hh, hm]
      · simp [JSVal.or, truthy, hh, hm, ha]

/-- The settings 7, 20 and 60 of the specification with the compact codec. -/
theorem loadFilterSettings_fieldwise_witness :
    _loadFilterSettings compactJson
        (_saveFilterSettings compactJson ⟨num 7, num 20, num 60⟩ ⟨[], false, false⟩)
      = .ok ⟨num 7, num 20, num 60⟩ :=
  ((loadFilterSettings_fieldwise compactJson).2 ⟨[], false, false⟩ 7 20 60 rfl rfl
    (by decide) rfl).2 ⟨by norm_num, by norm_num⟩

/-! ## The resolution sites -/

theorem findDevice_none_of_string_ids (devices : List JSVal)
    (hwf : ∀ d ∈ devices, ∃ s : String, s ≠ "" ∧ d.getProp "entity_id" = .ok (str s)) :
    findDevice none devices = .ok undefined := by
  induction devices with
  | nil => rfl
  | cons d rest ih =>
    obtain ⟨s, _, hs⟩ := hwf d (List.mem_cons_self _ _)
    simp [findDevice, hs, bind, Except.bind, selectedValue, strictEq]
    exact ih (fun x hx => hwf x (List.mem_cons_of_mem _ hx))

theorem findDevice_found (devices : List JSVal) (s : String) (d : JSVal)
    (hd : d ∈ devices) (hs : d.getProp "entity_id" = .ok (str s)) :
    (∃ e, findDevice (some s) devices = .error e) ∨
    ∃ f, findDevice (some s) devices = .ok f ∧ f.truthy = true ∧
      f.getProp "entity_id" = .ok (str s) := by
  induction devices with
  | nil => simp at hd
  | cons x rest ih =>
    cases hx : x.getProp "entity_id" with
    | error e =>
      left
      exact ⟨e, by simp [findDevice, hx, bind, Except.bind]⟩
    | ok id =>
      cases heq : strictEq id (selectedValue (some s))
      · have hne : x ≠ d := by
          intro hxd
          subst hxd
          rw [hs] at hx
          cases hx
          simp [selectedValue, strictEq] at heq
        have hd' : d ∈ rest := by
          rcases List.mem_cons.1 hd with h | h
          · exact absurd h.symm hne
          · exact h
        rcases ih hd' with ⟨e, he⟩ | ⟨f, hf, hft, hfs⟩
        · left
          exact ⟨e, by simp [findDevice, hx, bind, Except.bind, heq, he]⟩
        · right
          exact ⟨f, by simp [findDevice, hx, bind, Except.bind, heq, hf], hft, hfs⟩
      · right
        have hid : id = str s := by
          have := strictEq_eq heq
          simpa [selectedValue] using this
        refine ⟨x, by simp [findDevice, hx, bind, Except.bind, heq, pure, Except.pure], ?_,
          by rw [hx, hid]⟩
        cases x <;> simp_all [getProp, truthy]

/-- C29: when every configured device has a non-empty string as its `entity_id`, and the
selected id is unset or is the `entity_id` of a configured device, the resolution of the
`hass` setter (`find(...) || devices[0]`) and the resolution shared by `_renderMap`,
`_fetchLocationHistory` and `_updateMap` (`selected ? find(...) : devices[0]`) give the same
result; with no selection it is the first configured device. -/
theorem resolution_sites_agree (devices : List JSVal) (selected : Option String)
    (hwf : ∀ d ∈ devices, ∃ s : String, s ≠ "" ∧ d.getProp "entity_id" = .ok (str s))
    (hsel : selected = none ∨
      ∃ s d, selected = some s ∧ d ∈ devices ∧ d.getProp "entity_id" = .ok (str s)) :
    hassSelectedDevice selected devices = selectedDevice selected devices ∧
    (selected = none → selectedDevice selected devices = .ok (firstDevice devices)) := by
  rcases hsel with h | ⟨s, d, h, hd, hs⟩
  · subst h
    refine ⟨?_, fun _ => rfl⟩
    simp [hassSelectedDevice, selectedDevice, findDevice_none_of_string_ids devices hwf,
      selectedValue, truthy, bind, Except.bind, pure, Except.pure, JSVal.or]
  · subst h
    refine ⟨?_, fun h => by cases h⟩
    obtain ⟨s', hs'ne, hs'⟩ := hwf d hd
    have hss : s' = s := by
      rw [hs] at hs'
      cases hs'
      rfl
    subst hss
    have htr : (selectedValue (some s')).truthy = true := by simp [selectedValue, truthy, hs'ne]
    rcases findDevice_found devices s' d hd hs with ⟨e, he⟩ | ⟨f, hf, hft, _⟩
    · simp [hassSelectedDevice, selectedDevice, htr, he, bind, Except.bind]
    · simp [hassSelectedDevice, selectedDevice, htr, hf, bind, Except.bind, pure, Except.pure,
        JSVal.or, hft]

/-- Two configured devices, the second one selected. -/
theorem resolution_sites_agree_witness :
    hassSelectedDevice (some "device_tracker.keys")
        [obj [("entity_id", str "device_tracker.phone")],
          obj [("entity_id", str "device_tracker.keys")]]
      = selectedDevice (some "device_tracker.keys")
        [obj [("entity_id", str "device_tracker.phone")],
          obj [("entity_id", str "device_tracker.keys")]] :=
  (resolution_sites_agree
    [obj [("entity_id", str "device_tracker.phone")],
      obj [("entity_id", str "device_tracker.keys")]] (some "device_tracker.keys")
    (by
      intro d hd
      simp only [List.mem_cons, List.mem_singleton, List.not_mem_nil, or_false] at hd
      rcases hd with h | h <;> subst h
      · exact ⟨"device_tracker.phone", by decide, rfl⟩
      · exact ⟨"device_tracker.keys", by decide, rfl⟩)
    (Or.inr ⟨"device_tracker.keys", obj [("entity_id", str "device_tracker.keys")], rfl,
      by simp, rfl⟩)).1

/-! ## The query window -/

theorem timeClip_intCast (z : ℤ) (hlo : -8640000000000000 ≤ z) (hhi : z ≤ 8640000000000000) :
    timeClip (z : ℚ) = some z := by
  have h1 : (-8640000000000000 : ℚ) ≤ (z : ℚ) := by exact_mod_cast hlo
  have h2 : (z : ℚ) ≤ 8640000000000000 := by exact_mod_cast hhi
  simp [timeClip, h1, h2]

/-- C24: when the card resolves a device whose state the host files under the device's
`entity_id` and which carries that id, and historyDays is the whole number `d` (the start of
the window being a valid date), `_fetchLocationHistory` at the time `now` sends one query
whose `end_time` is `now`, whose `start_time` is `now - d * 86400000` ms, whose window is
therefore `d` days, and whose `entity_ids` is the one id of the resolved device. -/
theorem history_query_window (P : Platform) (now : ℤ) (card : Card) (d : ℤ)
    (devices : List JSVal) (device states entity id : JSVal)
    (hdev : _getDevices card.config = .ok devices)
    (hsel : selectedDevice card._selectedDevice devices = .ok device)
    (htr : device.truthy = true)
    (hstates : card._hass.getProp "states" = .ok states)
    (hid : device.getProp "entity_id" = .ok id)
    (hent : index P states id = .ok entity) (hentt : entity.truthy = true)
    (heid : entity.getProp "entity_id" = .ok id)
    (hd : card._historyDays = d)
    (hlo : -8640000000000000 ≤ now - d * 86400000)
    (hhi : now - d * 86400000 ≤ 8640000000000000) :
    ∃ q, fetchStart P now card = (card, .query q id) ∧
      q.end_time = now ∧ q.start_time = now - d * 86400000 ∧
      q.end_time - q.start_time = d * 86400000 ∧ q.entity_ids = [id] := by
  have hfe : fetchEntityId P card = .ok (some id) := by
    simp [fetchEntityId, hdev, hsel, htr, hstates, hid, hent, hentt, heid, bind, Except.bind,
      pure, Except.pure]
  have hq : ((now : ℚ) - card._historyDays * 24 * 60 * 60 * 1000)
      = ((now - d * 86400000 : ℤ) : ℚ) := by
    rw [hd]
    push_cast
    ring
  refine ⟨queryFor (now - d * 86400000) now id, ?_, rfl, rfl, by simp [queryFor], rfl⟩
  simp only [fetchStart, hfe]
  rw [hq, timeClip_intCast _ hlo hhi]
  rfl

/-- The card with one entity and a window of three days, at a time in 2023. -/
theorem history_query_window_witness :
    ∃ q, fetchStart plainPlatform 1700000000000
        (cardWith ["device_tracker.phone"] none
          (hassWith "device_tracker.phone" (num 52) (num 13) (num 10)) [] none)
      = (cardWith ["device_tracker.phone"] none
          (hassWith "device_tracker.phone" (num 52) (num 13) (num 10)) [] none,
          .query q (str "device_tracker.phone")) ∧
      q.end_time = 1700000000000 ∧ q.start_time = 1700000000000 - 3 * 86400000 ∧
      q.end_time - q.start_time = 3 * 86400000 ∧ q.entity_ids = [str "device_tracker.phone"] :=
  history_query_window plainPlatform 1700000000000
    (cardWith ["device_tracker.phone"] none
      (hassWith "device_tracker.phone" (num 52) (num 13) (num 10)) [] none) 3
    [obj [("entity_id", str "device_tracker.phone")]]
    (obj [("entity_id", str "device_tracker.phone")])
    (obj [("device_tracker.phone", obj [("entity_id", str "device_tracker.phone"),
      ("state", str "not_home"),
      ("attributes", obj [("latitude", num 52), ("longitude", num 13),
        ("gps_accuracy", num 10)])])])
    (obj [("entity_id", str "device_tracker.phone"), ("state", str "not_home"),
      ("attributes", obj [("latitude", num 52), ("longitude", num 13),
        ("gps_accuracy", num 10)])])
    (str "device_tracker.phone") rfl rfl rfl rfl rfl rfl rfl rfl (by simp [cardWith])
    (by norm_num) (by norm_num)

/-! ## The setter of `hass` and the failed fetch -/

/-- C25, at the failing input: one configured device, no device selected (the card then
shows the first configured device), Leaflet loaded, a previous host state with the latitude
52 and a new host state with the latitude 53: the setter registers no redraw. With the
device selected it registers one. -/
theorem hass_update_without_selection_no_redraw :
    (setHass plainPlatform true (hassWith "device_tracker.phone" (num 53) (num 13) (num 10))
      (cardWith ["device_tracker.phone"] none
        (hassWith "device_tracker.phone" (num 52) (num 13) (num 10)) [] none)).2.1 = [] ∧
    (setHass plainPlatform true (hassWith "device_tracker.phone" (num 53) (num 13) (num 10))
      (cardWith ["device_tracker.phone"] (some "device_tracker.phone")
        (hassWith "device_tracker.phone" (num 52) (num 13) (num 10)) [] none)).2.1
      = [.redraw] := by
  constructor
  · rfl
  · rfl

/-- C26, at the failing input: a card whose map shows one historical marker; the history
query fails. The history becomes empty, but no redraw is registered and the map keeps its
layers, the historical marker among them; an answer that arrives registers a redraw. -/
theorem failed_fetch_leaves_markers_on_map :
    fetchSettle plainPlatform true (str "device_tracker.phone") (.error (.error "timeout"))
        (cardWith ["device_tracker.phone"] none
          (hassWith "device_tracker.phone" (num 52) (num 13) (num 10))
          [sampleAt 48 11 5 "10:00"]
          (some (mapShowing [baseTileLayer, historyMarker 100 (sampleAt 48 11 5 "10:00"),
            .marker (num 52) (num 13) .red (some 1) 1000])))
      = .ok (cardWith ["device_tracker.phone"] none
          (hassWith "device_tracker.phone" (num 52) (num 13) (num 10)) []
          (some (mapShowing [baseTileLayer, historyMarker 100 (sampleAt 48 11 5 "10:00"),
            .marker (num 52) (num 13) .red (some 1) 1000])), []) ∧
    (fetchSettle plainPlatform true (str "device_tracker.phone") (.ok none)
        (cardWith ["device_tracker.phone"] none
          (hassWith "device_tracker.phone" (num 52) (num 13) (num 10))
          [sampleAt 48 11 5 "10:00"]
          (some (mapShowing [baseTileLayer, historyMarker 100 (sampleAt 48 11 5 "10:00"),
            .marker (num 52) (num 13) .red (some 1) 1000])))).map (fun r => r.2) = .ok [.redraw] := by
  constructor
  · rfl
  · rfl

/-! ## Relative time -/

/-- C27, counterexample: the numeric timestamp 0 is below 10^12 and, read as seconds, is the
valid date with the time value 0, whose age at the time 1700000000000 is more than a day, so
that the buckets give its calendar date; `_formatTime` returns "Unknown". -/
theorem formatTime_zero_is_unknown :
    _formatTime plainPlatform 1700000000000 (num 0) = "Unknown" ∧
    timeClip (if (0 : ℚ) < 1000000000000 then 0 * 1000 else 0) = some 0 ∧
    ageLabel plainPlatform 1700000000000 0 = plainPlatform.localeDate 0 := by
  refine ⟨rfl, ?_, ?_⟩
  · simp [timeClip]
  · simp [ageLabel]

/-- C27, amended: `_formatTime` returns "Unknown" for a falsy timestamp (missing, `null`, 0,
the empty string), for one that is neither a string nor a number, for a string that does not
parse to a date and for a number beyond the range of dates; a number below 10^12 is read as
seconds and otherwise as milliseconds; and for a timestamp that is not falsy and gives the
valid date `t`, with age = now - t in milliseconds: age < 60000 gives "Just now", 60000 ≤
age < 3600000 gives "<m>m ago" with m = floor(age / 60000) between 1 and 59, 3600000 ≤ age <
86400000 gives "<h>h ago" with h = floor(age / 3600000) between 1 and 23, and otherwise the
calendar date of `t` is returned. -/
theorem formatTime_buckets (P : Platform) (now : ℤ) (timestamp : JSVal) :
    (timestamp.truthy = false → _formatTime P now timestamp = "Unknown") ∧
    (timestamp.isString = false → (∀ q, timestamp ≠ num q) →
      _formatTime P now timestamp = "Unknown") ∧
    (∀ s, timestamp = str s → P.parseDate s = none → _formatTime P now timestamp = "Unknown") ∧
    (∀ q, timestamp = num q → timeClip (if q < 1000000000000 then q * 1000 else q) = none →
      _formatTime P now timestamp = "Unknown") ∧
    (∀ t : ℤ,
      ((∃ s, timestamp = str s ∧ s ≠ "" ∧ P.parseDate s = some t) ∨
        (∃ q, timestamp = num q ∧ q ≠ 0 ∧
          timeClip (if q < 1000000000000 then q * 1000 else q) = some t)) →
      (now - t < 60000 → _formatTime P now timestamp = "Just now") ∧
      (60000 ≤ now - t → now - t < 3600000 →
        _formatTime P now timestamp = toString ((now - t) / 60000) ++ "m ago" ∧
        60000 * ((now - t) / 60000) ≤ now - t ∧ now - t < 60000 * ((now - t) / 60000 + 1) ∧
        1 ≤ (now - t) / 60000 ∧ (now - t) / 60000 ≤ 59) ∧
      (3600000 ≤ now - t → now - t < 86400000 →
        _formatTime P now timestamp = toString ((now - t) / 3600000) ++ "h ago" ∧
        3600000 * ((now - t) / 3600000) ≤ now - t ∧
        now - t < 3600000 * ((now - t) / 3600000 + 1) ∧
        1 ≤ (now - t) / 3600000 ∧ (now - t) / 3600000 ≤ 23) ∧
      (86400000 ≤ now - t → _formatTime P now timestamp = P.localeDate t)) := by
  refine ⟨?_, ?_, ?_, ?_, ?_⟩
  · intro h
    simp [_formatTime, h]
  · intro hs hn
    cases timestamp <;> simp_all [_formatTime, isString]
  · intro s hs hp
    subst hs
    by_cases h : s = "" <;> simp [_formatTime, truthy, h, hp]
  · intro q hq hc
    subst hq
    by_cases h : q = 0 <;> simp [_formatTime, truthy, h, hc]
  · intro t ht
    have hfmt : _formatTime P now timestamp = ageLabel P now t := by
      rcases ht with ⟨s, hs, hne, hp⟩ | ⟨q, hq, hne, hc⟩
      · subst hs
        simp [_formatTime, truthy, hne, hp]
      · subst hq
        simp [_formatTime, truthy, hne, hc]
    rw [hfmt]
    refine ⟨?_, ?_, ?_, ?_⟩
    · intro h
      simp [ageLabel, h]
    · intro h1 h2
      have hn : ¬ now - t < 60000 := by omega
      refine ⟨by simp [ageLabel, hn, h2], ?_, ?_, ?_, ?_⟩ <;> omega
    · intro h1 h2
      have hn1 : ¬ now - t < 60000 := by omega
      have hn2 : ¬ now - t < 3600000 := by omega
      refine ⟨by simp [ageLabel, hn1, hn2, h2], ?_, ?_, ?_, ?_⟩ <;> omega
    · intro h
      have hn1 : ¬ now - t < 60000 := by omega
      have hn2 : ¬ now - t < 3600000 := by omega
      have hn3 : ¬ now - t < 86400000 := by omega
      simp [ageLabel, hn1, hn2, hn3]

/-- A numeric timestamp in seconds, ninety minutes before the current time. -/
theorem formatTime_buckets_witness :
    timeClip (if (1699994600 : ℚ) < 1000000000000 then 1699994600 * 1000 else 1699994600)
      = some 1699994600000 ∧
    _formatTime plainPlatform 1700000000000 (num 1699994600)
      = toString ((1700000000000 - 1699994600000 : ℤ) / 3600000) ++ "h ago" := by
  have hc : timeClip
      (if (1699994600 : ℚ) < 1000000000000 then 1699994600 * 1000 else 1699994600)
      = some 1699994600000 := by
    have h := timeClip_intCast 1699994600000 (by norm_num) (by norm_num)
    norm_num at h ⊢
    exact h
  exact ⟨hc, (((formatTime_buckets plainPlatform 1700000000000 (num 1699994600)).2.2.2.2
    1699994600000 (Or.inr ⟨1699994600, rfl, by norm_num, hc⟩)).2.2.1
    (by norm_num) (by norm_num)).1⟩

/-! ## Empty configuration -/

theorem redraw_idle_of_guard (P : Platform) (env : RedrawEnv) (card : Card)
    (h : ∀ f, redrawGuards P env card ≠ .ok (.fix f)) :
    (redraw P env card).created = false ∧ (redraw P env card).calls = [] ∧
    (redraw P env card).card = card ∧ (redraw P env card).fetchCalled = false := by
  unfold redraw
  cases hg : redrawGuards P env card with
  | error e => exact ⟨rfl, rfl, rfl, rfl⟩
  | ok g =>
    cases g with
    | fix f => exact absurd hg (h f)
    | _ => exact ⟨rfl, rfl, rfl, rfl⟩

/-- C22: for a configuration whose `entities` is the empty list, whatever the selected id:
once the host has provided its state (`hass` is set), `render` produces the card with no map
container and the "no devices" placeholder; and a redraw, whatever it finds in the page and
whatever the host state, creates no map, makes no call on a map, starts no fetch and leaves
the card as it is. -/
theorem empty_configuration (P : Platform) (env : RedrawEnv) (card : Card) (fields : JSObject)
    (hconfig : card.config = obj fields) (hent : lookup "entities" fields = arr []) :
    (card._hass.truthy = true →
      render P card = .ok (.card (JSVal.or (lookup "title" fields) (str "Find My Devices"))
        .empty .noDevices)) ∧
    (redraw P env card).created = false ∧ (redraw P env card).calls = [] ∧
    (redraw P env card).card = card ∧ (redraw P env card).fetchCalled = false := by
  have hdev : _getDevices card.config = .ok [] := by
    simp [_getDevices, hconfig, getProp, hent, truthy, bind, Except.bind, pure, Except.pure]
  have hsel : selectedDevice card._selectedDevice [] = .ok undefined := by
    unfold selectedDevice
    split <;> rfl
  constructor
  · intro hh
    have hct : card.config.truthy = true := by
      rw [hconfig]
      rfl
    have ht : card.config.optProp "title" = lookup "title" fields := by
      rw [hconfig]
      rfl
    simp [render, hh, hct, hdev, _renderMap, bind, Except.bind, pure, Except.pure, ht]
  · apply redraw_idle_of_guard
    intro f
    unfold redrawGuards
    cases env.container with
    | none => simp [pure, Except.pure]
    | some wh =>
      obtain ⟨w, h⟩ := wh
      by_cases hz : w = 0 ∨ h = 0
      · simp [hz, pure, Except.pure]
      · simp [hz, hdev, hsel, truthy, bind, Except.bind, pure, Except.pure]

/-- The stub configuration with a host state: the placeholder, and an idle redraw. -/
theorem empty_configuration_witness :
    render plainPlatform (cardWith [] none (hassWith "device_tracker.phone" (num 52) (num 13)
        (num 10)) [] none)
      = .ok (.card (str "Find My Devices") .empty .noDevices) :=
  ((empty_configuration plainPlatform { container := some (400, 300), mapId := 0 }
    (cardWith [] none (hassWith "device_tracker.phone" (num 52) (num 13) (num 10)) [] none)
    (("entities", arr []) :: defaultConfig) rfl rfl).1 rfl).trans rfl

/-! ## The redraw: lemmas -/

theorem layersAdded_append (a b : List MapCall) :
    layersAdded (a ++ b) = layersAdded a ++ layersAdded b := by
  induction a with
  | nil => rfl
  | cons c rest ih => cases c <;> simp [layersAdded, ih]

theorem popupsOpened_append (a b : List MapCall) :
    popupsOpened (a ++ b) = popupsOpened a ++ popupsOpened b := by
  induction a with
  | nil => rfl
  | cons c rest ih => cases c <;> simp [popupsOpened, ih]

theorem viewCommands_append (a b : List MapCall) :
    viewCommands (a ++ b) = viewCommands a ++ viewCommands b := by
  induction a with
  | nil => rfl
  | cons c rest ih => cases c <;> simp [viewCommands, ih]

theorem toFixed_ok {v : JSVal} {q : ℚ} (h : toFixed v = .ok q) : v = num q := by
  cases v <;> simp_all [toFixed]

theorem toFixed_isOk_or (v : JSVal) : (∃ q, v = num q) ∨ toFixed v = .error .typeError := by
  cases v <;> simp [toFixed]

theorem drawSample_ok (P : Platform) (p : ℚ) (i : ℕ) (loc : LocationSample)
    (h : (drawSample P p i loc).2 = none) :
    (∃ a b c : ℚ, loc.lat = num a ∧ loc.lon = num b ∧ loc.accuracy = num c) ∧
    layersAdded (drawSample P p i loc).1
      = historyMarker p loc ::
        (if (toNumber P loc.accuracy).gt 0 then [historyCircle p loc] else []) ∧
    popupsOpened (drawSample P p i loc).1 = [] ∧
    viewCommands (drawSample P p i loc).1 = [] := by
  unfold drawSample at h ⊢
  cases hp : historyPopup i loc with
  | error e => simp [hp] at h
  | ok popup =>
    have hnum : ∃ a b c : ℚ, loc.lat = num a ∧ loc.lon = num b ∧ loc.accuracy = num c := by
      unfold historyPopup at hp
      cases h1 : toFixed loc.lat with
      | error e => simp [h1, bind, Except.bind] at hp
      | ok a =>
        cases h2 : toFixed loc.lon with
        | error e => simp [h1, h2, bind, Except.bind] at hp
        | ok b =>
          cases h3 : toFixed loc.accuracy with
          | error e => simp [h1, h2, h3, bind, Except.bind] at hp
          | ok c => exact ⟨a, b, c, toFixed_ok h1, toFixed_ok h2, toFixed_ok h3⟩
    refine ⟨hnum, ?_, ?_, ?_⟩
    · split <;> simp [layersAdded]
    · split <;> simp [popupsOpened]
    · split <;> simp [viewCommands]

theorem drawHistory_ok (P : Platform) (p : ℚ) (l : List LocationSample) (i : ℕ)
    (h : (drawHistory P p i l).2 = none) :
    (∀ loc ∈ l, ∃ a b c : ℚ, loc.lat = num a ∧ loc.lon = num b ∧ loc.accuracy = num c) ∧
    layersAdded (drawHistory P p i l).1 = historyLayers P p l ∧
    popupsOpened (drawHistory P p i l).1 = [] ∧
    viewCommands (drawHistory P p i l).1 = [] := by
  induction l generalizing i with
  | nil => exact ⟨by simp, rfl, rfl, rfl⟩
  | cons loc rest ih =>
    unfold drawHistory at h ⊢
    cases hs : drawSample P p i loc with
    | mk calls err =>
      cases err with
      | some e => simp [hs] at h
      | none =>
        have hs2 : (drawSample P p i loc).2 = none := by rw [hs]
        obtain ⟨hnum, hl, hpo, hv⟩ := drawSample_ok P p i loc hs2
        rw [hs] at hl hpo hv
        simp only [hs] at h ⊢
        cases hr : drawHistory P p (i + 1) rest with
        | mk more err2 =>
          simp only [hr] at h ⊢
          have hr2 : (drawHistory P p (i + 1) rest).2 = none := by
            rw [hr]
            exact h
          obtain ⟨hnum', hl', hpo', hv'⟩ := ih (i + 1) hr2
          rw [hr] at hl' hpo' hv'
          simp only at hl hpo hv hl' hpo' hv'
          refine ⟨?_, ?_, ?_, ?_⟩
          · intro x hx
            rcases List.mem_cons.1 hx with hx | hx
            · subst hx
              exact hnum
            · exact hnum' x hx
          · simp [layersAdded_append, hl, hl', historyLayers]
          · simp [popupsOpened_append, hpo, hpo']
          · simp [viewCommands_append, hv, hv']

theorem currentCircle_no_view (P : Platform) (f : Fix) :
    popupsOpened (currentCircle P f) = [] ∧ viewCommands (currentCircle P f) = [] := by
  unfold currentCircle
  split <;> exact ⟨rfl, rfl⟩

theorem pathLine_no_view (config : JSVal) (filtered : List LocationSample) :
    popupsOpened (pathLine config filtered) = [] ∧
    viewCommands (pathLine config filtered) = [] := by
  unfold pathLine
  split <;> exact ⟨rfl, rfl⟩

theorem currentPopup_ok {f : Fix} {popup : Popup} (h : currentPopup f = .ok popup) :
    ∃ a b c : ℚ, f.lat = num a ∧ f.lon = num b ∧ f.accuracy = num c := by
  unfold currentPopup at h
  cases h1 : toFixed f.lat with
  | error e => simp [h1, bind, Except.bind] at h
  | ok a =>
    cases h2 : toFixed f.lon with
    | error e => simp [h1, h2, bind, Except.bind] at h
    | ok b =>
      cases h3 : toFixed f.accuracy with
      | error e => simp [h1, h2, h3, bind, Except.bind] at h
      | ok c => exact ⟨a, b, c, toFixed_ok h1, toFixed_ok h2, toFixed_ok h3⟩

/-- What the drawing part adds when it does not throw. -/
theorem drawLayers_ok (P : Platform) (card : Card) (f : Fix)
    (h : (drawLayers P card f).2 = none) :
    layersAdded (drawLayers P card f).1 = drawnLayers P card f ∧
    viewCommands (drawLayers P card f).1 = [] ∧
    (∃ a b c : ℚ, f.lat = num a ∧ f.lon = num b ∧ f.accuracy = num c) ∧
    (∀ loc ∈ filteredHistory P card._accuracyFilter card._locationHistory,
      ∃ a b c : ℚ, loc.lat = num a ∧ loc.lon = num b ∧ loc.accuracy = num c) ∧
    ((filteredHistory P card._accuracyFilter card._locationHistory).length > 0 →
      popupsOpened (drawLayers P card f).1 = []) ∧
    ((filteredHistory P card._accuracyFilter card._locationHistory) = [] →
      ∃ popup, currentPopup f = .ok popup ∧ popupsOpened (drawLayers P card f).1 = [popup]) := by
  unfold drawLayers drawnLayers at *
  by_cases hlen : (filteredHistory P card._accuracyFilter card._locationHistory).length > 0
  · simp only [hlen, if_true] at h ⊢
    cases hd : drawHistory P card._markerOpacity 0
        (filteredHistory P card._accuracyFilter card._locationHistory) with
    | mk calls err =>
      cases err with
      | some e => simp [hd] at h
      | none =>
        simp only [hd] at h ⊢
        have hd2 : (drawHistory P card._markerOpacity 0
            (filteredHistory P card._accuracyFilter card._locationHistory)).2 = none := by
          rw [hd]
        obtain ⟨hnum, hl, hpo, hv⟩ := drawHistory_ok P _ _ 0 hd2
        rw [hd] at hl hpo hv
        simp only at hl hpo hv
        unfold drawCurrentWithHistory at h ⊢
        cases hc : currentPopup f with
        | error e => simp [hc] at h
        | ok popup =>
          simp only [hc]
          refine ⟨?_, ?_, currentPopup_ok hc, hnum, ?_, ?_⟩
          · simp [layersAdded_append, hl, layersAdded]
          · simp [viewCommands_append, hv, viewCommands, (pathLine_no_view _ _).2,
              (currentCircle_no_view P f).2]
          · intro _
            simp [popupsOpened_append, hpo, popupsOpened, (pathLine_no_view _ _).1,
              (currentCircle_no_view P f).1]
          · intro hnil
            rw [hnil] at hlen
            simp at hlen
  · simp only [hlen, if_false] at h ⊢
    have hnil : filteredHistory P card._accuracyFilter card._locationHistory = [] := by
      cases hf : filteredHistory P card._accuracyFilter card._locationHistory with
      | nil => rfl
      | cons x xs => simp [hf] at hlen
    unfold drawCurrentAlone at h ⊢
    cases hc : currentPopup f with
    | error e => simp [hc] at h
    | ok popup =>
      simp only [hc]
      refine ⟨?_, ?_, currentPopup_ok hc, ?_, ?_, ?_⟩
      · simp [layersAdded_append, layersAdded]
      · simp [viewCommands_append, viewCommands, (currentCircle_no_view P f).2]
      · intro loc hloc
        rw [hnil] at hloc
        simp at hloc
      · intro hpos
        exact hpos.elim
      · intro _
        exact ⟨popup, rfl, by simp [popupsOpened_append, popupsOpened,
          (currentCircle_no_view P f).1]⟩

theorem redraw_of_fix (P : Platform) (env : RedrawEnv) (card : Card) (f : Fix)
    (hg : redrawGuards P env card = .ok (.fix f)) :
    (redraw P env card).calls = redrawCalls P card f ∧
    (redraw P env card).created = (card._mapInstance).isNone ∧
    (redraw P env card).fetchCalled = (card._mapInstance).isNone ∧
    (redraw P env card).card = card.withMap
      (some (((card._mapInstance).getD (newMap env.mapId)).applyAll (redrawCalls P card f))) ∧
    ((redraw P env card).outcome = .completed ↔ (drawLayers P card f).2 = none) := by
  refine ⟨?_, ?_, ?_, ?_, ?_⟩
  · simp [redraw, hg]
  · simp [redraw, hg]
  · simp [redraw, hg]
  · simp [redraw, hg, Card.withMap]
  · simp only [redraw, hg]
    cases (drawLayers P card f).2 <;> simp

theorem redraw_completed (P : Platform) (env : RedrawEnv) (card : Card)
    (h : (redraw P env card).outcome = .completed) :
    ∃ f, redrawGuards P env card = .ok (.fix f) ∧ (drawLayers P card f).2 = none := by
  cases hg : redrawGuards P env card with
  | error e => simp [redraw, hg, RedrawResult.idle] at h
  | ok g =>
    cases g with
    | fix f => exact ⟨f, rfl, ((redraw_of_fix P env card f hg).2.2.2.2).1 h⟩
    | _ => simp [redraw, hg, RedrawResult.idle] at h

theorem redrawGuards_fix (P : Platform) (env : RedrawEnv) (card : Card) (f : Fix)
    (hg : redrawGuards P env card = .ok (.fix f)) :
    ∃ attributes gps, Resolves P card f.selectedDevice f.entity attributes ∧
      attributes.getProp "latitude" = .ok f.lat ∧ f.lat.truthy = true ∧
      attributes.getProp "longitude" = .ok f.lon ∧
      attributes.getProp "gps_accuracy" = .ok gps ∧ f.accuracy = JSVal.or gps (num 0) ∧
      ∃ width height, env.container = some (width, height) ∧ width ≠ 0 ∧ height ≠ 0 := by
  unfold redrawGuards at hg
  cases hc : env.container with
  | none => simp [hc, pure, Except.pure] at hg
  | some wh =>
    obtain ⟨w, h⟩ := wh
    simp only [hc] at hg
    by_cases hz : w = 0 ∨ h = 0
    · simp [hz, pure, Except.pure] at hg
    · simp only [hz, if_false] at hg
      cases hdev : _getDevices card.config with
      | error e => simp [hdev, bind, Except.bind] at hg
      | ok devices =>
        cases hsel : selectedDevice card._selectedDevice devices with
        | error e => simp [hdev, hsel, bind, Except.bind] at hg
        | ok device =>
          cases htr : device.truthy with
          | false => simp [hdev, hsel, htr, bind, Except.bind, pure, Except.pure] at hg
          | true =>
            cases hst : card._hass.getProp "states" with
            | error e => simp [hdev, hsel, htr, hst, bind, Except.bind] at hg
            | ok states =>
              cases hid : device.getProp "entity_id" with
              | error e => simp [hdev, hsel, htr, hst, hid, bind, Except.bind] at hg
              | ok id =>
                cases hen : index P states id with
                | error e => simp [hdev, hsel, htr, hst, hid, hen, bind, Except.bind] at hg
                | ok entity =>
                  cases hent : entity.truthy with
                  | false =>
                    simp [hdev, hsel, htr, hst, hid, hen, hent, bind, Except.bind, pure,
                      Except.pure] at hg
                  | true =>
                    cases hat : entity.getProp "attributes" with
                    | error e =>
                      simp [hdev, hsel, htr, hst, hid, hen, hent, hat, bind,
                        Except.bind] at hg
                    | ok attributes =>
                      cases hla : attributes.getProp "latitude" with
                      | error e =>
                        simp [hdev, hsel, htr, hst, hid, hen, hent, hat, hla, bind,
                          Except.bind] at hg
                      | ok lat =>
                        cases hlt : lat.truthy with
                        | false =>
                          simp [hdev, hsel, htr, hst, hid, hen, hent, hat, hla, hlt, bind,
                            Except.bind, pure, Except.pure] at hg
                        | true =>
                          cases hlo : attributes.getProp "longitude" with
                          | error e =>
                            simp [hdev, hsel, htr, hst, hid, hen, hent, hat, hla, hlt, hlo,
                              bind, Except.bind] at hg
                          | ok lon =>
                            cases hac : attributes.getProp "gps_accuracy" with
                            | error e =>
                              simp [hdev, hsel, htr, hst, hid, hen, hent, hat, hla, hlt, hlo,
                                hac, bind, Except.bind] at hg
                            | ok gps =>
                              simp [hdev, hsel, htr, hst, hid, hen, hent, hat, hla, hlt, hlo,
                                hac, bind, Except.bind, pure, Except.pure] at hg
                              subst hg
                              have hz' : w ≠ 0 ∧ h ≠ 0 := by
                                constructor
                                · intro hw
                                  exact hz (Or.inl hw)
                                · intro hh
                                  exact hz (Or.inr hh)
                              exact ⟨attributes, gps,
                                ⟨devices, states, id, hdev, hsel, htr, hst, hid, hen, hent,
                                  hat⟩,
                                hla, hlt, hlo, hac, rfl, w, h, rfl, hz'.1, hz'.2⟩

theorem redrawGuards_of_resolves (P : Platform) (env : RedrawEnv) (card : Card)
    (device entity attributes lat lon gps : JSVal) (width height : ℚ)
    (hc : env.container = some (width, height)) (hw : width ≠ 0) (hh : height ≠ 0)
    (hres : Resolves P card device entity attributes)
    (hlat : attributes.getProp "latitude" = .ok lat) (htr : lat.truthy = true)
    (hlon : attributes.getProp "longitude" = .ok lon)
    (hacc : attributes.getProp "gps_accuracy" = .ok gps) :
    redrawGuards P env card = .ok (.fix
      { selectedDevice := device, entity := entity, lat := lat, lon := lon,
        accuracy := JSVal.or gps (num 0) }) := by
  obtain ⟨devices, states, id, hdev, hsel, hdt, hst, hid, hen, hent, hat⟩ := hres
  have hz : ¬ (width = 0 ∨ height = 0) := by
    intro h
    rcases h with h | h
    · exact hw h
    · exact hh h
  simp [redrawGuards, hc, hz, hdev, hsel, hdt, hst, hid, hen, hent, hat, hlat, htr, hlon, hacc,
    bind, Except.bind, pure, Except.pure]

theorem applyAll_append (m : LeafletMap) (a b : List MapCall) :
    m.applyAll (a ++ b) = (m.applyAll a).applyAll b := by
  simp [LeafletMap.applyAll, List.foldl_append]

theorem applyAll_id (m : LeafletMap) (calls : List MapCall) : (m.applyAll calls).id = m.id := by
  induction calls generalizing m with
  | nil => rfl
  | cons c rest ih =>
    have h : m.applyAll (c :: rest) = (m.apply c).applyAll rest := rfl
    rw [h, ih]
    cases c <;> rfl

theorem applyAll_layers (m : LeafletMap) (calls : List MapCall)
    (h : ∀ c ∈ calls, c.clears = false) :
    (m.applyAll calls).layers = m.layers ++ layersAdded calls := by
  induction calls generalizing m with
  | nil => simp [LeafletMap.applyAll, layersAdded]
  | cons c rest ih =>
    have hstep : m.applyAll (c :: rest) = (m.apply c).applyAll rest := rfl
    have hc := h c (List.mem_cons_self _ _)
    rw [hstep, ih _ (fun x hx => h x (List.mem_cons_of_mem _ hx))]
    cases c <;> simp_all [LeafletMap.apply, layersAdded, MapCall.clears]

theorem drawSample_calls (P : Platform) (p : ℚ) (i : ℕ) (loc : LocationSample) :
    (∀ c ∈ (drawSample P p i loc).1, c.clears = false) ∧
    (∀ l ∈ layersAdded (drawSample P p i loc).1, l.isData = true) := by
  unfold drawSample
  cases historyPopup i loc <;> split <;>
    simp [MapCall.clears, layersAdded, historyMarker, historyCircle, Layer.isData,
      Layer.isMarker, Layer.isCircle]

theorem drawHistory_calls (P : Platform) (p : ℚ) (l : List LocationSample) (i : ℕ) :
    (∀ c ∈ (drawHistory P p i l).1, c.clears = false) ∧
    (∀ x ∈ layersAdded (drawHistory P p i l).1, x.isData = true) := by
  induction l generalizing i with
  | nil => simp [drawHistory, layersAdded]
  | cons loc rest ih =>
    unfold drawHistory
    have hs := drawSample_calls P p i loc
    cases hd : drawSample P p i loc with
    | mk calls err =>
      rw [hd] at hs
      cases err with
      | some e => exact hs
      | none =>
        have hr := ih (i + 1)
        cases hr2 : drawHistory P p (i + 1) rest with
        | mk more err2 =>
          rw [hr2] at hr
          simp only
          constructor
          · intro c hc
            rcases List.mem_append.1 hc with h | h
            · exact hs.1 c h
            · exact hr.1 c h
          · intro x hx
            rw [layersAdded_append] at hx
            rcases List.mem_append.1 hx with h | h
            · exact hs.2 x h
            · exact hr.2 x h

theorem currentCircle_calls (P : Platform) (f : Fix) :
    (∀ c ∈ currentCircle P f, c.clears = false) ∧
    (∀ x ∈ layersAdded (currentCircle P f), x.isData = true) := by
  unfold currentCircle
  split <;> simp [MapCall.clears, layersAdded, Layer.isData, Layer.isCircle]

theorem pathLine_calls (config : JSVal) (filtered : List LocationSample) :
    (∀ c ∈ pathLine config filtered, c.clears = false) ∧
    (∀ x ∈ layersAdded (pathLine config filtered), x.isData = true) := by
  unfold pathLine
  split <;> simp [MapCall.clears, layersAdded, Layer.isData, Layer.isPolyline]

theorem drawCurrent_calls (P : Platform) (f : Fix) :
    ((∀ c ∈ (drawCurrentWithHistory P f).1, c.clears = false) ∧
      (∀ x ∈ layersAdded (drawCurrentWithHistory P f).1, x.isData = true)) ∧
    ((∀ c ∈ (drawCurrentAlone P f).1, c.clears = false) ∧
      (∀ x ∈ layersAdded (drawCurrentAlone P f).1, x.isData = true)) := by
  have hc := currentCircle_calls P f
  unfold drawCurrentWithHistory drawCurrentAlone
  cases currentPopup f with
  | error e => simp [MapCall.clears, layersAdded, Layer.isData, Layer.isMarker]
  | ok popup =>
    refine ⟨⟨?_, ?_⟩, ⟨?_, ?_⟩⟩
    · intro c h
      simp only [List.mem_append, List.mem_cons, List.mem_singleton, List.not_mem_nil,
        or_false] at h
      rcases h with (h | h) | h
      · subst h
        rfl
      · subst h
        rfl
      · exact hc.1 c h
    · intro x h
      simp only [layersAdded_append, layersAdded, List.mem_append, List.mem_cons,
        List.not_mem_nil, or_false] at h
      rcases h with h | h
      · subst h
        rfl
      · exact hc.2 x h
    · intro c h
      simp only [List.mem_append, List.mem_cons, List.mem_singleton, List.not_mem_nil,
        or_false] at h
      rcases h with (h | h | h) | h
      · subst h
        rfl
      · subst h
        rfl
      · subst h
        rfl
      · exact hc.1 c h
    · intro x h
      simp only [layersAdded_append, layersAdded, List.mem_append, List.mem_cons,
        List.not_mem_nil, or_false] at h
      rcases h with h | h
      · subst h
        rfl
      · exact hc.2 x h

theorem drawLayers_calls (P : Platform) (card : Card) (f : Fix) :
    (∀ c ∈ (drawLayers P card f).1, c.clears = false) ∧
    (∀ x ∈ layersAdded (drawLayers P card f).1, x.isData = true) := by
  unfold drawLayers
  simp only
  split
  · have hh := drawHistory_calls P card._markerOpacity
      (filteredHistory P card._accuracyFilter card._locationHistory) 0
    have hp := pathLine_calls card.config
      (filteredHistory P card._accuracyFilter card._locationHistory)
    have hc := (drawCurrent_calls P f).1
    cases hd : drawHistory P card._markerOpacity 0
        (filteredHistory P card._accuracyFilter card._locationHistory) with
    | mk calls err =>
      rw [hd] at hh
      cases err with
      | some e =>
        simp only
        constructor
        · intro c h
          rcases List.mem_append.1 h with h | h
          · exact hp.1 c h
          · exact hh.1 c h
        · intro x h
          rw [layersAdded_append] at h
          rcases List.mem_append.1 h with h | h
          · exact hp.2 x h
          · exact hh.2 x h
      | none =>
        simp only
        cases hcur : drawCurrentWithHistory P f with
        | mk current err2 =>
          rw [hcur] at hc
          simp only
          constructor
          · intro c h
            rcases List.mem_append.1 h with h | h
            · rcases List.mem_append.1 h with h | h
              · exact hp.1 c h
              · exact hh.1 c h
            · exact hc.1 c h
          · intro x h
            rw [layersAdded_append, layersAdded_append] at h
            rcases List.mem_append.1 h with h | h
            · rcases List.mem_append.1 h with h | h
              · exact hp.2 x h
              · exact hh.2 x h
            · exact hc.2 x h
  · exact (drawCurrent_calls P f).2

/-- The layers of the map after a redraw whose guards have passed: the layers that are not
data layers stay (the base layer is added to a new map), the data layers are replaced by
those the redraw adds. -/
theorem redraw_map (P : Platform) (env : RedrawEnv) (card : Card) (f : Fix)
    (hg : redrawGuards P env card = .ok (.fix f)) :
    ∃ m', (redraw P env card).card._mapInstance = some m' ∧
      m'.id = ((card._mapInstance).getD (newMap env.mapId)).id ∧
      m'.layers = (match card._mapInstance with
          | some m => m.layers.filter (fun l => !l.isData)
          | none => [baseTileLayer])
        ++ layersAdded (drawLayers P card f).1 ∧
      ((drawLayers P card f).2 = none → m'.center = (f.lat, f.lon) ∧ m'.zoom = 15) := by
  obtain ⟨_, _, _, hcard, _⟩ := redraw_of_fix P env card f hg
  refine ⟨_, by rw [hcard]; rfl, applyAll_id _ _, ?_, ?_⟩
  · have hd := (drawLayers_calls P card f).1
    have htail : ∀ c ∈ (drawLayers P card f).1 ++
        (match (drawLayers P card f).2 with
          | none => [MapCall.setView f.lat f.lon 15]
          | some _ => []), c.clears = false := by
      intro c hc
      rcases List.mem_append.1 hc with h | h
      · exact hd c h
      · cases hdl : (drawLayers P card f).2 <;> simp [hdl] at h
        subst h
        rfl
    have hadd : layersAdded ((drawLayers P card f).1 ++
        (match (drawLayers P card f).2 with
          | none => [MapCall.setView f.lat f.lon 15]
          | some _ => [])) = layersAdded (drawLayers P card f).1 := by
      rw [layersAdded_append]
      cases (drawLayers P card f).2 <;> simp [layersAdded]
    cases hm : card._mapInstance with
    | none =>
      simp only [redrawCalls, hm, Option.getD_none, List.append_assoc, List.cons_append,
        List.nil_append, List.singleton_append]
      have e : (newMap env.mapId).applyAll
          (MapCall.setView f.lat f.lon 13 :: MapCall.addLayer baseTileLayer ::
            MapCall.whenReady :: MapCall.removeDataLayers ::
              ((drawLayers P card f).1 ++
                (match (drawLayers P card f).2 with
                  | none => [MapCall.setView f.lat f.lon 15]
                  | some _ => [])))
          = (((((newMap env.mapId).apply (.setView f.lat f.lon 13)).apply
              (.addLayer baseTileLayer)).apply .whenReady).apply .removeDataLayers).applyAll
            ((drawLayers P card f).1 ++
                (match (drawLayers P card f).2 with
                  | none => [MapCall.setView f.lat f.lon 15]
                  | some _ => [])) := rfl
      rw [e, applyAll_layers _ _ htail, hadd]
      rfl
    | some m =>
      simp only [redrawCalls, hm, Option.getD_some, List.append_assoc, List.cons_append,
        List.nil_append, List.singleton_append]
      have e : m.applyAll
          (MapCall.setView f.lat f.lon 15 :: MapCall.removeDataLayers ::
              ((drawLayers P card f).1 ++
                (match (drawLayers P card f).2 with
                  | none => [MapCall.setView f.lat f.lon 15]
                  | some _ => [])))
          = ((m.apply (.setView f.lat f.lon 15)).apply .removeDataLayers).applyAll
            ((drawLayers P card f).1 ++
                (match (drawLayers P card f).2 with
                  | none => [MapCall.setView f.lat f.lon 15]
                  | some _ => [])) := rfl
      rw [e, applyAll_layers _ _ htail, hadd]
      rfl
  · intro hnone
    have hcalls : redrawCalls P card f =
        ((match card._mapInstance with
          | none => [.setView f.lat f.lon 13, .addLayer baseTileLayer, .whenReady]
          | some _ => [MapCall.setView f.lat f.lon 15])
        ++ [.removeDataLayers] ++ (drawLayers P card f).1) ++ [.setView f.lat f.lon 15] := by
      simp [redrawCalls, hnone]
    rw [hcalls, applyAll_append]
    exact ⟨rfl, rfl⟩

theorem historyLayers_filters (P : Platform) (p : ℚ) (l : List LocationSample) :
    (historyLayers P p l).filter Layer.isPolyline = [] ∧
    (historyLayers P p l).filter Layer.isHistoryMarker = l.map (historyMarker p) ∧
    (historyLayers P p l).filter Layer.isMarker = l.map (historyMarker p) ∧
    (historyLayers P p l).filter Layer.isHistoryCircle
      = (withCircle P l).map (historyCircle p) ∧
    (historyLayers P p l).filter Layer.isCurrentMarker = [] ∧
    (historyLayers P p l).filter Layer.isCurrentCircle = [] := by
  induction l with
  | nil => simp [historyLayers, withCircle]
  | cons loc rest ih =>
    obtain ⟨h1, h2, h3, h4, h5, h6⟩ := ih
    unfold withCircle at h4 ⊢
    cases hgt : (toNumber P loc.accuracy).gt 0 <;>
      simp [historyLayers, hgt, List.filter_cons, historyMarker, historyCircle,
        Layer.isPolyline, Layer.isHistoryMarker, Layer.isMarker, Layer.isHistoryCircle,
        Layer.isCurrentMarker, Layer.isCurrentCircle, h1, h2, h3, h4, h5, h6]

theorem layersAdded_redrawCalls (P : Platform) (card : Card) (f : Fix) :
    layersAdded (redrawCalls P card f)
      = (if (card._mapInstance).isNone then [baseTileLayer] else [])
        ++ layersAdded (drawLayers P card f).1 := by
  unfold redrawCalls
  cases card._mapInstance <;> cases (drawLayers P card f).2 <;>
    simp [layersAdded_append, layersAdded]

theorem popupsOpened_redrawCalls (P : Platform) (card : Card) (f : Fix) :
    popupsOpened (redrawCalls P card f) = popupsOpened (drawLayers P card f).1 := by
  unfold redrawCalls
  cases card._mapInstance <;> cases (drawLayers P card f).2 <;>
    simp [popupsOpened_append, popupsOpened]

theorem getLast?_append_one {α : Type} (l : List α) (x : α) :
    (l ++ [x]).getLast? = some x := by
  induction l with
  | nil => rfl
  | cons a rest ih =>
    cases hr : rest ++ [x] with
    | nil => simp at hr
    | cons b more =>
      rw [List.cons_append, hr, List.getLast?_cons_cons, ← hr]
      exact ih

theorem viewCommands_redrawCalls (P : Platform) (card : Card) (f : Fix)
    (h : (drawLayers P card f).2 = none) :
    viewCommands (redrawCalls P card f)
      = [(f.lat, f.lon, if (card._mapInstance).isNone then 13 else 15), (f.lat, f.lon, 15)] ∧
    (redrawCalls P card f).getLast? = some (.setView f.lat f.lon 15) := by
  have hv := (drawLayers_ok P card f h).2.1
  unfold redrawCalls
  rw [h]
  constructor
  · cases card._mapInstance <;> simp [viewCommands_append, viewCommands, hv]
  · exact getLast?_append_one _ _

theorem pathLine_layers (config : JSVal) (filtered : List LocationSample) :
    layersAdded (pathLine config filtered)
      = if strictEq (config.optProp "show_path_lines") (bool false) = false then
          [.polyline (filtered.map (fun loc => (loc.lat, loc.lon))) "#1a73e8" 2 (3 / 5)]
        else [] := by
  unfold pathLine
  cases strictEq (config.optProp "show_path_lines") (bool false) <;> simp [layersAdded]

theorem currentCircle_layers (P : Platform) (f : Fix) :
    layersAdded (currentCircle P f)
      = if (toNumber P f.accuracy).gt 0 then
          [.circle f.lat f.lon f.accuracy "#dc3545" (1 / 10) (4 / 5)]
        else [] := by
  unfold currentCircle
  cases (toNumber P f.accuracy).gt 0 <;> simp [layersAdded]

/-- The data layers of a completed redraw, sorted by kind. -/
theorem drawnLayers_filters (P : Platform) (card : Card) (f : Fix) :
    (drawnLayers P card f).filter Layer.isPolyline
      = (if (filteredHistory P card._accuracyFilter card._locationHistory).length > 0 then
          layersAdded (pathLine card.config
            (filteredHistory P card._accuracyFilter card._locationHistory))
        else []) ∧
    (drawnLayers P card f).filter Layer.isHistoryMarker
      = (filteredHistory P card._accuracyFilter card._locationHistory).map
          (historyMarker card._markerOpacity) ∧
    (drawnLayers P card f).filter Layer.isHistoryCircle
      = (withCircle P (filteredHistory P card._accuracyFilter card._locationHistory)).map
          (historyCircle card._markerOpacity) ∧
    (∃ o : Option ℚ, o.getD 1 = 1 ∧
      (o = none ↔ filteredHistory P card._accuracyFilter card._locationHistory = []) ∧
      (drawnLayers P card f).filter Layer.isCurrentMarker = [.marker f.lat f.lon .red o 1000]) ∧
    (drawnLayers P card f).filter Layer.isCurrentCircle = layersAdded (currentCircle P f) ∧
    ((drawnLayers P card f).filter Layer.isMarker).length
      = (filteredHistory P card._accuracyFilter card._locationHistory).length + 1 := by
  obtain ⟨h1, h2, h3, h4, h5, h6⟩ := historyLayers_filters P card._markerOpacity
    (filteredHistory P card._accuracyFilter card._locationHistory)
  have hp := pathLine_layers card.config
    (filteredHistory P card._accuracyFilter card._locationHistory)
  have hc := currentCircle_layers P f
  unfold drawnLayers
  by_cases hlen : (filteredHistory P card._accuracyFilter card._locationHistory).length > 0
  · have hne : filteredHistory P card._accuracyFilter card._locationHistory ≠ [] := by
      intro h
      rw [h] at hlen
      simp at hlen
    simp only [hlen, if_true]
    refine ⟨?_, ?_, ?_, ⟨some 1, rfl, by simp [hne], ?_⟩, ?_, ?_⟩ <;>
      rw [hp, hc] <;>
      cases strictEq (card.config.optProp "show_path_lines") (bool false) <;>
      cases (toNumber P f.accuracy).gt 0 <;>
      simp [List.filter_append, List.filter_cons, h1, h2, h3, h4, h5, h6, Layer.isPolyline,
        Layer.isHistoryMarker, Layer.isMarker, Layer.isHistoryCircle, Layer.isCurrentMarker,
        Layer.isCurrentCircle]
  · have hnil : filteredHistory P card._accuracyFilter card._locationHistory = [] := by
      cases hf : filteredHistory P card._accuracyFilter card._locationHistory with
      | nil => rfl
      | cons x xs => simp [hf] at hlen
    simp only [hlen, if_false]
    refine ⟨?_, ?_, ?_, ⟨none, rfl, by simp [hnil], ?_⟩, ?_, ?_⟩ <;>
      rw [hc] <;>
      cases (toNumber P f.accuracy).gt 0 <;>
      simp [List.filter_append, List.filter_cons, hnil, withCircle, Layer.isPolyline,
        Layer.isHistoryMarker, Layer.isMarker, Layer.isHistoryCircle, Layer.isCurrentMarker,
        Layer.isCurrentCircle]

/-! ## The redraw: creation of the map and replacement of the data layers -/

theorem isTile_of_isData {l : Layer} (h : l.isData = true) : l.isTile = false := by
  cases l <;> simp_all [Layer.isData, Layer.isTile, Layer.isMarker, Layer.isCircle,
    Layer.isPolyline]

theorem filter_isTile_data (ls : List Layer) (h : ∀ x ∈ ls, x.isData = true) :
    ls.filter Layer.isTile = [] ∧ ls.filter Layer.isData = ls := by
  induction ls with
  | nil => exact ⟨rfl, rfl⟩
  | cons x rest ih =>
    have hx := h x (List.mem_cons_self _ _)
    obtain ⟨h1, h2⟩ := ih (fun y hy => h y (List.mem_cons_of_mem _ hy))
    simp [List.filter_cons, hx, isTile_of_isData hx, h1, h2]

theorem filter_kept_layers (ls : List Layer) :
    (ls.filter (fun l => !l.isData)).filter Layer.isTile = ls.filter Layer.isTile ∧
    (ls.filter (fun l => !l.isData)).filter Layer.isData = [] := by
  induction ls with
  | nil => exact ⟨rfl, rfl⟩
  | cons x rest ih =>
    obtain ⟨h1, h2⟩ := ih
    cases hx : x.isData
    · simp [List.filter_cons, hx, h1, h2]
    · simp [List.filter_cons, hx, isTile_of_isData hx, h1, h2]

/-- C14, at the failing input: the card has no map, Leaflet is loaded, the map container
measures 400 by 300 and the live state of the resolved device has the latitude 0, which is
not `null`: `_renderMap` shows "Location not available" and the redraw creates no map, makes
no call and starts no fetch, because both test `!entity.attributes.latitude`. The presence
test of the history loop, `lat !== undefined`, takes the latitude 0 for a coordinate: a
record at (0, 13) yields a sample. At the latitude 52 the same card gets its map. -/
theorem zero_latitude_creates_no_map :
    (num 0).isNullish = false ∧
    _renderMap plainPlatform
        (cardWith ["device_tracker.phone"] none
          (hassWith "device_tracker.phone" (num 0) (num 13) (num 10)) [] none)
        [obj [("entity_id", str "device_tracker.phone")]] = .ok .unavailable ∧
    (fetchedHistory (.ok (some [("device_tracker.phone",
        [fullRecord (fixAttrs 0 13 (str "10:00")) (str "10:00") (str "not_home")])]))
      "device_tracker.phone").map (fun s => (s.lat, s.lon)) = [(num 0, num 13)] ∧
    (redraw plainPlatform (pageWithContainer 0)
      (cardWith ["device_tracker.phone"] none
        (hassWith "device_tracker.phone" (num 52) (num 13) (num 10)) [] none)).created = true ∧
    (redraw plainPlatform (pageWithContainer 0)
      (cardWith ["device_tracker.phone"] none
        (hassWith "device_tracker.phone" (num 0) (num 13) (num 10)) [] none)).created = false ∧
    (redraw plainPlatform (pageWithContainer 0)
      (cardWith ["device_tracker.phone"] none
        (hassWith "device_tracker.phone" (num 0) (num 13) (num 10)) [] none)).calls = [] ∧
    (redraw plainPlatform (pageWithContainer 0)
      (cardWith ["device_tracker.phone"] none
        (hassWith "device_tracker.phone" (num 0) (num 13) (num 10)) [] none)).fetchCalled
      = false := by
  refine ⟨rfl, ?_, ?_, ?_, ?_, ?_, ?_⟩ <;> rfl

/-- What the redraw does where its guard passes (C14 away from its failing input): for a
card with no map and a map container of non-zero size, if the live state of the resolved
device has a truthy latitude, the redraw calls `L.map`, its first calls on the new map are `setView` on that latitude and
longitude at zoom 13, the addition of the base tile layer and `whenReady`, it adds exactly
one tile layer, it calls `_fetchLocationHistory`, which resolves an entity, and the card
holds the new map afterwards, with the base tile layer as its only tile layer. -/
theorem first_fix_creates_map (P : Platform) (env : RedrawEnv) (card : Card)
    (device entity attributes lat lon gps : JSVal) (width height : ℚ)
    (hmap : card._mapInstance = none)
    (hc : env.container = some (width, height)) (hw : width ≠ 0) (hh : height ≠ 0)
    (hres : Resolves P card device entity attributes)
    (hlat : attributes.getProp "latitude" = .ok lat) (htr : lat.truthy = true)
    (hlon : attributes.getProp "longitude" = .ok lon)
    (hacc : attributes.getProp "gps_accuracy" = .ok gps) :
    (redraw P env card).created = true ∧
    (redraw P env card).calls.take 3
      = [.setView lat lon 13, .addLayer baseTileLayer, .whenReady] ∧
    (layersAdded (redraw P env card).calls).filter Layer.isTile = [baseTileLayer] ∧
    (redraw P env card).fetchCalled = true ∧
    (∃ entityId, fetchEntityId P (redraw P env card).card = .ok (some entityId)) ∧
    ∃ m, (redraw P env card).card._mapInstance = some m ∧ m.id = env.mapId ∧
      m.layers.filter Layer.isTile = [baseTileLayer] := by
  have hg := redrawGuards_of_resolves P env card device entity attributes lat lon gps width
    height hc hw hh hres hlat htr hlon hacc
  obtain ⟨hcalls, hcreated, hfetch, hcard, _⟩ := redraw_of_fix P env card _ hg
  obtain ⟨m', hm', hid, hlayers, _⟩ := redraw_map P env card _ hg
  have hdata := (drawLayers_calls P card
    { selectedDevice := device, entity := entity, lat := lat, lon := lon,
      accuracy := JSVal.or gps (num 0) }).2
  refine ⟨by rw [hcreated, hmap]; rfl, ?_, ?_, by rw [hfetch, hmap]; rfl, ?_, m', hm', ?_, ?_⟩
  · rw [hcalls]
    simp [redrawCalls, hmap]
  · rw [hcalls, layersAdded_redrawCalls, hmap]
    simp [List.filter_append, (filter_isTile_data _ hdata).1, baseTileLayer, Layer.isTile]
  · obtain ⟨devices, states, id, hdev, hsel, hdt, hst, hid', hen, hent, hat⟩ := hres
    have hsame : fetchEntityId P (redraw P env card).card = fetchEntityId P card := by
      rw [hcard]
      rfl
    rw [hsame]
    cases hge : entity.getProp "entity_id" with
    | error e => cases entity <;> simp_all [getProp, truthy]
    | ok entityId =>
      exact ⟨entityId, by
        simp [fetchEntityId, hdev, hsel, hdt, hst, hid', hen, hent, hge, bind, Except.bind,
          pure, Except.pure]⟩
  · rw [hid, hmap]
    rfl
  · rw [hlayers, hmap]
    simp [List.filter_append, (filter_isTile_data _ hdata).1, baseTileLayer, Layer.isTile]

/-- A card with one entity at (52, 13), no map and no history. -/
theorem first_fix_creates_map_witness :
    (redraw plainPlatform (pageWithContainer 0)
      (cardWith ["device_tracker.phone"] none
        (hassWith "device_tracker.phone" (num 52) (num 13) (num 10)) [] none)).created
      = true :=
  (first_fix_creates_map plainPlatform (pageWithContainer 0)
    (cardWith ["device_tracker.phone"] none
      (hassWith "device_tracker.phone" (num 52) (num 13) (num 10)) [] none)
    (obj [("entity_id", str "device_tracker.phone")])
    (entityWith "device_tracker.phone" (num 52) (num 13) (num 10))
    (obj [("latitude", num 52), ("longitude", num 13), ("gps_accuracy", num 10)])
    (num 52) (num 13) (num 10) 400 300 rfl rfl (by norm_num) (by norm_num)
    ⟨[obj [("entity_id", str "device_tracker.phone")]],
      obj [("device_tracker.phone",
        entityWith "device_tracker.phone" (num 52) (num 13) (num 10))],
      str "device_tracker.phone", rfl, rfl, rfl, rfl, rfl, rfl, rfl, rfl⟩
    rfl (by decide) rfl rfl).1

theorem redraw_layers_by_kind (P : Platform) (env : RedrawEnv) (card : Card) (f : Fix)
    (hg : redrawGuards P env card = .ok (.fix f)) :
    ∃ m', (redraw P env card).card._mapInstance = some m' ∧
      m'.id = ((card._mapInstance).getD (newMap env.mapId)).id ∧
      m'.layers.filter Layer.isTile = tileLayersOf card._mapInstance ∧
      m'.layers.filter Layer.isData = (layersAdded (redraw P env card).calls).filter
        Layer.isData := by
  obtain ⟨hcalls, _, _, _, _⟩ := redraw_of_fix P env card f hg
  obtain ⟨m', hm', hid, hlayers, _⟩ := redraw_map P env card f hg
  have hdata := (drawLayers_calls P card f).2
  refine ⟨m', hm', hid, ?_, ?_⟩
  · rw [hlayers]
    cases card._mapInstance with
    | none =>
      simp [tileLayersOf, List.filter_append, (filter_isTile_data _ hdata).1, baseTileLayer,
        Layer.isTile]
    | some m =>
      simp [tileLayersOf, List.filter_append, (filter_isTile_data _ hdata).1,
        (filter_kept_layers _).1]
  · rw [hlayers, hcalls, layersAdded_redrawCalls]
    cases card._mapInstance with
    | none =>
      simp [List.filter_append, (filter_isTile_data _ hdata).2, baseTileLayer, Layer.isData,
        Layer.isMarker, Layer.isCircle, Layer.isPolyline]
    | some m =>
      simp [List.filter_append, (filter_isTile_data _ hdata).2, (filter_kept_layers _).2]

/-- C15: in a sequence of completed redraws, between which the other fields of the card may
change, the map after each redraw has the tile layers it had before the sequence (the base
tile layer alone when the first redraw of the sequence creates the map), and its markers,
circles and polylines are exactly those that this redraw added. -/
theorem redraws_replace_data_layers (P : Platform) (steps : List (RedrawEnv × Card))
    (start : Option LeafletMap)
    (hall : ∀ r ∈ redrawSeq P start steps, r.outcome = .completed) :
    ∀ r ∈ redrawSeq P start steps, ∃ m', r.card._mapInstance = some m' ∧
      m'.layers.filter Layer.isTile = tileLayersOf start ∧
      m'.layers.filter Layer.isData = (layersAdded r.calls).filter Layer.isData := by
  induction steps generalizing start with
  | nil =>
    intro r hr
    simp [redrawSeq] at hr
  | cons step rest ih =>
    obtain ⟨env, c⟩ := step
    intro r hr
    have hfirst : (redraw P env { c with _mapInstance := start }).outcome = .completed :=
      hall _ (by simp [redrawSeq])
    obtain ⟨f, hg, _⟩ := redraw_completed P env _ hfirst
    obtain ⟨m1, hm1, _, htile, hdata⟩ := redraw_layers_by_kind P env _ f hg
    simp only [redrawSeq, List.mem_cons] at hr
    rcases hr with hr | hr
    · subst hr
      exact ⟨m1, hm1, htile, hdata⟩
    · rw [hm1] at hr
      have hall' : ∀ r ∈ redrawSeq P (some m1) rest, r.outcome = .completed := by
        intro x hx
        apply hall
        simp only [redrawSeq, List.mem_cons]
        right
        rw [hm1]
        exact hx
      obtain ⟨m', hm', htile', hdata'⟩ := ih (some m1) hall' r hr
      refine ⟨m', hm', ?_, hdata'⟩
      rw [htile']
      exact htile

/-- A two-step sequence: the first redraw creates the map, the second one draws one sample;
the statement is that of the first redraw. -/
theorem redraws_replace_data_layers_witness :
    ∃ m', (redraw plainPlatform (pageWithContainer 0) (phoneCard [] none)).card._mapInstance
        = some m' ∧
      m'.layers.filter Layer.isTile = tileLayersOf none ∧
      m'.layers.filter Layer.isData
        = (layersAdded (redraw plainPlatform (pageWithContainer 0)
            (phoneCard [] none)).calls).filter Layer.isData :=
  redraws_replace_data_layers plainPlatform
    [(pageWithContainer 0, phoneCard [] none),
     (pageWithContainer 1, phoneCard [sampleAt 48 11 5 "10:00"] none)] none
    (by
      intro r hr
      simp only [redrawSeq, List.mem_cons, List.mem_nil_iff, or_false] at hr
      rcases hr with rfl | rfl <;> rfl)
    (redraw plainPlatform (pageWithContainer 0) (phoneCard [] none)) (List.Mem.head _)

/-! ## What a completed redraw draws -/

theorem completed_layers (P : Platform) (env : RedrawEnv) (card : Card) (f : Fix)
    (hg : redrawGuards P env card = .ok (.fix f))
    (hc : (redraw P env card).outcome = .completed) :
    (drawLayers P card f).2 = none ∧
    ∀ pred : Layer → Bool, pred baseTileLayer = false →
      (layersAdded (redraw P env card).calls).filter pred
        = (drawnLayers P card f).filter pred := by
  obtain ⟨hcalls, _, _, _, hiff⟩ := redraw_of_fix P env card f hg
  have hd := hiff.1 hc
  refine ⟨hd, ?_⟩
  intro pred hp
  rw [hcalls, layersAdded_redrawCalls, (drawLayers_ok P card f hd).1]
  split <;> simp [List.filter_append, List.filter_cons, hp]

/-- C16: a completed redraw adds exactly one polyline when `show_path_lines` is not `false`
and at least one filtered sample remains, and none otherwise; the vertices of the polyline
are the (lat, lon) pairs of the filtered samples, one per sample and in their order, and the
filtered samples are a subsequence of the history, so that any order in which the history
is (chronological order in particular) is the order of the vertices. -/
theorem path_line (P : Platform) (env : RedrawEnv) (card : Card) (f : Fix)
    (hg : redrawGuards P env card = .ok (.fix f))
    (hc : (redraw P env card).outcome = .completed) :
    (layersAdded (redraw P env card).calls).filter Layer.isPolyline
      = (if strictEq (card.config.optProp "show_path_lines") (bool false) = false ∧
            0 < (filteredHistory P card._accuracyFilter card._locationHistory).length then
          [Layer.polyline ((filteredHistory P card._accuracyFilter card._locationHistory).map
            (fun loc => (loc.lat, loc.lon))) "#1a73e8" 2 (3 / 5)]
        else []) ∧
    (filteredHistory P card._accuracyFilter card._locationHistory).Sublist
      card._locationHistory ∧
    ∀ before : LocationSample → LocationSample → Prop,
      card._locationHistory.Pairwise before →
      (filteredHistory P card._accuracyFilter card._locationHistory).Pairwise before := by
  obtain ⟨_, hl⟩ := completed_layers P env card f hg hc
  refine ⟨?_, filteredHistory_sublist P _ _, fun before hb =>
    hb.sublist (filteredHistory_sublist P _ _)⟩
  rw [hl Layer.isPolyline rfl, (drawnLayers_filters P card f).1, pathLine_layers]
  cases hfh : filteredHistory P card._accuracyFilter card._locationHistory with
  | nil => simp
  | cons x rest => simp

/-- Two samples in the history, path lines not switched off: one polyline through both. -/
theorem path_line_witness :
    (layersAdded (redraw plainPlatform (pageWithContainer 0)
      (phoneCard [sampleAt 48 11 5 "10:00", sampleAt 49 12 0 "11:00"]
        (some (mapShowing [baseTileLayer])))).calls).filter Layer.isPolyline
      = [.polyline [(num 48, num 11), (num 49, num 12)] "#1a73e8" 2 (3 / 5)] :=
  (path_line plainPlatform (pageWithContainer 0)
    (phoneCard [sampleAt 48 11 5 "10:00", sampleAt 49 12 0 "11:00"]
      (some (mapShowing [baseTileLayer]))) phoneFix rfl rfl).1

theorem gt_zero_of_num (P : Platform) (v : JSVal) (a : ℚ) (h : v = num a) :
    (toNumber P v).gt 0 = true ↔ 0 < a := by
  subst h
  simp [toNumber, JSNumber.gt]

/-- C17: a completed redraw with the filtered samples f_1..f_n and the marker opacity p adds
exactly n markers with the small blue icon, the i-th at (f_i.lat, f_i.lon) with the opacity
p/100 and the stacking offset -1000, which is below the offset 1000 of every red marker it
adds; it adds a blue circle for exactly the filtered samples whose accuracy is above 0, in
their order, centred on the sample with its accuracy as radius, the fill opacity
(1/10)(p/100) and the stroke opacity (1/2)(p/100); the accuracy of every filtered sample is
a number. -/
theorem historical_markers (P : Platform) (env : RedrawEnv) (card : Card) (f : Fix)
    (hg : redrawGuards P env card = .ok (.fix f))
    (hc : (redraw P env card).outcome = .completed) :
    (layersAdded (redraw P env card).calls).filter Layer.isHistoryMarker
      = (filteredHistory P card._accuracyFilter card._locationHistory).map
          (fun loc => Layer.marker loc.lat loc.lon .smallBlue
            (some (card._markerOpacity / 100)) (-1000)) ∧
    ((layersAdded (redraw P env card).calls).filter Layer.isHistoryMarker).length
      = (filteredHistory P card._accuracyFilter card._locationHistory).length ∧
    (∀ l ∈ (layersAdded (redraw P env card).calls).filter Layer.isHistoryMarker,
      ∀ c ∈ (layersAdded (redraw P env card).calls).filter Layer.isCurrentMarker,
        ∃ zl zc : ℤ, l.zIndexOffset = some zl ∧ c.zIndexOffset = some zc ∧ zl = -1000 ∧
          zc = 1000 ∧ zl < zc) ∧
    (layersAdded (redraw P env card).calls).filter Layer.isHistoryCircle
      = ((filteredHistory P card._accuracyFilter card._locationHistory).filter
          (fun loc => (toNumber P loc.accuracy).gt 0)).map
          (fun loc => Layer.circle loc.lat loc.lon loc.accuracy "#1a73e8"
            (1 / 10 * (card._markerOpacity / 100)) (1 / 2 * (card._markerOpacity / 100))) ∧
    ∀ loc ∈ filteredHistory P card._accuracyFilter card._locationHistory,
      ∃ a : ℚ, loc.accuracy = num a ∧ ((toNumber P loc.accuracy).gt 0 = true ↔ 0 < a) := by
  obtain ⟨hd, hl⟩ := completed_layers P env card f hg hc
  obtain ⟨_, hm, hci, ⟨o, _, _, hcur⟩, _, _⟩ := drawnLayers_filters P card f
  have hmark : (layersAdded (redraw P env card).calls).filter Layer.isHistoryMarker
      = (filteredHistory P card._accuracyFilter card._locationHistory).map
          (fun loc => Layer.marker loc.lat loc.lon .smallBlue
            (some (card._markerOpacity / 100)) (-1000)) := by
    rw [hl Layer.isHistoryMarker rfl, hm]
    rfl
  refine ⟨hmark, by rw [hmark, List.length_map], ?_, ?_, ?_⟩
  · intro l hlm c hcm
    rw [hmark, List.mem_map] at hlm
    obtain ⟨loc, _, rfl⟩ := hlm
    rw [hl Layer.isCurrentMarker rfl, hcur, List.mem_singleton] at hcm
    subst hcm
    exact ⟨-1000, 1000, rfl, rfl, rfl, rfl, by norm_num⟩
  · rw [hl Layer.isHistoryCircle rfl, hci]
    rfl
  · intro loc hloc
    obtain ⟨a, b, c, _, _, hacc⟩ := (drawLayers_ok P card f hd).2.2.2.1 loc hloc
    exact ⟨c, hacc, gt_zero_of_num P _ c hacc⟩

/-- Two samples, one with the accuracy 5 and one with the accuracy 0, at 100 percent. -/
theorem historical_markers_witness :
    (layersAdded (redraw plainPlatform (pageWithContainer 0)
      (phoneCard [sampleAt 48 11 5 "10:00", sampleAt 49 12 0 "11:00"]
        (some (mapShowing [baseTileLayer])))).calls).filter Layer.isHistoryCircle
      = [Layer.circle (num 48) (num 11) (num 5) "#1a73e8" (1 / 10 * (100 / 100))
          (1 / 2 * (100 / 100))] :=
  (historical_markers plainPlatform (pageWithContainer 0)
    (phoneCard [sampleAt 48 11 5 "10:00", sampleAt 49 12 0 "11:00"]
      (some (mapShowing [baseTileLayer]))) phoneFix rfl rfl).2.2.2.1

/-- C18: a completed redraw, whatever the history and the settings, adds exactly one red
marker, at the latitude and longitude of the live state of the resolved device, with the
opacity 1 (given or by default) and the stacking offset 1000, above the offset of every
history marker it adds; it adds the red circle, centred there with the accuracy as radius,
if and only if the accuracy, which is the live `gps_accuracy` or 0, is above 0; and the
number of markers it adds is the number of filtered samples plus one. -/
theorem current_marker (P : Platform) (env : RedrawEnv) (card : Card) (f : Fix)
    (hg : redrawGuards P env card = .ok (.fix f))
    (hc : (redraw P env card).outcome = .completed) :
    (∃ attributes gps, Resolves P card f.selectedDevice f.entity attributes ∧
      attributes.getProp "latitude" = .ok f.lat ∧
      attributes.getProp "longitude" = .ok f.lon ∧
      attributes.getProp "gps_accuracy" = .ok gps ∧ f.accuracy = JSVal.or gps (num 0) ∧
      ∀ a : ℚ, 0 < a → f.accuracy = num a → gps = num a) ∧
    (∃ o : Option ℚ, o.getD 1 = 1 ∧
      (layersAdded (redraw P env card).calls).filter Layer.isCurrentMarker
        = [Layer.marker f.lat f.lon .red o 1000]) ∧
    (∀ l ∈ (layersAdded (redraw P env card).calls).filter Layer.isHistoryMarker,
      ∃ z : ℤ, l.zIndexOffset = some z ∧ z < 1000) ∧
    (layersAdded (redraw P env card).calls).filter Layer.isCurrentCircle
      = (if (toNumber P f.accuracy).gt 0 then
          [Layer.circle f.lat f.lon f.accuracy "#dc3545" (1 / 10) (4 / 5)]
        else []) ∧
    (∃ a : ℚ, f.accuracy = num a ∧ ((toNumber P f.accuracy).gt 0 = true ↔ 0 < a)) ∧
    ((layersAdded (redraw P env card).calls).filter Layer.isMarker).length
      = (filteredHistory P card._accuracyFilter card._locationHistory).length + 1 := by
  obtain ⟨hd, hl⟩ := completed_layers P env card f hg hc
  obtain ⟨_, hm, _, ⟨o, ho, _, hcur⟩, hcc, hlen⟩ := drawnLayers_filters P card f
  obtain ⟨attributes, gps, hres, hlat, _, hlon, hgps, hor, _⟩ := redrawGuards_fix P env card f hg
  obtain ⟨a, b, c, _, _, hacc⟩ := (drawLayers_ok P card f hd).2.2.1
  refine ⟨⟨attributes, gps, hres, hlat, hlon, hgps, hor, ?_⟩, ⟨o, ho, ?_⟩, ?_, ?_,
    ⟨c, hacc, gt_zero_of_num P _ c hacc⟩, ?_⟩
  · intro a ha hfa
    rw [hor] at hfa
    unfold JSVal.or at hfa
    split at hfa
    · exact hfa
    · simp only [num.injEq] at hfa
      exact absurd hfa.symm (ne_of_gt ha)
  · rw [hl Layer.isCurrentMarker rfl, hcur]
  · intro l hlm
    rw [hl Layer.isHistoryMarker rfl, hm, List.mem_map] at hlm
    obtain ⟨loc, _, rfl⟩ := hlm
    exact ⟨-1000, rfl, by norm_num⟩
  · rw [hl Layer.isCurrentCircle rfl, hcc, currentCircle_layers]
  · rw [hl Layer.isMarker rfl, hlen]

/-- Two samples in the history: three markers, one of them red at (52, 13). -/
theorem current_marker_witness :
    ((layersAdded (redraw plainPlatform (pageWithContainer 0)
      (phoneCard [sampleAt 48 11 5 "10:00", sampleAt 49 12 0 "11:00"]
        (some (mapShowing [baseTileLayer])))).calls).filter Layer.isMarker).length
      = (filteredHistory plainPlatform 0
          [sampleAt 48 11 5 "10:00", sampleAt 49 12 0 "11:00"]).length + 1 :=
  (current_marker plainPlatform (pageWithContainer 0)
    (phoneCard [sampleAt 48 11 5 "10:00", sampleAt 49 12 0 "11:00"]
      (some (mapShowing [baseTileLayer]))) phoneFix rfl rfl).2.2.2.2.2

/-- C19: when the history is empty, a completed redraw adds exactly one marker, the red one
at the latitude and longitude of the live state of the resolved device, binds its popup and
opens it at once, adds no polyline, and leaves the map centred there at zoom 15. -/
theorem no_history_redraw (P : Platform) (env : RedrawEnv) (card : Card) (f : Fix)
    (hg : redrawGuards P env card = .ok (.fix f))
    (hc : (redraw P env card).outcome = .completed)
    (hempty : card._locationHistory = []) :
    (∃ attributes, Resolves P card f.selectedDevice f.entity attributes ∧
      attributes.getProp "latitude" = .ok f.lat ∧
      attributes.getProp "longitude" = .ok f.lon) ∧
    (layersAdded (redraw P env card).calls).filter Layer.isMarker
      = [Layer.marker f.lat f.lon .red none 1000] ∧
    (∃ popup, currentPopup f = .ok popup ∧
      popupsOpened (redraw P env card).calls = [popup]) ∧
    (layersAdded (redraw P env card).calls).filter Layer.isPolyline = [] ∧
    ∃ m', (redraw P env card).card._mapInstance = some m' ∧ m'.center = (f.lat, f.lon) ∧
      m'.zoom = 15 := by
  obtain ⟨hd, hl⟩ := completed_layers P env card f hg hc
  obtain ⟨hcalls, _, _, _, _⟩ := redraw_of_fix P env card f hg
  obtain ⟨attributes, gps, hres, hlat, _, hlon, _⟩ := redrawGuards_fix P env card f hg
  obtain ⟨m', hm', _, _, hview⟩ := redraw_map P env card f hg
  have hfh : filteredHistory P card._accuracyFilter card._locationHistory = [] := by
    rw [hempty]
    rfl
  refine ⟨⟨attributes, hres, hlat, hlon⟩, ?_, ?_, ?_, m', hm', hview hd⟩
  · rw [hl Layer.isMarker rfl]
    simp only [drawnLayers, hfh, List.length_nil, gt_iff_lt, lt_self_iff_false, if_false,
      currentCircle_layers]
    split <;> simp [Layer.isMarker]
  · rw [hcalls, popupsOpened_redrawCalls]
    exact (drawLayers_ok P card f hd).2.2.2.2.2 hfh
  · rw [hl Layer.isPolyline rfl, (drawnLayers_filters P card f).1, hfh]
    simp

/-- One entity at (52, 13), no history. -/
theorem no_history_redraw_witness :
    (layersAdded (redraw plainPlatform (pageWithContainer 0)
      (phoneCard [] (some (mapShowing [baseTileLayer])))).calls).filter Layer.isMarker
      = [Layer.marker (num 52) (num 13) .red none 1000] :=
  (no_history_redraw plainPlatform (pageWithContainer 0)
    (phoneCard [] (some (mapShowing [baseTileLayer]))) phoneFix rfl rfl rfl).2.1

/-- C20: in every completed redraw, the one that creates the map at zoom 13 included and
whatever the number of samples drawn, the last call on the map, which is also the last view
command, is `setView` on the latitude and longitude of the live state with the zoom 15, and
the centre and zoom of the map after the redraw are these. -/
theorem final_camera (P : Platform) (env : RedrawEnv) (card : Card) (f : Fix)
    (hg : redrawGuards P env card = .ok (.fix f))
    (hc : (redraw P env card).outcome = .completed) :
    (∃ attributes, Resolves P card f.selectedDevice f.entity attributes ∧
      attributes.getProp "latitude" = .ok f.lat ∧
      attributes.getProp "longitude" = .ok f.lon) ∧
    (redraw P env card).calls.getLast? = some (.setView f.lat f.lon 15) ∧
    (viewCommands (redraw P env card).calls).getLast? = some (f.lat, f.lon, 15) ∧
    ((redraw P env card).created = true →
      viewCommands (redraw P env card).calls = [(f.lat, f.lon, 13), (f.lat, f.lon, 15)]) ∧
    ∃ m', (redraw P env card).card._mapInstance = some m' ∧ m'.center = (f.lat, f.lon) ∧
      m'.zoom = 15 := by
  obtain ⟨hd, _⟩ := completed_layers P env card f hg hc
  obtain ⟨hcalls, hcreated, _, _, _⟩ := redraw_of_fix P env card f hg
  obtain ⟨attributes, gps, hres, hlat, _, hlon, _⟩ := redrawGuards_fix P env card f hg
  obtain ⟨m', hm', _, _, hview⟩ := redraw_map P env card f hg
  obtain ⟨hv, hlast⟩ := viewCommands_redrawCalls P card f hd
  refine ⟨⟨attributes, hres, hlat, hlon⟩, ?_, ?_, ?_, m', hm', hview hd⟩
  · rw [hcalls, hlast]
  · rw [hcalls, hv]
    rfl
  · intro hcr
    rw [hcreated] at hcr
    rw [hcalls, hv, hcr]
    rfl

/-- The redraw that creates the map, with two samples in the history. -/
theorem final_camera_witness :
    viewCommands (redraw plainPlatform (pageWithContainer 0)
      (phoneCard [sampleAt 48 11 5 "10:00", sampleAt 49 12 0 "11:00"] none)).calls
      = [(num 52, num 13, 13), (num 52, num 13, 15)] :=
  (final_camera plainPlatform (pageWithContainer 0)
    (phoneCard [sampleAt 48 11 5 "10:00", sampleAt 49 12 0 "11:00"] none)
    phoneFix rfl rfl).2.2.2.1 rfl

/-! ## The steps of the card and the identity of the map -/

theorem fetchStart_map (P : Platform) (now : ℤ) (card : Card) :
    (fetchStart P now card).1._mapInstance = card._mapInstance := by
  unfold fetchStart
  split
  · rfl
  · rfl
  · split <;> rfl

theorem startFetch_frame (E : Env) (now : ℤ) (w : World) :
    (startFetch E now w).card._mapInstance = w.card._mapInstance ∧
    (startFetch E now w).mapsCreated = w.mapsCreated ∧
    (startFetch E now w).disposed = w.disposed ∧
    (startFetch E now w).resizeListener = w.resizeListener := by
  have h := fetchStart_map E.P now w.card
  unfold startFetch
  generalize fetchStart E.P now w.card = r at h
  obtain ⟨card, fs⟩ := r
  cases fs <;> exact ⟨h, rfl, rfl, rfl⟩

theorem setHass_map (P : Platform) (windowL : Bool) (value : JSVal) (card : Card) :
    (setHass P windowL value card).1._mapInstance = card._mapInstance := by
  unfold setHass
  simp only []
  split
  · split <;> rfl
  · rfl

theorem fetchSettle_map (P : Platform) (windowL : Bool) (entityId : JSVal)
    (reply : Except JSErr HistoryReply) (card c : Card) (t : List Timer)
    (h : fetchSettle P windowL entityId reply card = .ok (c, t)) :
    c._mapInstance = card._mapInstance := by
  unfold fetchSettle at h
  split at h <;>
    (simp only [Except.ok.injEq, Prod.mk.injEq] at h
     obtain ⟨rfl, _⟩ := h
     rfl)

theorem selectDevice_frame (E : Env) (now : ℤ) (entityId : String) (w : World) :
    (_selectDevice E now entityId w).1.card._mapInstance = w.card._mapInstance ∧
    (_selectDevice E now entityId w).1.mapsCreated = w.mapsCreated ∧
    (_selectDevice E now entityId w).1.disposed = w.disposed ∧
    (_selectDevice E now entityId w).1.resizeListener = w.resizeListener := by
  unfold _selectDevice
  simp only []
  split
  · split
    · exact startFetch_frame E now _
    · exact ⟨rfl, rfl, rfl, rfl⟩
  · exact ⟨rfl, rfl, rfl, rfl⟩

theorem redrawCalls_no_remove (P : Platform) (card : Card) (f : Fix) :
    ∀ c ∈ redrawCalls P card f, c ≠ .remove := by
  intro c hc hrem
  subst hrem
  have hd := (drawLayers_calls P card f).1 .remove
  unfold redrawCalls at hc
  cases hm : card._mapInstance <;> cases he : (drawLayers P card f).2 <;>
    simp [hm, he] at hc <;> exact absurd (hd hc) (by simp [MapCall.clears])

theorem deferredInvalidate_no_remove (card : Card) :
    ∀ c ∈ deferredInvalidate card, c ≠ .remove := by
  intro c hc
  unfold deferredInvalidate at hc
  split at hc <;> simp at hc
  subst hc
  simp

/-- What a step other than the teardown does to the map: either it leaves the handle, the
number of maps created and the maps disposed of as they are and makes its calls, none of
them `remove`, on the map held; or it is a redraw whose guards pass, which makes its calls,
none of them `remove`, on the map it leaves in the handle: the map held before, or a new map
if none was held. -/
theorem step_frame (E : Env) (w : World) (s : Step) (hs : s.isDisconnect = false) :
    ((step E w s).1.card._mapInstance = w.card._mapInstance ∧
      (step E w s).1.mapsCreated = w.mapsCreated ∧
      (step E w s).1.disposed = w.disposed ∧
      ∃ cs, (∀ c ∈ cs, c ≠ MapCall.remove) ∧ (step E w s).2 = onMap w.card cs) ∨
    (∃ (m' : LeafletMap) (cs : List MapCall), (step E w s).1.card._mapInstance = some m' ∧
      m'.id = ((w.card._mapInstance).getD (newMap w.mapsCreated)).id ∧
      (step E w s).1.mapsCreated
        = (if (w.card._mapInstance).isNone then w.mapsCreated + 1 else w.mapsCreated) ∧
      (step E w s).1.disposed = w.disposed ∧
      (∀ c ∈ cs, c ≠ MapCall.remove) ∧ (step E w s).2 = cs.map (fun c => (m'.id, c))) := by
  have hnil : ∀ card : Card, ([] : List (ℕ × MapCall)) = onMap card [] := by
    intro card
    unfold onMap
    split <;> rfl
  cases s with
  | disconnect => simp [Step.isDisconnect] at hs
  | connect => exact Or.inl ⟨rfl, rfl, rfl, [], by simp, hnil _⟩
  | config config => exact Or.inl ⟨rfl, rfl, rfl, [], by simp, hnil _⟩
  | leafletLoaded => exact Or.inl ⟨rfl, rfl, rfl, [], by simp, hnil _⟩
  | hass value => exact Or.inl ⟨setHass_map _ _ _ _, rfl, rfl, [], by simp, hnil _⟩
  | select entityId now =>
    obtain ⟨h1, h2, h3, _⟩ := selectDevice_frame E now entityId w
    exact Or.inl ⟨h1, h2, h3, [], by simp, hnil _⟩
  | historyDays days now =>
    obtain ⟨h1, h2, h3, _⟩ := startFetch_frame E now
      (saveSettings E { w with card := { w.card with _historyDays := days } })
    exact Or.inl ⟨h1, h2, h3, [], by simp, hnil _⟩
  | accuracyFilter value => exact Or.inl ⟨rfl, rfl, rfl, [], by simp, hnil _⟩
  | markerOpacity value => exact Or.inl ⟨rfl, rfl, rfl, [], by simp, hnil _⟩
  | fetch now =>
    obtain ⟨h1, h2, h3, _⟩ := startFetch_frame E now w
    exact Or.inl ⟨h1, h2, h3, [], by simp, hnil _⟩
  | resolve k reply =>
    left
    simp only [step]
    cases hk : w.pending.get? k with
    | none => exact ⟨rfl, rfl, rfl, [], by simp, hnil _⟩
    | some entityId =>
      dsimp only
      cases hf : fetchSettle E.P E.windowL entityId reply w.card with
      | error e => exact ⟨rfl, rfl, rfl, [], by simp, hnil _⟩
      | ok r =>
        obtain ⟨c, t⟩ := r
        exact ⟨fetchSettle_map _ _ _ _ _ _ _ hf, rfl, rfl, [], by simp, hnil _⟩
  | resize => exact Or.inl ⟨rfl, rfl, rfl, [], by simp, hnil _⟩
  | resizeTimer =>
    exact Or.inl ⟨rfl, rfl, rfl, deferredInvalidate w.card, deferredInvalidate_no_remove _, rfl⟩
  | readyTimer =>
    exact Or.inl ⟨rfl, rfl, rfl, deferredInvalidate w.card, deferredInvalidate_no_remove _, rfl⟩
  | redraw container now =>
    by_cases hfix : ∃ f, redrawGuards E.P { container := container, mapId := w.mapsCreated }
        w.card = .ok (.fix f)
    · right
      obtain ⟨f, hg⟩ := hfix
      obtain ⟨hcalls, hcreated, hfetch, _, _⟩ := redraw_of_fix E.P _ w.card f hg
      obtain ⟨m', hm', hid, _, _⟩ := redraw_map E.P _ w.card f hg
      refine ⟨m', redrawCalls E.P w.card f, ?_, hid, ?_, ?_, redrawCalls_no_remove _ _ _, ?_⟩
      · simp only [step]
        split
        · rw [(startFetch_frame E now _).1]
          exact hm'
        · exact hm'
      · simp only [step]
        split
        · rw [(startFetch_frame E now _).2.1]
          dsimp only
          rw [hcreated]
        · dsimp only
          rw [hcreated]
      · simp only [step]
        split
        · rw [(startFetch_frame E now _).2.2.1]
        · rfl
      · simp only [step, onMap, hm', hcalls]
    · left
      have hno : ∀ f, redrawGuards E.P { container := container, mapId := w.mapsCreated }
          w.card ≠ .ok (.fix f) := fun f hf => hfix ⟨f, hf⟩
      obtain ⟨h1, h2, h3, h4⟩ := redraw_idle_of_guard E.P _ w.card hno
      simp only [step, h1, h2, h3, h4]
      exact ⟨rfl, rfl, rfl, [], by simp, by simp [onMap]⟩

theorem run_keeps_handle (E : Env) (steps : List Step) :
    ∀ w : World, steps.all (fun s => !s.isDisconnect) = true →
      (run E w steps).1.mapsCreated ≤ w.mapsCreated + 1 ∧
      ∀ m, w.card._mapInstance = some m →
        (run E w steps).1.mapsCreated = w.mapsCreated ∧
        ∃ m', (run E w steps).1.card._mapInstance = some m' ∧ m'.id = m.id := by
  induction steps with
  | nil =>
    intro w _
    exact ⟨Nat.le_succ _, fun m hm => ⟨rfl, m, hm, rfl⟩⟩
  | cons s rest ih =>
    intro w hall
    simp only [List.all_cons, Bool.and_eq_true, Bool.not_eq_true'] at hall
    obtain ⟨hs, hrest⟩ := hall
    obtain ⟨hle, hkeep⟩ := ih (step E w s).1 hrest
    have hrun : (run E w (s :: rest)).1 = (run E (step E w s).1 rest).1 := rfl
    rw [hrun]
    rcases step_frame E w s hs with ⟨hh, hc, _, _⟩ | ⟨m', cs, hh, hid, hc, _, _⟩
    · refine ⟨by rw [← hc]; exact hle, ?_⟩
      intro m hm
      rw [← hh] at hm
      obtain ⟨h1, m2, h2, h3⟩ := hkeep m hm
      exact ⟨by rw [h1, hc], m2, h2, h3⟩
    · obtain ⟨h1, m2, h2, h3⟩ := hkeep m' hh
      constructor
      · rw [h1, hc]
        split
        · exact Nat.le_refl _
        · exact Nat.le_succ _
      · intro m hm
        rw [hm] at hid hc
        exact ⟨by rw [h1, hc]; rfl, m2, h2, by rw [h3, hid]; rfl⟩

/-- C13: in a run of steps none of which is the teardown (steps are redraws, changes of the
three settings, host state updates, selections, fetches and their resolutions, resize
events and deferred callbacks), `L.map` is called at most once; and if the card holds a map
at the start of the run, no map is created during the run and the card holds the same map
(the same identity) at its end; in particular a redraw on a card that holds a map leaves
the same map in the handle. -/
theorem single_map_per_mount (E : Env) (w : World) (steps : List Step)
    (hmount : steps.all (fun s => !s.isDisconnect) = true) :
    (run E w steps).1.mapsCreated ≤ w.mapsCreated + 1 ∧
    (∀ m, w.card._mapInstance = some m →
      (run E w steps).1.mapsCreated = w.mapsCreated ∧
      ∃ m', (run E w steps).1.card._mapInstance = some m' ∧ m'.id = m.id) ∧
    ∀ container now m, (run E w steps).1.card._mapInstance = some m →
      (step E (run E w steps).1 (.redraw container now)).1.mapsCreated
        = (run E w steps).1.mapsCreated ∧
      ∃ m', (step E (run E w steps).1 (.redraw container now)).1.card._mapInstance = some m' ∧
        m'.id = m.id := by
  obtain ⟨h1, h2⟩ := run_keeps_handle E steps w hmount
  refine ⟨h1, h2, ?_⟩
  intro container now m hm
  exact (run_keeps_handle E [.redraw container now] (run E w steps).1 rfl).2 m hm

/-- A run in which the first redraw finds no container, the second one creates the map and
the third one follows a change of the accuracy filter: one map is created. -/
theorem single_map_per_mount_witness :
    (run plainEnv (worldAround (phoneCard [] none))
      [.redraw none 0, .hass (hassWith "device_tracker.phone" (num 52) (num 13) (num 10)),
       .redraw (some (400, 300)) 0, .accuracyFilter 50, .resize,
       .redraw (some (400, 300)) 1000]).1.mapsCreated
      ≤ (worldAround (phoneCard [] none)).mapsCreated + 1 :=
  (single_map_per_mount plainEnv (worldAround (phoneCard [] none))
    [.redraw none 0, .hass (hassWith "device_tracker.phone" (num 52) (num 13) (num 10)),
     .redraw (some (400, 300)) 0, .accuracyFilter 50, .resize,
     .redraw (some (400, 300)) 1000] rfl).1

theorem step_consistent (E : Env) (w : World) (s : Step) (hw : w.Consistent) :
    (step E w s).1.Consistent ∧
    (∀ d ∈ w.disposed, d ∈ (step E w s).1.disposed) ∧
    (∀ c ∈ (step E w s).2, c.1 ∉ w.disposed) ∧
    ∀ id, (id, MapCall.remove) ∈ (step E w s).2 →
      (step E w s).2 = [(id, MapCall.remove)] ∧ id ∈ (step E w s).1.disposed := by
  obtain ⟨hheld, hgone⟩ := hw
  cases hs : s.isDisconnect with
  | true =>
    have hsd : s = .disconnect := by
      cases s <;> simp [Step.isDisconnect] at hs
      rfl
    subst hsd
    simp only [step, disconnectedCallback]
    cases hm : w.card._mapInstance with
    | none =>
      refine ⟨⟨?_, hgone⟩, fun d hd => hd, by simp, by simp⟩
      intro m hm2
      rw [hm] at hm2
      cases hm2
    | some m =>
      obtain ⟨hlt, hnot⟩ := hheld m hm
      refine ⟨⟨?_, ?_⟩, ?_, ?_, ?_⟩
      · intro m2 hm2
        simp [disconnectMap, hm] at hm2
      · intro d hd
        simp only [List.mem_cons] at hd
        rcases hd with rfl | hd
        · exact hlt
        · exact hgone d hd
      · intro d hd
        exact List.mem_cons_of_mem _ hd
      · intro c hc
        simp [disconnectMap, hm] at hc
        subst hc
        exact hnot
      · intro id hid
        simp [disconnectMap, hm] at hid
        subst hid
        simp [disconnectMap, hm]
  | false =>
    rcases step_frame E w s hs with ⟨hh, hc, hd, cs, hcs, hcalls⟩ |
      ⟨m', cs, hh, hid, hc, hd, hcs, hcalls⟩
    · refine ⟨⟨?_, ?_⟩, ?_, ?_, ?_⟩
      · intro m hm
        rw [hh] at hm
        rw [hc, hd]
        exact hheld m hm
      · intro d hdd
        rw [hd] at hdd
        rw [hc]
        exact hgone d hdd
      · intro d hdd
        rw [hd]
        exact hdd
      · intro c hcc
        rw [hcalls] at hcc
        unfold onMap at hcc
        cases hm : w.card._mapInstance with
        | none => simp [hm] at hcc
        | some m =>
          simp only [hm, List.mem_map] at hcc
          obtain ⟨x, _, rfl⟩ := hcc
          exact (hheld m hm).2
      · intro id hid
        rw [hcalls] at hid
        unfold onMap at hid
        cases hm : w.card._mapInstance with
        | none => simp [hm] at hid
        | some m =>
          simp only [hm, List.mem_map, Prod.mk.injEq] at hid
          obtain ⟨x, hx, _, rfl⟩ := hid
          exact absurd rfl (hcs _ hx)
    · have hfresh : m'.id < (step E w s).1.mapsCreated ∧ m'.id ∉ w.disposed := by
        rw [hc, hid]
        cases hm : w.card._mapInstance with
        | none =>
          refine ⟨by simp [newMap], ?_⟩
          intro hin
          exact absurd (hgone _ hin) (by simp [newMap])
        | some m =>
          simpa using hheld m hm
      have hmono : w.mapsCreated ≤ (step E w s).1.mapsCreated := by
        rw [hc]
        split
        · exact Nat.le_succ _
        · exact Nat.le_refl _
      refine ⟨⟨?_, ?_⟩, ?_, ?_, ?_⟩
      · intro m hm
        rw [hh] at hm
        cases hm
        rw [hd]
        exact hfresh
      · intro d hdd
        rw [hd] at hdd
        exact Nat.lt_of_lt_of_le (hgone d hdd) hmono
      · intro d hdd
        rw [hd]
        exact hdd
      · intro c hcc
        rw [hcalls, List.mem_map] at hcc
        obtain ⟨x, _, rfl⟩ := hcc
        exact hfresh.2
      · intro id hidd
        rw [hcalls, List.mem_map] at hidd
        obtain ⟨x, hx, hxe⟩ := hidd
        simp only [Prod.mk.injEq] at hxe
        exact absurd hxe.2 (hcs _ hx)

theorem run_consistent (E : Env) (steps : List Step) :
    ∀ w : World, w.Consistent →
      (run E w steps).1.Consistent ∧ (∀ c ∈ (run E w steps).2, c.1 ∉ w.disposed) ∧
      NoCallAfterRemove (run E w steps).2 := by
  induction steps with
  | nil =>
    intro w hw
    refine ⟨hw, by simp [run], ?_⟩
    intro before after id heq
    simp [run] at heq
  | cons s rest ih =>
    intro w hw
    obtain ⟨hw1, hsub, hcalls, hrem⟩ := step_consistent E w s hw
    obtain ⟨hw2, hrest, hno⟩ := ih (step E w s).1 hw1
    have hrun : (run E w (s :: rest)).2 = (step E w s).2 ++ (run E (step E w s).1 rest).2 := rfl
    refine ⟨hw2, ?_, ?_⟩
    · intro c hc
      rw [hrun, List.mem_append] at hc
      rcases hc with hc | hc
      · exact hcalls c hc
      · exact fun hin => hrest c hc (hsub _ hin)
    · intro before after id heq
      rw [hrun, List.append_eq_append_iff] at heq
      rcases heq with ⟨a', _, hb⟩ | ⟨c', ha, hd⟩
      · exact hno a' after id hb
      · cases c' with
        | nil =>
          simp only [List.nil_append] at hd
          exact hno [] after id hd.symm
        | cons x c'' =>
          simp only [List.cons_append, List.cons.injEq] at hd
          obtain ⟨hx, hafter⟩ := hd
          subst hx
          have hin : (id, MapCall.remove) ∈ (step E w s).2 := by
            rw [ha]
            simp
          obtain ⟨hone, hgone⟩ := hrem id hin
          rw [hone] at ha
          have hc'' : c'' = [] := by
            cases before with
            | nil =>
              simp only [List.nil_append, List.cons.injEq, true_and] at ha
              exact ha.symm
            | cons y ys =>
              simp only [List.cons_append, List.cons.injEq] at ha
              have := ha.2
              simp at this
          subst hc''
          intro c hc
          rw [hafter, List.nil_append] at hc
          exact fun heq => hrest c hc (heq ▸ hgone)

/-- C21: `disconnectedCallback`, from every state, leaves the resize listener unregistered
and the map handle `null`; its only call on a map is `remove`, made once on the map held,
whose identity joins the maps disposed of, and it makes no call when no map is held. On a
card that holds no map, a resize registers no timer and a deferred size recalculation makes
no call; so the debounce timer and the map-ready timer, firing after the teardown, make no
call. In every run from a new card, no call at all is made on a map after `remove` has been
called on it. -/
theorem teardown_releases_map (E : Env) (w : World) (card : Card) (storage : LocalStorage)
    (h a m : ℚ) (steps : List Step) :
    (disconnectedCallback w).1.resizeListener = false ∧
    (disconnectedCallback w).1.card._mapInstance = none ∧
    (disconnectedCallback w).2 = onMap w.card [.remove] ∧
    (disconnectedCallback w).1.disposed
      = (onMap w.card [.remove]).map Prod.fst ++ w.disposed ∧
    _handleResize (card.withMap none) = [] ∧
    deferredInvalidate (card.withMap none) = [] ∧
    (step E (disconnectedCallback w).1 .resizeTimer).2 = [] ∧
    (step E (disconnectedCallback w).1 .readyTimer).2 = [] ∧
    NoCallAfterRemove (run E (newWorld storage h a m) steps).2 := by
  have hnew : (newWorld storage h a m).Consistent := by
    constructor
    · intro m2 hm2
      simp [newWorld, newCard] at hm2
    · intro d hd
      simp [newWorld] at hd
  refine ⟨?_, ?_, ?_, ?_, rfl, rfl, ?_, ?_, (run_consistent E steps _ hnew).2.2⟩
  all_goals
    unfold disconnectedCallback
    cases hm : w.card._mapInstance <;>
      simp [step, onMap, deferredInvalidate, disconnectMap, hm]

/-! ## Selection and history -/

theorem fetchStart_query (P : Platform) (now : ℤ) (card : Card) (d : ℤ) (entityId : JSVal)
    (hfe : fetchEntityId P card = .ok (some entityId))
    (hd : card._historyDays = d)
    (hlo : -8640000000000000 ≤ now - d * 86400000)
    (hhi : now - d * 86400000 ≤ 8640000000000000) :
    fetchStart P now card
      = (card, .query (queryFor (now - d * 86400000) now entityId) entityId) := by
  have hq : ((now : ℚ) - card._historyDays * 24 * 60 * 60 * 1000)
      = ((now - d * 86400000 : ℤ) : ℚ) := by
    rw [hd]
    push_cast
    ring
  simp only [fetchStart, hfe]
  rw [hq, timeClip_intCast _ hlo hhi]
  rfl

theorem startFetch_query (E : Env) (now : ℤ) (w : World) (d : ℤ) (entityId : JSVal)
    (hfe : fetchEntityId E.P w.card = .ok (some entityId))
    (hd : w.card._historyDays = d)
    (hlo : -8640000000000000 ≤ now - d * 86400000)
    (hhi : now - d * 86400000 ≤ 8640000000000000) :
    startFetch E now w = { w with pending := w.pending ++ [entityId] } := by
  unfold startFetch
  rw [fetchStart_query E.P now w.card d entityId hfe hd hlo hhi]

theorem run_cons_world (E : Env) (w : World) (s : Step) (rest : List Step) :
    (run E w (s :: rest)).1 = (run E (step E w s).1 rest).1 := rfl

theorem lateReplySteps_run :
    (run plainEnv twoTrackerWorld lateReplySteps).1 = afterLateReply := by
  have h1 : (step plainEnv twoTrackerWorld (.redraw (some (400, 300)) 0)).1
      = afterFirstRedraw := by
    show startFetch plainEnv 0 _ = _
    refine (startFetch_query plainEnv 0 _ 3 (str "device_tracker.a") ?_ ?_ ?_ ?_).trans ?_
    · rfl
    · rfl
    · norm_num
    · norm_num
    · rfl
  have h2 : (step plainEnv afterFirstRedraw (.select "device_tracker.b" 1000)).1
      = afterSelection := by
    show startFetch plainEnv 1000 _ = _
    refine (startFetch_query plainEnv 1000 _ 3 (str "device_tracker.b") ?_ ?_ ?_ ?_).trans ?_
    · rfl
    · rfl
    · norm_num
    · norm_num
    · rfl
  have h3 : (step plainEnv afterSelection
      (.resolve 1 (.ok (replyFor "device_tracker.b" 21 21)))).1 = afterSecondReply := rfl
  have h4 : (step plainEnv afterSecondReply
      (.resolve 0 (.ok (replyFor "device_tracker.a" 11 11)))).1 = afterLateReply := rfl
  simp only [lateReplySteps, run_cons_world, h1, h2, h3, h4]
  rfl

/-- C23, counterexample: two devices are configured. The first redraw creates the map and
asks for the history of the first device; the user selects the second device, whose history
is asked for; the second query is answered first and the first query last. No query is in
flight any more, the second device is selected, the stored history is the history of the
first device, and the next redraw draws the red marker at the second device, at (20, 20),
and a history marker at (11, 11), a sample of the first device. -/
theorem late_reply_draws_other_device :
    (run plainEnv twoTrackerWorld lateReplySteps).1.card._selectedDevice
      = some "device_tracker.b" ∧
    (run plainEnv twoTrackerWorld lateReplySteps).1.pending.length = 0 ∧
    ((run plainEnv twoTrackerWorld lateReplySteps).1.card._locationHistory.map
        (fun loc => (loc.lat, loc.lon))
      = (processHistory (replyFor "device_tracker.a" 11 11) "device_tracker.a").map
        (fun loc => (loc.lat, loc.lon))) ∧
    (processHistory (replyFor "device_tracker.b" 21 21) "device_tracker.b").map
        (fun loc => (loc.lat, loc.lon)) = [(num 21, num 21)] ∧
    (redraw plainPlatform (pageWithContainer 1)
      (run plainEnv twoTrackerWorld lateReplySteps).1.card).outcome = .completed ∧
    (layersAdded (redraw plainPlatform (pageWithContainer 1)
      (run plainEnv twoTrackerWorld lateReplySteps).1.card).calls).filter Layer.isMarker
      = [Layer.marker (num 11) (num 11) .smallBlue (some (100 / 100)) (-1000),
         Layer.marker (num 20) (num 20) .red (some 1) 1000] := by
  rw [lateReplySteps_run]
  refine ⟨?_, ?_, ?_, ?_, ?_, ?_⟩ <;> rfl

theorem startFetch_pending (E : Env) (now : ℤ) (w : World) :
    (startFetch E now w).pending = w.pending ∨
    ∃ entityId, fetchEntityId E.P w.card = .ok (some entityId) ∧
      (startFetch E now w).pending = w.pending ++ [entityId] := by
  unfold startFetch fetchStart
  cases hf : fetchEntityId E.P w.card with
  | error e => exact Or.inl rfl
  | ok o =>
    cases o with
    | none => exact Or.inl rfl
    | some entityId =>
      dsimp only
      cases timeClip (now - w.card._historyDays * 24 * 60 * 60 * 1000) with
      | none => exact Or.inl rfl
      | some startTime => exact Or.inr ⟨entityId, rfl, rfl⟩

/-- C23, amended: the stored history is keyed by the fetch that resolved last, not by the
selection. When the pending fetch number k, started for the entity id `entityId`, resolves,
the stored history becomes what the reply holds under that one id (nothing when the query
failed), whatever device is selected then, and the selection stays as it is; a fetch that
sends a query does so for the `entity_id` of the live state of the device resolved when it
starts; and the history markers of a completed redraw are those of stored samples. -/
theorem history_keyed_by_fetch (E : Env) (w : World) (k : ℕ)
    (reply : Except JSErr HistoryReply) (entityId : JSVal) (now : ℤ) (env : RedrawEnv)
    (hk : w.pending.get? k = some entityId) :
    (step E w (.resolve k reply)).1.card._locationHistory
      = fetchedHistory reply (keyOf E.P entityId) ∧
    (step E w (.resolve k reply)).1.card._selectedDevice = w.card._selectedDevice ∧
    (step E w (.resolve k reply)).1.pending = w.pending.eraseIdx k ∧
    ((startFetch E now w).pending = w.pending ∨
      ∃ started, fetchEntityId E.P w.card = .ok (some started) ∧
        (startFetch E now w).pending = w.pending ++ [started]) ∧
    ((redraw E.P env w.card).outcome = .completed →
      ∀ l ∈ (layersAdded (redraw E.P env w.card).calls).filter Layer.isHistoryMarker,
        ∃ loc ∈ w.card._locationHistory, l = historyMarker w.card._markerOpacity loc) := by
  refine ⟨?_, ?_, ?_, startFetch_pending E now w, ?_⟩
  · simp only [step, hk, fetchSettle, fetchSettleTry, fetchedHistory]
    cases reply <;> rfl
  · simp only [step, hk, fetchSettle, fetchSettleTry]
    cases reply <;> rfl
  · simp only [step, hk, fetchSettle, fetchSettleTry]
    cases reply <;> rfl
  · intro hc l hl
    obtain ⟨f, hg, _⟩ := redraw_completed E.P env w.card hc
    obtain ⟨_, hfilter⟩ := completed_layers E.P env w.card f hg hc
    rw [hfilter Layer.isHistoryMarker rfl, (drawnLayers_filters E.P w.card f).2.1,
      List.mem_map] at hl
    obtain ⟨loc, hloc, rfl⟩ := hl
    exact ⟨loc, (filteredHistory_sublist E.P _ _).subset hloc, rfl⟩

/-- The late reply of the run above: it resolves as the only pending fetch, for the first
device, while the second device is selected. -/
theorem history_keyed_by_fetch_witness :
    (step plainEnv afterSecondReply
      (.resolve 0 (.ok (replyFor "device_tracker.a" 11 11)))).1.card._locationHistory
      = fetchedHistory (.ok (replyFor "device_tracker.a" 11 11))
          (keyOf plainEnv.P (str "device_tracker.a")) :=
  (history_keyed_by_fetch plainEnv afterSecondReply 0
    (.ok (replyFor "device_tracker.a" 11 11)) (str "device_tracker.a") 0 (pageWithContainer 1)
    rfl).1

end GoogleFindMy
